import Mathlib

/-!
Verification of the N2NHU world-generator core (room graph generator,
theme classifier, sprite factory, physics template library, validation
engine, round-trip auto-repair) against its natural-language
specification.

The Python sources are shallowly embedded: Python dicts become ordered
association lists with upsert semantics (matching dict insertion-order
iteration and key overwrite), Python floats become exact rationals
(`Rat`; the claims checked here never depend on binary floating-point
rounding), and every use of the global `random` module is factored into
an explicit `Oracle` that supplies one natural number per draw.  Random
shuffles are realised by an oracle-driven Fisher-Yates pass, so the
result of a shuffle is a permutation of its input for *every* oracle,
and every permutation is realised by some oracle; `random.randint` /
`random.choice` draws are realised by reducing an oracle value modulo
the size of the sampled range, which again is exhaustive and total.
"For every random outcome" in the specification therefore becomes a
universal quantifier over `Oracle`.
-/

namespace N2NHU

/-! ## Association lists with Python-dict semantics -/

/-- Lookup in an ordered association list (first binding wins, which
matches a Python dict because inserts keep keys unique). -/
def dlookup {α : Type} : List (String × α) → String → Option α
  | [], _ => none
  | (k, v) :: rest, key => if k = key then some v else dlookup rest key

/-- The keys of an association list, in insertion order. -/
def dkeys {α : Type} (m : List (String × α)) : List String :=
  m.map Prod.fst

/-- Python `d[key] = v`: overwrite in place if the key is present
(keeping its position), otherwise append. -/
def dinsert {α : Type} : List (String × α) → String → α → List (String × α)
  | [], key, v => [(key, v)]
  | p :: rest, key, v =>
    if p.1 = key then (key, v) :: rest else p :: dinsert rest key v

/-- Python `d.update(other)`: upsert every binding of `other` in order. -/
def dinsertAll {α : Type} (m other : List (String × α)) : List (String × α) :=
  other.foldl (fun acc kv => dinsert acc kv.1 kv.2) m

/-! ## The randomness oracle -/

/-- One source of randomness: a function from a call-site path (a list
of tags identifying the drawing site and its loop indices) to a natural
number.  Distinct call sites use distinct path heads, so any combination
of outcomes of the Python `random` calls corresponds to some oracle. -/
structure Oracle where
  f : List Nat → Nat

/-- Fisher-Yates driven by a stream `ω` of naturals; each step moves the
`ω k % len`-th remaining element to the front.  Structurally recursive on
the fuel, which `fyShuffle` sets to the length of the list. -/
def fyAux {α : Type} (ω : Nat → Nat) : Nat → Nat → List α → List α
  | 0, _, l => l
  | _, _, [] => []
  | fuel+1, k, a :: as =>
    let l := a :: as
    let i := ω k % l.length
    l.get ⟨i, Nat.mod_lt _ (Nat.succ_pos as.length)⟩ ::
      fyAux ω fuel (k+1) (l.eraseIdx i)

/-- Model of `random.shuffle`: a permutation of the input chosen by the
oracle stream; every permutation is realised by some stream. -/
def fyShuffle {α : Type} (ω : Nat → Nat) (l : List α) : List α :=
  fyAux ω l.length 0 l

/-- Model of `random.choice(l)` for nonempty `l` (Python raises on an
empty list; callers below only invoke it guarded, and the default is
never reached at such call sites). -/
def pyChoice {α : Type} (ω : Nat) (l : List α) (dflt : α) : α :=
  l.getD (ω % l.length) dflt

/-- Model of `random.randint(a, b)` (inclusive bounds, `a ≤ b` at every
call site below). -/
def pyRandint (ω : Nat) (a b : Nat) : Nat :=
  a + ω % (b + 1 - a)

/-! ## Python string primitives (ASCII model) -/

/-- Python `str.lower()` restricted to ASCII (every string the claims
touch is ASCII). -/
def pyLower (s : String) : String :=
  String.mk (s.data.map Char.toLower)

def isPySpace (c : Char) : Bool :=
  c = ' ' || c = '\t' || c = '\n' || c = '\r' || c = '\x0b' || c = '\x0c'

/-- Python `str.strip()` (ASCII whitespace). -/
def pyStrip (s : String) : String :=
  String.mk (((s.data.dropWhile isPySpace).reverse.dropWhile isPySpace).reverse)

/-- `needle.isPrefixOf hay` on character lists. -/
def chPrefix : List Char → List Char → Bool
  | [], _ => true
  | _ :: _, [] => false
  | a :: as, b :: bs => a = b && chPrefix as bs

def chContains (needle : List Char) : List Char → Bool
  | [] => needle.isEmpty
  | c :: rest => chPrefix needle (c :: rest) || chContains needle rest

/-- Python `needle in hay` (substring containment). -/
def pyIn (needle hay : String) : Bool :=
  chContains needle.data hay.data

def isWordChar (c : Char) : Bool :=
  ('a' ≤ c && c ≤ 'z') || ('0' ≤ c && c ≤ '9')

/-- Does `kw` occur in `hay` at a position where the characters adjacent
to the occurrence are not in `[a-z0-9]`?  This is exactly the regex
`(?<![a-z0-9])kw(?![a-z0-9])` used by `ThemeEngine.classify` (the
keyword is inserted literally via `re.escape`). -/
def wordBoundaryAux (kw : List Char) : Option Char → List Char → Bool
  | prev, hay =>
    (chPrefix kw hay
      && (match prev with
          | none => true
          | some c => !isWordChar c)
      && (match hay.drop kw.length with
          | [] => true
          | c :: _ => !isWordChar c))
    || (match hay with
        | [] => false
        | c :: rest => wordBoundaryAux kw (some c) rest)

def wordMatch (hay kw : String) : Bool :=
  wordBoundaryAux kw.data none hay.data

/-- Python `', '.join l` for the separator `", "`. -/
def joinComma : List String → String
  | [] => ""
  | [x] => x
  | x :: rest => x ++ ", " ++ joinComma rest

/-- Python `s.split(',')` (does not drop empty pieces; callers strip and
filter afterwards, as the source does). -/
def splitCommaAux : List Char → List Char → List String
  | acc, [] => [String.mk acc.reverse]
  | acc, c :: rest =>
    if c = ',' then String.mk acc.reverse :: splitCommaAux [] rest
    else splitCommaAux (c :: acc) rest

def splitComma (s : String) : List String :=
  splitCommaAux [] s.data

/-- `repr` of a Python string as used in the validator's f-string
messages (`{x!r}`); exact for the quote-and-backslash-free identifiers
that actually reach it. -/
def pyRepr (s : String) : String :=
  "'" ++ s ++ "'"

def pyReprList (l : List String) : String :=
  "[" ++ joinComma (l.map pyRepr) ++ "]"

/-- Python `str(b).lower()` of a bool. -/
def boolStr (b : Bool) : String :=
  if b then "true" else "false"

/-- Decimal rendering of numbers as used in INI values.  Only the fact
that it never contains `%` matters to any claim; rationals are rendered
as `num/den` rather than in Python float notation. -/
def ratStr (q : Rat) : String :=
  toString q.num ++ "/" ++ toString q.den

/-- Python `int(x)` on a (nonnegative at all call sites) rational:
truncation toward zero. -/
def pyInt (q : Rat) : Int :=
  if q < 0 then -((-q).floor) else q.floor

/-- Python `round(x, 2)`; the claims never depend on the half-way
tie-breaking rule, so round-half-up is used. -/
def pyRound2 (q : Rat) : Rat :=
  ((q * 100 + 1/2).floor : Rat) / 100

/-- The single reserved INI character: a `%` that is neither preceded
nor followed by another `%` (the regex `(?<!%)%(?!%)`).  `sub` form —
doubles every lone `%`, leaving runs of `%%` alone; the lookaround
consults the original string, which the recursion mirrors by passing the
original previous character along. -/
def escPctAux : Option Char → List Char → List Char
  | _, [] => []
  | prev, c :: rest =>
    if c = '%' && prev ≠ some '%' && rest.head? ≠ some '%' then
      '%' :: '%' :: escPctAux (some c) rest
    else
      c :: escPctAux (some c) rest

def escapePercent (s : String) : String :=
  String.mk (escPctAux none s.data)

/-- `search` form of the same regex: is a lone `%` present? -/
def lonePctAux : Option Char → List Char → Bool
  | _, [] => false
  | prev, c :: rest =>
    (c = '%' && prev ≠ some '%' && rest.head? ≠ some '%')
      || lonePctAux (some c) rest

def hasLonePct (s : String) : Bool :=
  lonePctAux none s.data

/-- Python `max(l, key=score)` for a nonempty list presented as
`x :: xs`: the first element attaining the maximal score. -/
def argmaxFirst {α : Type} (score : α → Nat) (x : α) (xs : List α) : α :=
  xs.foldl (fun best y => if score y > score best then y else best) x

/-- Python `min(l, key=score)` for a nonempty list presented as
`x :: xs`: the first element attaining the minimal score. -/
def argminFirst {α : Type} (score : α → Nat) (x : α) (xs : List α) : α :=
  xs.foldl (fun best y => if score y < score best then y else best) x

/-- `list(dict.fromkeys(l))`: deduplicate keeping first occurrences. -/
def dedupKeepFirst : List String → List String
  | [] => []
  | x :: rest =>
    x :: (dedupKeepFirst (rest.filter (fun y => y ≠ x)))
termination_by l => l.length
decreasing_by
  simp only [List.length_cons]
  exact Nat.lt_succ_of_le (List.length_filter_le _ _)

/-! ## World model (`world_model.py`) -/

inductive SpriteRole
  | HERO | VILLAIN | NEUTRAL | BOSS | ALLY | GUARD
deriving DecidableEq, Repr

inductive PhysicsType
  | TEMPERATURE | ENERGY | LOCK_KEY | CRAFTING | TELEPORTATION | DISGUISE
  | EXPLOSIVES | BRIBERY | MAGIC | MEDICAL | GROWTH | ALIEN_TECH
deriving DecidableEq, Repr

/-- The `WorldTheme` enumeration, in declaration order (the order of the
`scores` dict built by `ThemeEngine.classify`). -/
inductive WorldTheme
  | SCIFI | MILITARY | FANTASY | DOMESTIC | HORROR | ADVENTURE | SITCOM
  | CRIME_SPY | DISCO | NIGHTCLUB | ORIGINAL
deriving DecidableEq, Repr

/-- The declaration order of `WorldTheme`, i.e. the iteration order of
`{t: 0 for t in WorldTheme}`. -/
def themeEnumOrder : List WorldTheme :=
  [.SCIFI, .MILITARY, .FANTASY, .DOMESTIC, .HORROR, .ADVENTURE, .SITCOM,
   .CRIME_SPY, .DISCO, .NIGHTCLUB, .ORIGINAL]

structure Room where
  room_id : String
  name : String
  description : String
  exits : List (String × String) := []
  properties : List (String × String) := []
  is_start : Bool := false
deriving DecidableEq, Repr

def Room.to_ini_section (r : Room) : List (String × String) :=
  let d := [("name", r.name), ("description", r.description)]
  let d := dinsertAll d r.exits
  let d := dinsertAll d r.properties
  if r.is_start then dinsert d "start" "true" else d

structure GameObject where
  object_id : String
  name : String
  description : String
  location : String
  takeable : Bool := true
  is_weapon : Bool := false
  damage : Int := 0
  is_consumable : Bool := false
  health_restore : Int := 0
  is_container : Bool := false
  is_wearable : Bool := false
  bribe_value : String := ""
  valid_verbs : List String := []
  properties : List (String × String) := []
deriving DecidableEq, Repr

def GameObject.to_ini_section (o : GameObject) : List (String × String) :=
  let d := [("name", o.name), ("description", o.description),
            ("location", o.location), ("takeable", boolStr o.takeable)]
  let d := if o.is_weapon then
    dinsert (dinsert d "weapon" "true") "damage" (toString o.damage) else d
  let d := if o.is_consumable then
    dinsert (dinsert d "consumable" "true") "health_restore"
      (toString o.health_restore) else d
  let d := if o.is_container then dinsert d "container" "true" else d
  let d := if o.is_wearable then
    dinsert (dinsert d "wearable" "true") "worn" "false" else d
  let d := if o.bribe_value ≠ "" then dinsert d "bribe_value" o.bribe_value else d
  let d := if o.valid_verbs ≠ [] then
    dinsert d "valid_verbs" (joinComma o.valid_verbs) else d
  dinsertAll d o.properties

structure Sprite where
  sprite_id : String
  name : String
  description : String
  health : Int
  damage : Int
  aggression : Rat
  ai_behavior : String
  spawn_rooms : List String := []
  spawn_chance : Rat := 0.03
  loot_on_death : String := ""
  can_pickup : Bool := false
  role : SpriteRole := .NEUTRAL
  properties : List (String × String) := []
deriving DecidableEq, Repr

def Sprite.to_ini_section (s : Sprite) : List (String × String) :=
  let d := [("type", "sprite"), ("name", s.name),
            ("description", s.description), ("health", toString s.health),
            ("damage", toString s.damage), ("aggression", ratStr s.aggression),
            ("ai_behavior", s.ai_behavior),
            ("spawn_rooms", joinComma s.spawn_rooms),
            ("spawn_chance", ratStr s.spawn_chance),
            ("can_pickup", boolStr s.can_pickup), ("takeable", "false")]
  let d := if s.loot_on_death ≠ "" then
    dinsert d "loot_on_death" s.loot_on_death else d
  dinsertAll d s.properties

structure Transformation where
  transform_id : String
  object_id : String
  state : String
  turns_required : Int
  new_state : String
  message : String
  new_object_id : String := ""
  requires_object : String := ""
  requires_object_2 : String := ""
  location_property : String := ""
  new_location : String := ""
  properties : List (String × String) := []
deriving DecidableEq, Repr

def Transformation.to_ini_section (t : Transformation) : List (String × String) :=
  let d := [("object_id", t.object_id), ("state", t.state),
            ("turns_required", toString t.turns_required),
            ("new_state", t.new_state), ("message", t.message)]
  let d := if t.new_object_id ≠ "" then
    dinsert d "new_object_id" t.new_object_id else d
  let d := if t.requires_object ≠ "" then
    dinsert d "requires_object" t.requires_object else d
  let d := if t.requires_object_2 ≠ "" then
    dinsert d "requires_object_2" t.requires_object_2 else d
  let d := if t.location_property ≠ "" then
    dinsert d "location_has_property" t.location_property else d
  let d := if t.new_location ≠ "" then
    dinsert d "new_location" t.new_location else d
  dinsertAll d t.properties

structure CombatConfig where
  base_damage : Int := 10
  weapon_multiplier : Rat := 1.0
  respawn_location : String := ""
  death_penalty : Int := 3
  friendly_fire : Bool := false
  damage_types : List (String × Rat) :=
    [("slashing", 1.0), ("piercing", 1.1), ("blunt", 0.9), ("explosive", 2.0)]
deriving DecidableEq, Repr

structure SDConfig where
  host : String := "127.0.0.1"
  port : Int := 7860
  steps : Int := 25
  width : Int := 512
  height : Int := 512
  cfg : Rat := 7.5
  sampler : String := "DPM++ 2M"
  scene_suffix : String := ""
  negative_prompt : String := ""
  cache_images : Bool := true
deriving DecidableEq, Repr

/-- `SDConfig.to_ini_sections`: section must start with `SD`; host and
port are separate keys (both properties the validator re-checks). -/
def SDConfig.to_ini_sections (c : SDConfig) :
    List (String × List (String × String)) :=
  [("settings",
    [("default_steps", toString c.steps), ("default_width", toString c.width),
     ("default_height", toString c.height), ("default_cfg", ratStr c.cfg),
     ("default_sampler", c.sampler), ("cache_images", boolStr c.cache_images),
     ("image_format", "jpg"), ("image_quality", "88")]),
   ("prompt_style",
    [("scene_suffix", c.scene_suffix), ("negative_prompt", c.negative_prompt)]),
   ("SD1",
    [("host", c.host), ("port", toString c.port), ("weight", "1"),
     ("timeout", "60"), ("enabled", "true")])]

structure WorldConfig where
  world_name : String
  theme : WorldTheme
  rooms : List (String × Room) := []
  objects : List (String × GameObject) := []
  sprites : List (String × Sprite) := []
  transformations : List (String × Transformation) := []
  combat : CombatConfig := {}
  sd_config : SDConfig := {}
  physics_applied : List PhysicsType := []
deriving DecidableEq, Repr

def WorldConfig.room_ids (w : WorldConfig) : List String := dkeys w.rooms
def WorldConfig.object_ids (w : WorldConfig) : List String := dkeys w.objects
def WorldConfig.sprite_ids (w : WorldConfig) : List String := dkeys w.sprites

def WorldConfig.start_room (w : WorldConfig) : Option String :=
  (w.rooms.find? (fun p => p.2.is_start)).map Prod.fst

def WorldConfig.summary (w : WorldConfig) : String :=
  "Rooms:" ++ toString w.rooms.length ++ "  Objects:" ++
    toString w.objects.length ++ "  Sprites:" ++ toString w.sprites.length ++
    "  Transforms:" ++ toString w.transformations.length

/-! ## Theme engine (`theme_engine.py`) -/

structure ThemeDefaults where
  theme : WorldTheme
  sd_scene_suffix : String
  sd_negative_prompt : String
  base_damage : Int
  sprite_aggression_low : Rat
  sprite_aggression_high : Rat
  boss_health : Int
  minion_health : Int
  suggested_room_prefixes : List String
  suggested_object_types : List String
  default_physics : List PhysicsType
  suggested_verbs_extra : List String
  flavor_adjective : String
  flavor_noun : String
deriving DecidableEq, Repr

/-- `THEME_KEYWORDS`: the ordered classification table. -/
def THEME_KEYWORDS : List (WorldTheme × List String) :=
  [(.SCIFI,     ["area 51", "alien", "space", "star trek", "galaxy",
                 "mars", "ufo", "nasa", "robot", "android", "scifi",
                 "sci-fi", "stargate", "battlestar", "moon", "orbit",
                 "cosmic", "nebula", "federation", "empire"]),
   (.MILITARY,  ["mash", "hogan", "stalag", "army", "combat", "war",
                 "military", "soldier", "battalion", "platoon", "fort",
                 "barracks", "mission impossible", "a-team", "seal",
                 "ranger", "special ops", "frontline", "vietnam",
                 "korean", "wwii", "ww2", "normandy", "patrol"]),
   (.FANTASY,   ["hogwarts", "wizard", "dragon", "medieval", "castle",
                 "zork", "dungeon", "magic", "elf", "dwarf", "sword",
                 "quest", "realm", "kingdom", "sorcerer", "witch",
                 "enchanted", "fantasy", "rpg", "adventure", "hero"]),
   (.DOMESTIC,  ["barbie", "full house", "brady", "family", "home",
                 "house", "suburb", "kitchen", "cozy", "domestic",
                 "sitcom", "neighborhood", "school", "mall", "shop",
                 "bakery", "cafe", "dollhouse", "dream house"]),
   (.HORROR,    ["haunted", "halloween", "dracula", "vampire", "zombie",
                 "horror", "ghost", "dark", "mansion", "cemetery",
                 "asylum", "cursed", "forbidden", "cthulhu", "evil",
                 "nightmare", "terror", "shadow", "silent hill"]),
   (.ADVENTURE, ["indiana jones", "pirate", "jungle", "explorer",
                 "treasure", "expedition", "safari", "island", "temple",
                 "ruins", "artifact", "archaeology", "map", "tomb",
                 "raiders", "national treasure", "uncharted"]),
   (.SITCOM,    ["bewitched", "i love lucy", "gilligan", "cheers",
                 "seinfeld", "friends", "office", "parks", "frasier",
                 "taxi", "mork", "three company", "laverne", "happy days",
                 "fonzie", "sam malone", "norm", "cliff"]),
   (.DISCO,     ["studio 54", "disco", "dance club", "nightclub", "dance floor",
                 "saturday night fever", "dance hall", "roller rink", "boogie",
                 "dj", "turntable", "rave", "club night", "discotheque"]),
   (.NIGHTCLUB, ["bar", "nightclub", "lounge", "speakeasy", "jazz club",
                 "cocktail", "vip lounge", "rooftop bar", "cabaret",
                 "burlesque", "velvet rope", "bouncer", "bartender"]),
   (.CRIME_SPY, ["james bond", "spy", "agent", "cia", "mi6", "fbi",
                 "detective", "noir", "mystery", "crime", "heist",
                 "get smart", "man from uncle", "magnum", "columbo",
                 "sherlock", "poirot", "morse", " hitman"])]

/-- `THEME_DEFAULTS[t]`: the complete defaults bundle for every tag. -/
def themeDefaultsFor : WorldTheme → ThemeDefaults
  | .SCIFI =>
    { theme := .SCIFI
      sd_scene_suffix := "classified military installation, alien technology, science fiction, cinematic lighting, photorealistic, highly detailed, atmospheric, dramatic shadows, 8k quality"
      sd_negative_prompt := "blurry, low quality, distorted, fantasy, medieval, magic, dragons, swords, cartoon, anime, text, watermark, stock photo, logo, signature, fake text, alamy, shutterstock, getty, letters, cobblestone, torch, forest, dungeon"
      base_damage := 22
      sprite_aggression_low := 0.15
      sprite_aggression_high := 0.75
      boss_health := 150
      minion_health := 55
      suggested_room_prefixes := ["Laboratory", "Control Room", "Hangar",
        "Corridor", "Reactor Chamber", "Observation Deck", "Launch Bay",
        "Quarantine Zone", "Archive Vault", "Engineering Bay"]
      suggested_object_types := ["energy_cell", "scanner", "access_card",
        "data_pad", "plasma_rifle", "alien_artifact", "radiation_suit"]
      default_physics := [.ENERGY, .TELEPORTATION, .ALIEN_TECH]
      suggested_verbs_extra := ["scan", "activate", "insert", "launch", "program"]
      flavor_adjective := "classified"
      flavor_noun := "installation" }
  | .MILITARY =>
    { theme := .MILITARY
      sd_scene_suffix := "military camp, wartime, soldiers, olive drab, cinematic, dramatic lighting, photorealistic, historical, war drama, gritty realistic"
      sd_negative_prompt := "blurry, low quality, fantasy, aliens, futuristic, modern technology, cartoon, anime, text, watermark, stock photo, logo, signature, fake text, alamy, shutterstock, getty, letters, clean, pristine, comfortable, colorful"
      base_damage := 20
      sprite_aggression_low := 0.2
      sprite_aggression_high := 0.8
      boss_health := 120
      minion_health := 50
      suggested_room_prefixes := ["Barracks", "Command Post", "Motor Pool",
        "Mess Hall", "Infirmary", "Armory", "Briefing Room", "Guard Post",
        "Supply Depot", "Communications Center"]
      suggested_object_types := ["rifle", "ration", "dog_tags", "map", "radio",
        "explosive", "medkit", "binoculars", "uniform"]
      default_physics := [.EXPLOSIVES, .MEDICAL, .DISGUISE]
      suggested_verbs_extra := ["attack", "radio", "report", "defuse", "treat"]
      flavor_adjective := "battle-worn"
      flavor_noun := "outpost" }
  | .FANTASY =>
    { theme := .FANTASY
      sd_scene_suffix := "fantasy RPG environment, medieval, atmospheric lighting, cinematic, detailed, stone walls, torchlight, mystical, high quality, dramatic"
      sd_negative_prompt := "blurry, low quality, distorted, modern, futuristic, cartoon, anime, text, watermark, stock photo, logo, signature, fake text, alamy, shutterstock, getty, letters, alien, sci-fi"
      base_damage := 18
      sprite_aggression_low := 0.2
      sprite_aggression_high := 0.7
      boss_health := 130
      minion_health := 45
      suggested_room_prefixes := ["Great Hall", "Dungeon", "Tower", "Library",
        "Chapel", "Armory", "Throne Room", "Garden", "Crypt", "Tavern"]
      suggested_object_types := ["sword", "scroll", "potion", "key", "torch",
        "spell_book", "amulet", "gold_coins", "lockpick"]
      default_physics := [.MAGIC, .LOCK_KEY, .CRAFTING]
      suggested_verbs_extra := ["cast", "read", "pray", "enchant", "forge"]
      flavor_adjective := "ancient"
      flavor_noun := "realm" }
  | .DOMESTIC =>
    { theme := .DOMESTIC
      sd_scene_suffix := "bright cheerful interior, pastel colors, cozy home, soft lighting, photorealistic, detailed, warm atmosphere, inviting, lifestyle photography quality"
      sd_negative_prompt := "blurry, low quality, dark, scary, violent, weapons, military, aliens, medieval, cartoon, anime, text, watermark, stock photo, logo, signature, fake text, alamy, shutterstock, getty, letters, gritty, dangerous"
      base_damage := 5
      sprite_aggression_low := 0.05
      sprite_aggression_high := 0.2
      boss_health := 60
      minion_health := 30
      suggested_room_prefixes := ["Living Room", "Kitchen", "Bedroom",
        "Backyard", "Garage", "Basement", "Attic", "Dining Room",
        "Fashion Studio", "Dream Closet"]
      suggested_object_types := ["fashion_item", "food", "gift", "toy", "phone",
        "outfit", "accessory", "recipe", "photo"]
      default_physics := [.CRAFTING, .GROWTH]
      suggested_verbs_extra := ["wear", "cook", "give", "call", "decorate"]
      flavor_adjective := "cheerful"
      flavor_noun := "home" }
  | .HORROR =>
    { theme := .HORROR
      sd_scene_suffix := "horror, dark atmosphere, shadows, eerie lighting, photorealistic, detailed, fog, abandoned, decaying, cinematic horror, dramatic chiaroscuro"
      sd_negative_prompt := "blurry, low quality, bright, cheerful, colorful, cartoon, anime, text, watermark, stock photo, logo, signature, fake text, alamy, shutterstock, getty, letters, modern, clean, comfortable, futuristic"
      base_damage := 25
      sprite_aggression_low := 0.3
      sprite_aggression_high := 0.9
      boss_health := 160
      minion_health := 60
      suggested_room_prefixes := ["Foyer", "Library", "Cellar", "Attic",
        "Crypt", "Laboratory", "Chapel", "Ballroom", "Servants Quarters",
        "Hidden Room"]
      suggested_object_types := ["candle", "journal", "crucifix", "key",
        "photograph", "ritual_item", "weapon", "potion", "map"]
      default_physics := [.LOCK_KEY, .MAGIC, .TEMPERATURE]
      suggested_verbs_extra := ["hide", "flee", "investigate", "banish", "pray"]
      flavor_adjective := "cursed"
      flavor_noun := "darkness" }
  | .ADVENTURE =>
    { theme := .ADVENTURE
      sd_scene_suffix := "adventure, exploration, jungle, ancient ruins, cinematic, dramatic lighting, photorealistic, detailed, atmospheric, discovery"
      sd_negative_prompt := "blurry, low quality, modern, urban, sci-fi, cartoon, anime, text, watermark, stock photo, logo, signature, fake text, alamy, shutterstock, getty, letters, alien, fantasy magic"
      base_damage := 20
      sprite_aggression_low := 0.25
      sprite_aggression_high := 0.75
      boss_health := 140
      minion_health := 55
      suggested_room_prefixes := ["Jungle Path", "Ancient Temple",
        "Treasure Chamber", "River Crossing", "Village", "Bazaar", "Cave",
        "Cliff Face", "Lost City", "Hidden Passage"]
      suggested_object_types := ["torch", "map", "rope", "artifact", "compass",
        "journal", "key", "gem", "whip", "explosives"]
      default_physics := [.LOCK_KEY, .EXPLOSIVES, .CRAFTING]
      suggested_verbs_extra := ["climb", "dig", "photograph", "decipher", "swing"]
      flavor_adjective := "ancient"
      flavor_noun := "ruins" }
  | .SITCOM =>
    { theme := .SITCOM
      sd_scene_suffix := "sitcom set, warm interior lighting, 1960s 1970s style, photorealistic, detailed, cozy American home, television production quality, nostalgic"
      sd_negative_prompt := "blurry, low quality, dark, scary, violent, military, alien, medieval, cartoon, anime, text, watermark, stock photo, logo, signature, fake text, alamy, shutterstock, getty, letters, gritty"
      base_damage := 8
      sprite_aggression_low := 0.05
      sprite_aggression_high := 0.25
      boss_health := 70
      minion_health := 35
      suggested_room_prefixes := ["Living Room", "Kitchen", "Front Stoop",
        "Diner", "Office", "Apartment", "Backyard", "Garage",
        "Neighbor's House", "Town Square"]
      suggested_object_types := ["prop", "disguise", "bribe_item", "letter",
        "phone", "food", "costume", "newspaper"]
      default_physics := [.DISGUISE, .BRIBERY]
      suggested_verbs_extra := ["joke", "disguise", "scheme", "confess", "bribe"]
      flavor_adjective := "zany"
      flavor_noun := "neighborhood" }
  | .CRIME_SPY =>
    { theme := .CRIME_SPY
      sd_scene_suffix := "spy thriller, noir, cinematic, dramatic shadows, photorealistic, detailed, atmospheric, 1960s aesthetic, tension, suspense, professional quality"
      sd_negative_prompt := "blurry, low quality, fantasy, alien, medieval, cartoon, anime, text, watermark, stock photo, logo, signature, fake text, alamy, shutterstock, getty, letters, cheerful, colorful"
      base_damage := 22
      sprite_aggression_low := 0.3
      sprite_aggression_high := 0.8
      boss_health := 130
      minion_health := 60
      suggested_room_prefixes := ["Safehouse", "Embassy Ballroom",
        "Control Room", "Vault", "Interrogation Room", "Rooftop",
        "Casino Floor", "Underground Lab", "Helipad"]
      suggested_object_types := ["pistol", "identity_papers", "gadget",
        "microfilm", "cipher", "key", "disguise", "explosive", "radio"]
      default_physics := [.DISGUISE, .LOCK_KEY, .EXPLOSIVES]
      suggested_verbs_extra := ["hack", "decode", "photograph", "tail", "interrogate"]
      flavor_adjective := "clandestine"
      flavor_noun := "operation" }
  | .DISCO =>
    { theme := .DISCO
      sd_scene_suffix := "1970s disco club, dance floor, mirror ball, strobe lights, neon glow, polyester fashion, fog machine, cinematic, photorealistic, atmospheric, high energy, dramatic"
      sd_negative_prompt := "blurry, low quality, daylight, outdoor, fantasy, military, cartoon, anime, text, watermark, stock photo, logo, signature, fake text, alamy, shutterstock, getty, letters, medieval, futuristic"
      base_damage := 10
      sprite_aggression_low := 0.05
      sprite_aggression_high := 0.40
      boss_health := 90
      minion_health := 40
      suggested_room_prefixes := ["Dance Floor", "VIP Lounge", "DJ Booth",
        "Bar", "Backstage", "Coat Check", "Balcony", "Hidden Room",
        "Entrance", "Bathroom"]
      suggested_object_types := ["disco_ball", "vinyl_record", "velvet_rope",
        "champagne", "strobe_light", "fog_machine", "sequined_outfit", "pass"]
      default_physics := []
      suggested_verbs_extra := ["dance", "spin", "schmooze", "bribe", "sneak"]
      flavor_adjective := "electric"
      flavor_noun := "dance floor" }
  | .NIGHTCLUB =>
    { theme := .NIGHTCLUB
      sd_scene_suffix := "upscale nightclub, ambient lighting, moody atmosphere, cocktail lounge, neon signs, photorealistic, dramatic, high-end interior, cinematic quality"
      sd_negative_prompt := "blurry, low quality, daylight, outdoor, fantasy, military, cartoon, anime, text, watermark, stock photo, logo, signature, fake text, alamy, shutterstock, getty, letters, medieval"
      base_damage := 12
      sprite_aggression_low := 0.1
      sprite_aggression_high := 0.5
      boss_health := 85
      minion_health := 40
      suggested_room_prefixes := ["Main Bar", "VIP Section", "Dance Floor",
        "Backstage", "Rooftop", "Private Booth", "Coat Check", "Green Room",
        "Entrance", "Back Office"]
      suggested_object_types := ["cocktail", "velvet_rope", "id_scanner",
        "guest_list", "cash_envelope", "key_card", "phone", "drugs"]
      default_physics := []
      suggested_verbs_extra := ["order", "schmooze", "bribe", "sneak", "photograph"]
      flavor_adjective := "exclusive"
      flavor_noun := "venue" }
  | .ORIGINAL =>
    { theme := .ORIGINAL
      sd_scene_suffix := "detailed environment, cinematic lighting, photorealistic, atmospheric, high quality, dramatic"
      sd_negative_prompt := "blurry, low quality, distorted, ugly, cartoon, anime, text, watermark, stock photo, logo, signature, fake text, alamy, shutterstock, getty, letters"
      base_damage := 15
      sprite_aggression_low := 0.2
      sprite_aggression_high := 0.6
      boss_health := 100
      minion_health := 45
      suggested_room_prefixes := ["Entrance", "Main Hall", "Side Room",
        "Upper Level", "Lower Level", "Outer Area", "Inner Chamber",
        "Hidden Area", "Final Room"]
      suggested_object_types := ["key", "weapon", "consumable", "document", "tool"]
      default_physics := [.LOCK_KEY]
      suggested_verbs_extra := []
      flavor_adjective := "mysterious"
      flavor_noun := "place" }

/-- The score one keyword table row contributes for a given (lowered,
stripped) world name: each word-boundary hit is worth 2 points for
keywords longer than 6 characters, else 1. -/
def rowScore (low : String) (kws : List String) : Nat :=
  (kws.map (fun kw =>
    if wordMatch low kw then (if kw.length > 6 then 2 else 1) else 0)).sum

/-- The total score a theme receives for a world name (its unique row of
`THEME_KEYWORDS`, or 0 for a theme with no row). -/
def themeScore (world_name : String) (t : WorldTheme) : Nat :=
  match THEME_KEYWORDS.find? (fun row => row.1 = t) with
  | some row => rowScore (pyStrip (pyLower world_name)) row.2
  | none => 0

/-- `ThemeEngine.classify`: score every theme, take `max` over the
scores dict — whose iteration order is the `WorldTheme` declaration
order — and fall back to `ORIGINAL` when the best score is zero. -/
def classify (world_name : String) : WorldTheme :=
  match themeEnumOrder with
  | [] => .ORIGINAL
  | t0 :: ts =>
    let best := argmaxFirst (themeScore world_name) t0 ts
    if themeScore world_name best = 0 then .ORIGINAL else best

/-- `ThemeEngine.get_defaults`. -/
def getDefaults (world_name : String) : ThemeDefaults :=
  themeDefaultsFor (classify world_name)

/-- The classifier as the *specification sentence* describes it: the tag
with the highest total, ties resolved by first-declared-tag order *of
the keyword table* (spec wording), default `ORIGINAL` when no keyword
matches.  Used only to compare the spec's tie-break rule with the
code's. -/
def classifySpecTableOrder (world_name : String) : WorldTheme :=
  match THEME_KEYWORDS.map Prod.fst with
  | [] => .ORIGINAL
  | t0 :: ts =>
    let best := argmaxFirst (themeScore world_name) t0 ts
    if themeScore world_name best = 0 then .ORIGINAL else best

/-! ## Room graph generator (`room_graph.py`) -/

/-- The three engine-valid direction pairs; the only directions ever
assigned to an edge. -/
def DIRECTION_PAIRS : List (String × String) :=
  [("north", "south"), ("east", "west"), ("up", "down")]

def ALL_DIRECTIONS : List String :=
  DIRECTION_PAIRS.foldr (fun p acc => p.1 :: p.2 :: acc) []

/-- `_safe_id`: lower-case, then the chain of single-character
`str.replace` calls (space, apostrophe, hyphen, slash, parentheses,
comma, period), realised character-wise since every pattern is a single
character. -/
def safeIdChar (c : Char) : Option Char :=
  if c = ' ' then some '_'
  else if c = '\'' then none
  else if c = '-' then some '_'
  else if c = '/' then some '_'
  else if c = '(' then none
  else if c = ')' then none
  else if c = ',' then none
  else if c = '.' then none
  else some c

def safeId (name : String) : String :=
  String.mk (((pyLower name).data).filterMap safeIdChar)

/-- One adjacency entry `(neighbor, direction_from_self, direction_from_neighbor)`. -/
abbrev AdjEntry := Nat × String × String

/-- `adjacency`: a list of length `room_count`, entry `i` holding the
edge list of node `i`. -/
abbrev Adj := List (List AdjEntry)

def adjGet (adj : Adj) (i : Nat) : List AdjEntry :=
  (adj.getD i [])

def adjSet (adj : Adj) (i : Nat) (v : List AdjEntry) : Adj :=
  adj.set i v

def adjAppend (adj : Adj) (i : Nat) (e : AdjEntry) : Adj :=
  adjSet adj i (adjGet adj i ++ [e])

/-- `adjacency[a].append((b, da, db)); adjacency[b].append((a, db, da))` —
the universal edge-insertion pattern of the source. -/
def addEdge (adj : Adj) (a b : Nat) (da db : String) : Adj :=
  adjAppend (adjAppend adj a (b, da, db)) b (a, db, da)

def usedDirs (adj : Adj) (a : Nat) : List String :=
  (adjGet adj a).map (fun e => e.2.1)

/-- `_get_available_direction`: shuffle a copy of `DIRECTION_PAIRS` and
return the first pair whose first component is unused at `a` and second
component unused at `b`. -/
def getAvailableDirection (O : Oracle) (path : List Nat) (adj : Adj)
    (a b : Nat) : Option (String × String) :=
  let pairs := fyShuffle (fun k => O.f (path ++ [k])) DIRECTION_PAIRS
  pairs.find? (fun p =>
    !(usedDirs adj a).contains p.1 && !(usedDirs adj b).contains p.2)

/-- The `for target in candidates: ... break` search for a connected
node with a free direction slot (`site` distinguishes the two loops that
use this pattern; `c` counts candidates already tried so that each
`_get_available_direction` call draws fresh randomness). -/
def findSlot (O : Oracle) (site a : Nat) (adj : Adj) :
    List Nat → Nat → Option (Nat × String × String)
  | [], _ => none
  | t :: rest, c =>
    match getAvailableDirection O [site, a, c] adj a t with
    | some (d, r) => some (t, d, r)
    | none => findSlot O site a adj rest (c+1)

/-- One iteration of the spanning-tree loop for node `i ≥ 1`: attach to
the first shuffled connected node with a free slot; otherwise (the
`not connected` fallback, provably never taken) reroute the first edge
of the most lightly connected node through `i`. -/
def treeStep (O : Oracle) (adj : Adj) (i : Nat) : Adj :=
  let candidates := fyShuffle (fun k => O.f [1, i, k]) (List.range i)
  match findSlot O 0 i adj candidates 0 with
  | some (t, d, r) => addEdge adj i t d r
  | none =>
    match candidates with
    | [] => adj
    | c0 :: cs =>
      let lightest := argminFirst (fun x => (adjGet adj x).length) c0 cs
      match adjGet adj lightest with
      | [] => adj
      | (oldJ, _, _) :: restL =>
        let adj1 := adjSet adj lightest restL
        let adj2 := adjSet adj1 oldJ
          ((adjGet adj1 oldJ).filter (fun e => e.1 ≠ lightest))
        let adj3 :=
          match getAvailableDirection O [2, i, 0] adj2 lightest i with
          | some (d1, r1) => addEdge adj2 lightest i d1 r1
          | none => adj2
        match getAvailableDirection O [2, i, 1] adj3 i oldJ with
        | some (d2, r2) => addEdge adj3 i oldJ d2 r2
        | none => adj3

/-- Steps 1..n-1 of the spanning-tree construction, `steps` iterations
starting at node `start`. -/
def buildTreeAux (O : Oracle) : Adj → Nat → Nat → Adj
  | adj, _, 0 => adj
  | adj, start, steps+1 => buildTreeAux O (treeStep O adj start) (start+1) steps

def buildTree (O : Oracle) (n : Nat) : Adj :=
  buildTreeAux O (List.replicate n []) 1 (n - 1)

/-- Step 4: the bounded bonus-connection loop (`while added < bonus
and attempts < bonus*20`); fuel is the attempt budget itself. -/
def bonusLoop (O : Oracle) (n bonusCount : Nat) :
    Adj → Nat → Nat → Nat → Adj
  | adj, _, _, 0 => adj
  | adj, added, attempts, fuel+1 =>
    if added < bonusCount ∧ attempts < bonusCount * 20 then
      let attempts' := attempts + 1
      let i := pyRandint (O.f [3, attempts']) 0 (n - 1)
      let j := pyRandint (O.f [4, attempts']) 0 (n - 1)
      if i = j then bonusLoop O n bonusCount adj added attempts' fuel
      else if (adjGet adj i).any (fun e => e.1 = j) then
        bonusLoop O n bonusCount adj added attempts' fuel
      else
        match getAvailableDirection O [5, attempts'] adj i j with
        | some (d, r) =>
          bonusLoop O n bonusCount (addEdge adj i j d r) (added+1) attempts' fuel
        | none => bonusLoop O n bonusCount adj added attempts' fuel
    else adj

/-- Step 5's breadth-first search.  The fuel dominates the number of
queue pops of the Python loop (1 initial element plus at most one push
per adjacency entry), so the recursion mirrors the `while queue` loop
exactly. -/
def bfsLoop (adj : Adj) : List Nat → List Nat → Nat → List Nat
  | _, visited, 0 => visited
  | [], visited, _+1 => visited
  | cur :: queue, visited, fuel+1 =>
    if visited.contains cur then bfsLoop adj queue visited fuel
    else
      let visited' := visited ++ [cur]
      let newQ := queue ++
        (((adjGet adj cur).filter (fun e => !(visited'.contains e.1))).map
          (fun e => e.1))
      bfsLoop adj newQ visited' fuel

def bfs (adj : Adj) : List Nat :=
  bfsLoop adj [0] [] (2 + adj.length + 2 * ((adj.map List.length).sum))

/-- The force-connect safety net over the (set-difference) unreachable
list: try every shuffled reachable node for a free slot, adding `idx` to
the reachable pool on success. -/
def forceConnect (O : Oracle) : Adj → List Nat → List Nat → Adj × List Nat
  | adj, reach, [] => (adj, reach)
  | adj, reach, idx :: rest =>
    let rlist := fyShuffle (fun k => O.f [6, idx, k]) reach
    match findSlot O 7 idx adj rlist 0 with
    | some (t, d, r) =>
      forceConnect O (addEdge adj idx t d r) (reach ++ [idx]) rest
    | none => forceConnect O adj reach rest

/-- `room_count = max(3, min(room_count, 100))`. -/
def clampCount (rc : Nat) : Nat := max 3 (min rc 100)

def genericNames : List String :=
  ["Chamber", "Passage", "Hall", "Area", "Zone",
   "Room", "Space", "Level", "Section", "Sector"]

/-- `while len(prefixes) < count: prefixes.extend(generic)`; `generic`
is the literal nonempty list above, so `count` rounds of fuel always
suffice. -/
def padPrefixes (l generic : List String) (count : Nat) : Nat → List String
  | 0 => l
  | fuel+1 =>
    if l.length < count then padPrefixes (l ++ generic) generic count fuel
    else l

/-- Positional overlay of the caller-supplied custom names (stripped,
blank entries skipped). -/
def overlayCustom (names : List String) : List String → Nat → List String
  | [], _ => names
  | c :: rest, i =>
    let names' := if pyStrip c ≠ "" then names.set i (pyStrip c) else names
    overlayCustom names' rest (i+1)

/-- Name disambiguation: the k-th repeat of `name` becomes
`name (k+1)` with a space (`f"{name} {seen[name]+1}"`). -/
def dedupNames : List String → List (String × Nat) → List String
  | [], _ => []
  | nm :: rest, seen =>
    match dlookup seen nm with
    | some k =>
      (nm ++ " " ++ toString (k + 2)) :: dedupNames rest (dinsert seen nm (k+1))
    | none => nm :: dedupNames rest (dinsert seen nm 0)

/-- Id disambiguation: the k-th repeat of `id` becomes `id_k`
(`f"{id_}_{seen_ids[id_]}"`, where the counter has just been bumped). -/
def dedupIds : List String → List (String × Nat) → List String
  | [], _ => []
  | nm :: rest, seen =>
    match dlookup seen nm with
    | some k =>
      (nm ++ "_" ++ toString (k + 1)) :: dedupIds rest (dinsert seen nm (k+1))
    | none => nm :: dedupIds rest (dinsert seen nm 0)

/-- `_generate_names`, before the `Entrance` overwrite: shuffle the
padded prefixes, truncate, overlay custom names. -/
def genNamesBase (O : Oracle) (count : Nat) (theme : ThemeDefaults)
    (custom_names : Option (List String)) : List String :=
  let prefixes := padPrefixes theme.suggested_room_prefixes genericNames
    count (count + 1)
  let names := (fyShuffle (fun k => O.f [8, k]) prefixes).take count
  match custom_names with
  | some cs => overlayCustom names (cs.take count) 0
  | none => names

/-- `_generate_names`: force room 0 to `Entrance`, disambiguate. -/
def genNames (O : Oracle) (count : Nat) (theme : ThemeDefaults)
    (custom_names : Option (List String)) : List String :=
  dedupNames ((genNamesBase O count theme custom_names).set 0 "Entrance") []

/-- The deduplicated slug list that keys the generated room map. -/
def genIds (O : Oracle) (count : Nat) (theme : ThemeDefaults)
    (custom_names : Option (List String)) : List String :=
  dedupIds ((genNames O count theme custom_names).map safeId) []

/-- `_generate_description` (the three templates; `random.choice`
picks by oracle index). -/
def genDescription (O : Oracle) (i : Nat) (room_name : String)
    (theme : ThemeDefaults) (world_name : String)
    (exits : List (String × String)) : String :=
  let exit_list := if exits.isEmpty then "none" else joinComma (dkeys exits)
  let t1 := "The " ++ room_name ++ " of " ++ world_name ++ ". A " ++
    theme.flavor_adjective ++ " " ++ theme.flavor_noun ++
    " with an atmosphere that feels entirely in keeping with this place. Exits lead " ++
    exit_list ++ "."
  let t2 := "You stand in the " ++ room_name ++
    ". Everything here speaks to the " ++ theme.flavor_adjective ++
    " nature of " ++ world_name ++ ". The air carries traces of what this " ++
    theme.flavor_noun ++ " has witnessed. Exits: " ++ exit_list ++ "."
  let t3 := "The " ++ room_name ++ ". In the broader context of " ++
    world_name ++
    ", this space has its own particular character — " ++
    theme.flavor_adjective ++
    " in ways that are immediately apparent. Passages lead " ++ exit_list ++ "."
  pyChoice (O.f [9, i]) [t1, t2, t3] ""

/-- Step 6's per-room exits dict: only engine-valid directions are ever
written. -/
def buildExits (entries : List AdjEntry) (ids : List String) :
    List (String × String) :=
  entries.foldl (fun ex e =>
    if ALL_DIRECTIONS.contains e.2.1 then dinsert ex e.2.1 (ids.getD e.1 "")
    else ex) []

/-- The `Room` record step 6 builds for index `i`. -/
def roomAt (O : Oracle) (names ids : List String) (adj : Adj)
    (theme : ThemeDefaults) (world_name : String) (i : Nat) : Room :=
  let room_id := ids.getD i ""
  let room_name := names.getD i ""
  let exits := buildExits (adjGet adj i) ids
  { room_id := room_id, name := room_name
    description := escapePercent
      (genDescription O i room_name theme world_name exits)
    exits := exits, properties := [], is_start := (i = 0) }

/-- Step 6: materialise the `room_id → Room` dict. -/
def buildRooms (O : Oracle) (n : Nat) (names ids : List String) (adj : Adj)
    (theme : ThemeDefaults) (world_name : String) : List (String × Room) :=
  (List.range n).foldl (fun rooms i =>
    dinsert rooms (ids.getD i "") (roomAt O names ids adj theme world_name i)) []

/-- The adjacency structure `RoomGraphGenerator.generate` ends up with
after steps 3-5 (spanning tree, bonus connections, BFS + force-connect). -/
def genAdj (O : Oracle) (n : Nat) : Adj :=
  let adjT := buildTree O n
  let bonusCount := max 2 (Int.toNat ((n : Int) * 3 / 10))
  let adjB := bonusLoop O n bonusCount adjT 0 0 (bonusCount * 20 + 1)
  let reach := bfs adjB
  let unreach := (List.range n).filter (fun x => !(reach.contains x))
  (forceConnect O adjB reach unreach).1

/-- `RoomGraphGenerator.generate`.  (`int(room_count * 0.3)` is modelled
in exact arithmetic as `⌊3n/10⌋`.) -/
def generate (O : Oracle) (room_count : Nat) (theme : ThemeDefaults)
    (world_name : String) (custom_names : Option (List String)) :
    List (String × Room) :=
  let n := clampCount room_count
  let names := genNames O n theme custom_names
  let ids := genIds O n theme custom_names
  buildRooms O n names ids (genAdj O n) theme world_name

/-- One step of exit-following in a generated room map. -/
def roomStep (rooms : List (String × Room)) (a b : String) : Prop :=
  ∃ rm, dlookup rooms a = some rm ∧ ∃ d, (d, b) ∈ rm.exits

/-- Reachability by following exits, from room id `a` to room id `b`. -/
def roomReach (rooms : List (String × Room)) (a b : String) : Prop :=
  Relation.ReflTransGen (roomStep rooms) a b

/-- The opposite of an engine direction (axis partner). -/
def oppositeDir (d : String) : String :=
  if d = "north" then "south" else if d = "south" then "north"
  else if d = "east" then "west" else if d = "west" then "east"
  else if d = "up" then "down" else if d = "down" then "up" else d

/-! ## Sprite factory (`sprite_factory.py`) -/

/-- `ROLE_KEYWORDS` (plain-substring matching, as the source). -/
def ROLE_KEYWORDS : List (SpriteRole × List String) :=
  [(.VILLAIN, ["villain", "enemy", "guard", "soldier", "officer", "agent",
               "monster", "demon", "dragon", "dark", "evil", "bad", "boss",
               "commander", "general", "overlord", "antagonist", "gestapo",
               "mib", "alien", "troll", "orc", "zombie", "vampire"]),
   (.BOSS,    ["boss", "chief", "leader", "king", "queen", "emperor",
               "overlord", "master", "commander", "colonel", "general",
               "admiral", "director", "president"]),
   (.ALLY,    ["ally", "friend", "partner", "companion", "hero", "helper",
               "medic", "doctor", "nurse", "priest", "father", "chaplain",
               "hawkeye", "bj", "radar", "mulcahy", "hogan", "newkirk",
               "carter", "lebeau", "kinchloe"]),
   (.NEUTRAL, ["clerk", "shopkeeper", "merchant", "civilian", "villager",
               "butler", "maid", "servant", "cook", "farmer", "child",
               "schultz", "klink", "igor", "klinger", "winchester",
               "margaret", "potter", "frank"]),
   (.GUARD,   ["guard", "sentry", "patrol", "watchman", "security",
               "trooper", "private", "grunt"])]

def ROLE_BEHAVIOR (r : SpriteRole) : String :=
  match r with
  | .HERO => "ally_support"
  | .VILLAIN => "aggressive_patrol"
  | .NEUTRAL => "neutral_npc"
  | .BOSS => "aggressive_patrol"
  | .ALLY => "ally_support"
  | .GUARD => "patrol_basic"

/-- `KNOWN_CHARACTER_OVERRIDES`, in dict insertion order. -/
def KNOWN_CHARACTER_OVERRIDES : List (String × (Rat × String × SpriteRole)) :=
  [("schultz",    (0.05, "willful_blindness",    .NEUTRAL)),
   ("klink",      (0.10, "pompous_bluster",      .NEUTRAL)),
   ("burkhalter", (0.30, "pompous_authority",    .NEUTRAL)),
   ("radar",      (0.05, "logistics_genius",     .ALLY)),
   ("klinger",    (0.10, "escape_artist",        .NEUTRAL)),
   ("hawkeye",    (0.10, "ally_wit",             .ALLY)),
   ("potter",     (0.15, "commanding_fair",      .ALLY)),
   ("margaret",   (0.40, "regulation_authority", .NEUTRAL)),
   ("frank",      (0.65, "regulation_enforcer",  .VILLAIN)),
   ("winchester", (0.20, "pompous_bluster",      .NEUTRAL)),
   ("mulcahy",    (0.05, "moral_compass",        .ALLY)),
   ("barbie",     (0.02, "neutral_npc",          .NEUTRAL)),
   ("ken",        (0.02, "neutral_npc",          .NEUTRAL)),
   ("skipper",    (0.01, "neutral_npc",          .NEUTRAL)),
   ("tabitha",    (0.05, "magic_user",           .ALLY)),
   ("samantha",   (0.05, "magic_user",           .ALLY)),
   ("darrin",     (0.10, "neutral_npc",          .NEUTRAL))]

def spriteRoleOrder : List SpriteRole :=
  [.HERO, .VILLAIN, .NEUTRAL, .BOSS, .ALLY, .GUARD]

def makeSpriteId (name : String) : String :=
  String.mk (((pyStrip (pyLower name)).data).filterMap (fun c =>
    if c = ' ' then some '_'
    else if c = '\'' then none
    else if c = '-' then some '_'
    else some c)) ++ "_template"

def roleScore (name_lower : String) (r : SpriteRole) : Nat :=
  match ROLE_KEYWORDS.find? (fun row => row.1 = r) with
  | some row => (row.2.filter (fun kw => pyIn kw name_lower)).length
  | none => 0

/-- `SpriteFactory._role_aggression`. -/
def roleAggression (role : SpriteRole) (theme : ThemeDefaults) : Rat :=
  let lo := theme.sprite_aggression_low
  let hi := theme.sprite_aggression_high
  let v :=
    match role with
    | .HERO => lo
    | .ALLY => lo
    | .NEUTRAL => lo * 1.5
    | .GUARD => (lo + hi) / 2
    | .VILLAIN => hi
    | .BOSS => min 0.95 (hi * 1.1)
  pyRound2 v

/-- `SpriteFactory._classify`: hand-tuned overrides first (substring
test, insertion order), then keyword scoring with `max` over the
`SpriteRole`-ordered scores dict, defaulting to `NEUTRAL`. -/
def classifySprite (name : String) (theme : ThemeDefaults) :
    SpriteRole × String × Rat :=
  let name_lower := pyStrip (pyLower name)
  match KNOWN_CHARACTER_OVERRIDES.find? (fun ov => pyIn ov.1 name_lower) with
  | some ov => (ov.2.2.2, ov.2.2.1, ov.2.1)
  | none =>
    match spriteRoleOrder with
    | [] => (.NEUTRAL, ROLE_BEHAVIOR .NEUTRAL, roleAggression .NEUTRAL theme)
    | r0 :: rs =>
      let best0 := argmaxFirst (roleScore name_lower) r0 rs
      let best := if roleScore name_lower best0 = 0 then .NEUTRAL else best0
      (best, ROLE_BEHAVIOR best, roleAggression best theme)

/-- `SpriteFactory._calc_stats`. -/
def calcStats (role : SpriteRole) (theme : ThemeDefaults) : Int × Int :=
  match role with
  | .BOSS => (theme.boss_health, pyInt ((theme.base_damage : Rat) * 1.5))
  | .ALLY => (pyInt ((theme.minion_health : Rat) * 1.3),
              pyInt ((theme.base_damage : Rat) * 0.8))
  | .HERO => (pyInt ((theme.minion_health : Rat) * 1.3),
              pyInt ((theme.base_damage : Rat) * 0.8))
  | .NEUTRAL => (pyInt ((theme.minion_health : Rat) * 0.9),
                 pyInt ((theme.base_damage : Rat) * 0.4))
  | .GUARD => (theme.minion_health, pyInt ((theme.base_damage : Rat) * 1.1))
  | .VILLAIN => (pyInt ((theme.minion_health : Rat) * 1.1), theme.base_damage)

/-- `SpriteFactory._assign_spawn_rooms`: deterministic round-robin
partition of the room-id list, deduplicated preserving order. -/
def assignSpawnRooms (idx total : Nat) (room_ids : List String) :
    List String :=
  if room_ids.isEmpty then []
  else
    let rooms_per := max 1 (room_ids.length / max 1 total)
    let start := (idx * rooms_per) % room_ids.length
    let spawn := (List.range (min 2 rooms_per)).map (fun j =>
      room_ids.getD ((start + j) % room_ids.length) "")
    dedupKeepFirst spawn

/-- `SpriteFactory._assign_loot`. -/
def assignLoot (O : Oracle) (i : Nat) (world : WorldConfig)
    (role : SpriteRole) : String :=
  if world.objects.isEmpty then ""
  else
    let candidates := (world.objects.filter (fun p =>
      p.2.takeable && p.2.location ≠ "none")).map Prod.fst
    if candidates.isEmpty then ""
    else
      if role = .BOSS then
        let best := candidates.filter (fun oid =>
          match dlookup world.objects oid with
          | some o => o.is_weapon || o.is_consumable
          | none => false)
        if !best.isEmpty then pyChoice (O.f [11, i]) best ""
        else pyChoice (O.f [12, i]) candidates ""
      else pyChoice (O.f [12, i]) candidates ""

/-- `SpriteFactory._generate_description`. -/
def spriteDescription (name : String) (role : SpriteRole)
    (theme : ThemeDefaults) : String :=
  let d :=
    match role with
    | .HERO => "A central figure in this " ++ theme.flavor_adjective ++ " world."
    | .VILLAIN => "A hostile presence in this " ++ theme.flavor_noun ++ "."
    | .NEUTRAL => "A resident of this " ++ theme.flavor_adjective ++ " " ++
        theme.flavor_noun ++ "."
    | .BOSS => "The most dangerous entity in this " ++ theme.flavor_noun ++ "."
    | .ALLY => "A trustworthy ally in this " ++ theme.flavor_adjective ++ " world."
    | .GUARD => "A patrol element in this " ++ theme.flavor_adjective ++ " " ++
        theme.flavor_noun ++ "."
  name ++ ". " ++ d

/-- The loop body of `generate_sprites` (enumerate over the names). -/
def spritesLoop (O : Oracle) (theme : ThemeDefaults) (world : WorldConfig)
    (room_ids : List String) (total : Nat) :
    List String → Nat → List (String × Sprite) → List (String × Sprite)
  | [], _, acc => acc
  | nm :: rest, i, acc =>
    if pyStrip nm = "" then spritesLoop O theme world room_ids total rest (i+1) acc
    else
      let sid0 := makeSpriteId nm
      let sid := if acc.any (fun p => p.1 = sid0) then
        sid0 ++ "_" ++ toString i else sid0
      let rba := classifySprite nm theme
      let role := rba.1
      let hd := calcStats role theme
      let spawn := assignSpawnRooms i total room_ids
      let loot := assignLoot O i world role
      let sprite : Sprite :=
        { sprite_id := sid
          name := nm ++ " (template)"
          description := spriteDescription nm role theme
          health := hd.1
          damage := hd.2
          aggression := rba.2.2
          ai_behavior := rba.2.1
          spawn_rooms := spawn
          spawn_chance := if role = .ALLY || role = .NEUTRAL then 0.04 else 0.06
          loot_on_death := loot
          can_pickup := role ≠ .BOSS
          role := role }
      spritesLoop O theme world room_ids total rest (i+1) (dinsert acc sid sprite)

/-- `SpriteFactory.generate_sprites`. -/
def generateSprites (O : Oracle) (names : List String)
    (theme : ThemeDefaults) (world : WorldConfig) : List (String × Sprite) :=
  if names.isEmpty || world.rooms.isEmpty then []
  else spritesLoop O theme world (dkeys world.rooms) names.length names 0 []

/-! ## Physics template library (`physics_templates.py`) -/

structure PhysicsPackage where
  physics_type : PhysicsType
  display_name : String
  description : String
  emoji : String
  objects : List (String × GameObject) := []
  transformations : List (String × Transformation) := []
deriving DecidableEq, Repr

/-- `PhysicsPackage.inject`. -/
def PhysicsPackage.inject (pkg : PhysicsPackage) (world : WorldConfig) :
    WorldConfig :=
  { world with
    objects := dinsertAll world.objects pkg.objects
    transformations := dinsertAll world.transformations pkg.transformations
    physics_applied :=
      if pkg.physics_type ∈ world.physics_applied then world.physics_applied
      else world.physics_applied ++ [pkg.physics_type] }

/-- `_random_room`: `random.choice(list(world.rooms.keys()))` (raises on
an empty world; call sites below are reached only with rooms present). -/
def randomRoom (O : Oracle) (path : List Nat) (world : WorldConfig) : String :=
  pyChoice (O.f path) (dkeys world.rooms) ""

/-- `_first_room_id`. -/
def firstRoomId (world : WorldConfig) : String :=
  (world.start_room).getD ((dkeys world.rooms).getD 0 "")

/-- Mark one room's property bag (`world.rooms[room].properties[k] = v`). -/
def setRoomProperty (world : WorldConfig) (room k v : String) : WorldConfig :=
  { world with rooms := world.rooms.map (fun p =>
      if p.1 = room then (p.1, { p.2 with properties := dinsert p.2.properties k v })
      else p) }

def buildEnergy (O : Oracle) (tag : Nat) (world : WorldConfig)
    (_theme : ThemeDefaults) : PhysicsPackage × WorldConfig :=
  let room := randomRoom O [10, tag, 0] world
  let pkg : PhysicsPackage :=
    { physics_type := .ENERGY
      display_name := "Energy Charging"
      description := "Objects charge in power zones over time"
      emoji := "⚡"
      objects :=
        [("power_cell_inert",
          { object_id := "power_cell_inert", name := "inert power cell"
            description := "A power cell in its inert state. It requires a power zone to become energized. Handle with care."
            location := randomRoom O [10, tag, 1] world
            takeable := true
            valid_verbs := ["take", "drop", "examine", "use", "insert"] }),
         ("power_cell_charged",
          { object_id := "power_cell_charged", name := "charged power cell"
            description := "A fully energized power cell, humming with contained power. It glows faintly and is warm to the touch."
            location := "none"
            takeable := true
            valid_verbs := ["take", "drop", "examine", "use", "insert"] })]
      transformations :=
        [("energy_charge",
          { transform_id := "energy_charge", object_id := "power_cell_inert"
            state := "normal", turns_required := 5, new_state := "charged"
            new_object_id := "power_cell_charged"
            location_property := "power_zone"
            message := "The power cell begins to absorb energy from the zone. After several moments the humming intensifies and the cell glows with stored power. It is fully charged." })] }
  (pkg, if (dkeys world.rooms).contains room then
    setRoomProperty world room "power_zone" "true" else world)

def buildLockKey (O : Oracle) (tag : Nat) (world : WorldConfig)
    (_theme : ThemeDefaults) : PhysicsPackage × WorldConfig :=
  let room_ids := dkeys world.rooms
  let locked_room := room_ids.getD (min 2 (room_ids.length - 1)) ""
  let pkg : PhysicsPackage :=
    { physics_type := .LOCK_KEY
      display_name := "Lock & Key"
      description := "Doors and containers require keys"
      emoji := "🔓"
      objects :=
        [("master_key",
          { object_id := "master_key", name := "master key"
            description := "A heavy key that opens the locked door. Someone left it here — either careless or confident that you would never find it."
            location := randomRoom O [10, tag, 0] world
            takeable := true
            valid_verbs := ["take", "drop", "examine", "use"] })]
      transformations :=
        [("door_unlocked",
          { transform_id := "door_unlocked", object_id := "master_key"
            state := "normal", turns_required := 1, new_state := "used"
            message := "The key fits. The lock disengages with a heavy clunk. The door swings open. Whatever was locked away is now accessible." })] }
  (pkg, if (dkeys world.rooms).contains locked_room then
    setRoomProperty world locked_room "locked" "true" else world)

def buildCrafting (O : Oracle) (tag : Nat) (world : WorldConfig)
    (_theme : ThemeDefaults) : PhysicsPackage × WorldConfig :=
  ({ physics_type := .CRAFTING
     display_name := "Crafting / Combining"
     description := "Combine objects to create new ones"
     emoji := "🧪"
     objects :=
       [("ingredient_a",
         { object_id := "ingredient_a", name := "component A"
           description := "One half of a combination. Alone it does little. Combined with the right partner, it becomes something more."
           location := randomRoom O [10, tag, 0] world
           takeable := true
           valid_verbs := ["take", "drop", "examine", "use"] }),
        ("ingredient_b",
         { object_id := "ingredient_b", name := "component B"
           description := "The complementary component. There is a satisfaction in finding the thing that completes another thing."
           location := randomRoom O [10, tag, 1] world
           takeable := true
           valid_verbs := ["take", "drop", "examine", "use"] }),
        ("crafted_result",
         { object_id := "crafted_result", name := "combined item"
           description := "The result of combining components A and B. Something new exists that did not exist before. This is the point of crafting."
           location := "none"
           takeable := true
           is_consumable := true
           health_restore := 30
           valid_verbs := ["take", "drop", "examine", "use"] })]
     transformations :=
       [("craft_combine",
         { transform_id := "craft_combine", object_id := "ingredient_a"
           state := "normal", turns_required := 1, new_state := "combined"
           new_object_id := "crafted_result"
           requires_object := "ingredient_b"
           message := "You combine the two components. There is a moment of uncertainty and then — yes. The combined item exists. It is more than the sum of its parts." })] },
   world)

def buildExplosives (O : Oracle) (tag : Nat) (world : WorldConfig)
    (_theme : ThemeDefaults) : PhysicsPackage × WorldConfig :=
  ({ physics_type := .EXPLOSIVES
     display_name := "Timed Explosives"
     description := "Place charges, arm, detonate"
     emoji := "💣"
     objects :=
       [("explosive_charge",
         { object_id := "explosive_charge", name := "explosive charge"
           description := "A shaped explosive charge. Treat with appropriate respect. Requires a detonator to activate. Place at the target, arm with the detonator, move to safe distance."
           location := randomRoom O [10, tag, 0] world
           takeable := true
           is_weapon := true
           damage := 80
           valid_verbs := ["take", "drop", "examine", "use", "place"] }),
        ("detonator",
         { object_id := "detonator", name := "detonator"
           description := "A remote detonation device. Works at range. Press when clear of the blast radius."
           location := randomRoom O [10, tag, 1] world
           takeable := true
           valid_verbs := ["take", "drop", "examine", "use"] })]
     transformations :=
       [("arm_explosive",
         { transform_id := "arm_explosive", object_id := "explosive_charge"
           state := "placed", turns_required := 1, new_state := "armed"
           requires_object := "detonator"
           message := "You connect the detonator. A small LED blinks red. The charge is armed. Time to move." }),
        ("detonate",
         { transform_id := "detonate", object_id := "explosive_charge"
           state := "armed", turns_required := 3, new_state := "detonated"
           message := "The explosion is larger than expected. The structural damage is extensive. The objective is achieved. Mission success." })] },
   world)

def buildDisguise (O : Oracle) (tag : Nat) (world : WorldConfig)
    (_theme : ThemeDefaults) : PhysicsPackage × WorldConfig :=
  ({ physics_type := .DISGUISE
     display_name := "Disguise System"
     description := "Wear disguises to change NPC reactions"
     emoji := "🎭"
     objects :=
       [("disguise_item",
         { object_id := "disguise_item", name := "disguise"
           description := "A convincing disguise. Put it on and the world sees someone different. Being someone else, even briefly, changes what is possible."
           location := randomRoom O [10, tag, 0] world
           takeable := true
           is_wearable := true
           valid_verbs := ["take", "drop", "examine", "wear", "use"] })]
     transformations :=
       [("wear_disguise",
         { transform_id := "wear_disguise", object_id := "disguise_item"
           state := "normal", turns_required := 1, new_state := "wearing"
           message := "You put on the disguise. You look in the nearest reflective surface and see someone else entirely. The transformation is complete. Act the part." })] },
   world)

def buildBribery (O : Oracle) (tag : Nat) (world : WorldConfig)
    (_theme : ThemeDefaults) : PhysicsPackage × WorldConfig :=
  ({ physics_type := .BRIBERY
     display_name := "Bribery / Persuasion"
     description := "Items that neutralize hostile sprites"
     emoji := "🗝️"
     objects :=
       [("bribe_item",
         { object_id := "bribe_item", name := "bribe"
           description := "Something that everyone wants. Currency is fungible but desire is specific. This is the right currency for this particular situation."
           location := randomRoom O [10, tag, 0] world
           takeable := true
           is_consumable := true
           health_restore := 0
           bribe_value := "high"
           valid_verbs := ["take", "drop", "examine", "use", "give"] })]
     transformations :=
       [("bribe_used",
         { transform_id := "bribe_used", object_id := "bribe_item"
           state := "normal", turns_required := 1, new_state := "consumed"
           message := "You offer the bribe. There is a moment — calculation behind their eyes — and then acceptance. They look away. You have purchased temporary blindness. Use it well." })] },
   world)

def buildMedical (O : Oracle) (tag : Nat) (world : WorldConfig)
    (_theme : ThemeDefaults) : PhysicsPackage × WorldConfig :=
  ({ physics_type := .MEDICAL
     display_name := "Medical System"
     description := "Heal wounded, perform procedures"
     emoji := "🏥"
     objects :=
       [("medical_kit",
         { object_id := "medical_kit", name := "medical kit"
           description := "A field medical kit containing the essentials. Not everything, but enough. In the right hands it is more powerful than any weapon here."
           location := randomRoom O [10, tag, 0] world
           takeable := true
           is_consumable := true
           health_restore := 40
           valid_verbs := ["take", "drop", "examine", "use"] }),
        ("advanced_medicine",
         { object_id := "advanced_medicine", name := "advanced medicine"
           description := "High-grade medical supplies. Requires skill to use correctly. In the right hands, recovers what seemed lost."
           location := randomRoom O [10, tag, 1] world
           takeable := true
           is_consumable := true
           health_restore := 70
           valid_verbs := ["take", "drop", "examine", "use"] })]
     transformations :=
       [("apply_treatment",
         { transform_id := "apply_treatment", object_id := "medical_kit"
           state := "normal", turns_required := 2, new_state := "used"
           message := "You apply the treatment with care and precision. The improvement is immediate. There is no more reliable satisfaction than healing working as intended." })] },
   world)

def buildMagic (O : Oracle) (tag : Nat) (world : WorldConfig)
    (_theme : ThemeDefaults) : PhysicsPackage × WorldConfig :=
  ({ physics_type := .MAGIC
     display_name := "Magic Casting"
     description := "Spell words transform rooms and objects"
     emoji := "✨"
     objects :=
       [("spell_scroll",
         { object_id := "spell_scroll", name := "spell scroll"
           description := "A scroll containing an incantation. The words are precise — power without precision is just noise. Read the words correctly and something changes."
           location := randomRoom O [10, tag, 0] world
           takeable := true
           valid_verbs := ["take", "drop", "examine", "read", "cast", "use"] }),
        ("enchanted_item",
         { object_id := "enchanted_item", name := "enchanted item"
           description := "An object altered by magical means. It is the same object it was and also entirely different. Magic specializes in this kind of paradox."
           location := "none"
           takeable := true
           valid_verbs := ["take", "drop", "examine", "use"] })]
     transformations :=
       [("cast_spell",
         { transform_id := "cast_spell", object_id := "spell_scroll"
           state := "normal", turns_required := 1, new_state := "cast"
           new_object_id := "enchanted_item"
           message := "The words of the incantation form and release. There is a moment where the laws of the world negotiate with the instruction you have just given them. The spell takes effect." })] },
   world)

def buildTeleportation (O : Oracle) (tag : Nat) (world : WorldConfig)
    (_theme : ThemeDefaults) : PhysicsPackage × WorldConfig :=
  let rooms := dkeys world.rooms
  let dest_room := if rooms.length > 1 then rooms.getLastD "" else rooms.getD 0 ""
  ({ physics_type := .TELEPORTATION
     display_name := "Teleportation"
     description := "Portal devices transport players between locations"
     emoji := "🚀"
     objects :=
       [("portal_device",
         { object_id := "portal_device", name := "portal device"
           description := "A device that folds space. The destination is encoded in its configuration. Activate it and you are somewhere else. The transition is instantaneous and profoundly disorienting."
           location := randomRoom O [10, tag, 0] world
           takeable := true
           valid_verbs := ["take", "drop", "examine", "activate", "use"] })]
     transformations :=
       [("teleport_activate",
         { transform_id := "teleport_activate", object_id := "portal_device"
           state := "normal", turns_required := 1, new_state := "activated"
           new_location := dest_room
           message := "You activate the device. Space folds. You are somewhere else entirely. You are in the " ++
             ((dlookup world.rooms dest_room).map Room.name).getD "" ++ "." })] },
   world)

def buildTemperature (O : Oracle) (tag : Nat) (world : WorldConfig)
    (_theme : ThemeDefaults) : PhysicsPackage × WorldConfig :=
  ({ physics_type := .TEMPERATURE
     display_name := "Temperature Physics"
     description := "Water freezes, ice melts, temperature zones affect objects"
     emoji := "🧊"
     objects :=
       [("water_container",
         { object_id := "water_container", name := "container of water"
           description := "Water in a container. Its state depends entirely on temperature."
           location := randomRoom O [10, tag, 0] world
           takeable := true
           valid_verbs := ["take", "drop", "examine", "use"] }),
        ("ice_block",
         { object_id := "ice_block", name := "block of ice"
           description := "Frozen water. In a cold zone it stays frozen. Elsewhere it will return to what it was."
           location := "none"
           takeable := true
           valid_verbs := ["take", "drop", "examine", "use"] })]
     transformations :=
       [("water_freezes",
         { transform_id := "water_freezes", object_id := "water_container"
           state := "normal", turns_required := 3, new_state := "frozen"
           new_object_id := "ice_block"
           location_property := "cold_zone"
           message := "The water in the container begins to crystallize. The temperature here is doing exactly what temperature does. The container now holds a solid block of ice." }),
        ("ice_melts",
         { transform_id := "ice_melts", object_id := "ice_block"
           state := "frozen", turns_required := 4, new_state := "normal"
           new_object_id := "water_container"
           location_property := "warm_zone"
           message := "The ice block softens. Drops form. The solid becomes liquid again with the unhurried patience of physics doing what physics does." })] },
   world)

def buildGrowth (O : Oracle) (tag : Nat) (world : WorldConfig)
    (_theme : ThemeDefaults) : PhysicsPackage × WorldConfig :=
  ({ physics_type := .GROWTH
     display_name := "Growth / Decay"
     description := "Plants grow, food spoils over time"
     emoji := "🌱"
     objects :=
       [("seed",
         { object_id := "seed", name := "seed"
           description := "A seed. Contains the complete instructions for becoming something much larger. Currently not using any of them."
           location := randomRoom O [10, tag, 0] world
           takeable := true
           valid_verbs := ["take", "drop", "examine", "plant", "use"] }),
        ("grown_plant",
         { object_id := "grown_plant", name := "grown plant"
           description := "The seed followed its instructions. It is now a plant. This is what seeds do when given time and a suitable location."
           location := "none"
           takeable := true
           is_consumable := true
           health_restore := 20
           valid_verbs := ["take", "drop", "examine", "eat", "use"] })]
     transformations :=
       [("seed_grows",
         { transform_id := "seed_grows", object_id := "seed"
           state := "planted", turns_required := 8, new_state := "grown"
           new_object_id := "grown_plant"
           message := "The seed has grown. It took time — eight turns, to be precise — but the instructions encoded in the seed have been executed faithfully. A plant exists where there was none." })] },
   world)

def buildAlienTech (O : Oracle) (tag : Nat) (world : WorldConfig)
    (_theme : ThemeDefaults) : PhysicsPackage × WorldConfig :=
  ({ physics_type := .ALIEN_TECH
     display_name := "Alien Technology"
     description := "Scan and activate alien artifacts"
     emoji := "🛸"
     objects :=
       [("alien_artifact",
         { object_id := "alien_artifact", name := "alien artifact"
           description := "An object not made by human hands. The materials are unidentifiable. The purpose is unclear. The craftsmanship is either primitive or so advanced it looks primitive."
           location := randomRoom O [10, tag, 0] world
           takeable := true
           valid_verbs := ["take", "drop", "examine", "scan", "activate", "use"] }),
        ("scanner_device",
         { object_id := "scanner_device", name := "scanner device"
           description := "A scanning device that analyzes non-terrestrial objects. Point at artifact. Read output. Repeat until understanding approaches something resembling certainty."
           location := randomRoom O [10, tag, 1] world
           takeable := true
           valid_verbs := ["take", "drop", "examine", "scan", "use"] }),
        ("activated_artifact",
         { object_id := "activated_artifact", name := "activated alien artifact"
           description := "The artifact is doing something now. What it is doing is difficult to describe precisely. The effect is measurable even if the mechanism is not understood."
           location := "none"
           takeable := true
           valid_verbs := ["take", "drop", "examine", "use"] })]
     transformations :=
       [("alien_scan",
         { transform_id := "alien_scan", object_id := "alien_artifact"
           state := "dormant", turns_required := 2, new_state := "analyzed"
           requires_object := "scanner_device"
           message := "The scanner reads the artifact. The output is a cascade of data that means something to someone who understands it. You understand enough to proceed to activation." }),
        ("alien_activate",
         { transform_id := "alien_activate", object_id := "alien_artifact"
           state := "analyzed", turns_required := 1, new_state := "active"
           new_object_id := "activated_artifact"
           message := "The artifact activates. The change is immediate and unmistakable. You have caused something non-human to do what it was built to do. This feels significant." })] },
   world)

/-- `PhysicsTemplateLibrary.get_package` (the builder table; every
`PhysicsType` has its own builder, so the `lock_key` default of the
Python `dict.get` is never taken). -/
def getPackage (O : Oracle) (tag : Nat) (pt : PhysicsType)
    (world : WorldConfig) (theme : ThemeDefaults) :
    PhysicsPackage × WorldConfig :=
  match pt with
  | .TEMPERATURE => buildTemperature O tag world theme
  | .ENERGY => buildEnergy O tag world theme
  | .LOCK_KEY => buildLockKey O tag world theme
  | .CRAFTING => buildCrafting O tag world theme
  | .TELEPORTATION => buildTeleportation O tag world theme
  | .DISGUISE => buildDisguise O tag world theme
  | .EXPLOSIVES => buildExplosives O tag world theme
  | .BRIBERY => buildBribery O tag world theme
  | .MAGIC => buildMagic O tag world theme
  | .MEDICAL => buildMedical O tag world theme
  | .GROWTH => buildGrowth O tag world theme
  | .ALIEN_TECH => buildAlienTech O tag world theme

/-- Every cross-reference of a transformation resolves against the given
object-id and room-id pools. -/
def transformResolved (objIds roomIds : List String) (t : Transformation) :
    Prop :=
  t.object_id ∈ objIds ∧
  (t.new_object_id ≠ "" → t.new_object_id ∈ objIds) ∧
  (t.requires_object ≠ "" → t.requires_object ∈ objIds) ∧
  (t.requires_object_2 ≠ "" → t.requires_object_2 ∈ objIds) ∧
  (t.new_location ≠ "" → t.new_location ∈ roomIds)

/-! ## Validation engine (`validation_engine.py`) -/

structure ValidationResult where
  errors : List String
  warnings : List String
deriving DecidableEq, Repr

/-- `ValidationResult.is_valid`: valid iff the error list is empty
(warnings never considered). -/
def ValidationResult.is_valid (r : ValidationResult) : Bool :=
  r.errors.length == 0

def pyUpper (s : String) : String :=
  String.mk (s.data.map Char.toUpper)

def startsWith (s pre : String) : Bool :=
  chPrefix pre.data s.data

/-- Check 1: room exit references. -/
def checkExits (w : WorldConfig) : List String :=
  w.rooms.flatMap (fun p =>
    p.2.exits.flatMap (fun e =>
      if !(w.room_ids.contains e.2) then
        ["[rooms][" ++ p.1 ++ "] exit '" ++ e.1 ++ "'->" ++ pyRepr e.2 ++
         " MISSING"]
      else []))

/-- Check 2: exactly one start room. -/
def checkStart (w : WorldConfig) : List String :=
  let starts := (w.rooms.filter (fun p => p.2.is_start)).map Prod.fst
  if starts.length = 0 then ["No start room defined"]
  else if starts.length > 1 then ["Multiple start rooms: " ++ pyReprList starts]
  else []

/-- The validator's BFS over exit targets (with the same guards the
source applies: targets are followed only when they name a room). -/
def vBfsLoop (w : WorldConfig) : List String → List String → Nat → List String
  | _, visited, 0 => visited
  | [], visited, _ => visited
  | cur :: queue, visited, fuel+1 =>
    if visited.contains cur then vBfsLoop w queue visited fuel
    else
      let visited' := visited ++ [cur]
      let outs :=
        match dlookup w.rooms cur with
        | some rm => ((rm.exits.filter (fun e =>
            w.room_ids.contains e.2 && !(visited'.contains e.2))).map
              (fun e => e.2))
        | none => []
      vBfsLoop w (queue ++ outs) visited' fuel

/-- Check 3: full reachability from the start room. -/
def checkReachable (w : WorldConfig) : List String :=
  let starts := (w.rooms.filter (fun p => p.2.is_start)).map Prod.fst
  match starts with
  | [] => []
  | s0 :: _ =>
    if w.rooms.length > 1 then
      let fuel := 2 + w.rooms.length +
        2 * ((w.rooms.map (fun p => p.2.exits.length)).sum)
      let reachable := vBfsLoop w [s0] [] fuel
      (w.room_ids.filter (fun rid => !(reachable.contains rid))).map
        (fun rid => "[rooms][" ++ rid ++ "] UNREACHABLE from start")
    else []

/-- Check 4: room names and descriptions nonblank. -/
def checkRoomText (w : WorldConfig) : List String :=
  w.rooms.flatMap (fun p =>
    (if pyStrip p.2.name = "" then ["[rooms][" ++ p.1 ++ "] missing name"]
     else []) ++
    (if pyStrip p.2.description = "" then
      ["[rooms][" ++ p.1 ++ "] missing description"] else []))

/-- Check 5: object locations resolve (and containers contain). -/
def checkObjLocations (w : WorldConfig) : List String :=
  w.objects.flatMap (fun p =>
    if p.2.location ≠ "" && p.2.location ≠ "none" then
      if !(w.room_ids.contains p.2.location) &&
         !(w.object_ids.contains p.2.location) then
        ["[objects][" ++ p.1 ++ "] location=" ++ pyRepr p.2.location ++
         " MISSING"]
      else if w.object_ids.contains p.2.location then
        match dlookup w.objects p.2.location with
        | some container =>
          if !container.is_container then
            ["[objects][" ++ p.1 ++ "] location " ++ pyRepr p.2.location ++
             " not a container"]
          else []
        | none => []
      else []
    else [])

/-- Check 6: object names and descriptions nonblank. -/
def checkObjText (w : WorldConfig) : List String :=
  w.objects.flatMap (fun p =>
    (if pyStrip p.2.name = "" then ["[objects][" ++ p.1 ++ "] missing name"]
     else []) ++
    (if pyStrip p.2.description = "" then
      ["[objects][" ++ p.1 ++ "] missing description"] else []))

/-- Check 7, per sprite: unresolved spawn rooms are errors, an *empty*
spawn list is a warning and never an error. -/
def spawnFindings (room_ids : List String) (sid : String) (s : Sprite) :
    List String × List String :=
  ((s.spawn_rooms.filter (fun r => !(room_ids.contains r))).map (fun r =>
      "[sprites][" ++ sid ++ "] spawn_room " ++ pyRepr r ++ " MISSING"),
   if s.spawn_rooms.isEmpty then
     ["[sprites][" ++ sid ++ "] has no spawn_rooms"]
   else [])

def checkSpawnErrors (w : WorldConfig) : List String :=
  w.sprites.flatMap (fun p => (spawnFindings w.room_ids p.1 p.2).1)

def checkSpawnWarnings (w : WorldConfig) : List String :=
  w.sprites.flatMap (fun p => (spawnFindings w.room_ids p.1 p.2).2)

/-- Check 8: loot references resolve. -/
def checkLoot (w : WorldConfig) : List String :=
  w.sprites.flatMap (fun p =>
    if p.2.loot_on_death ≠ "" &&
       !(w.object_ids.contains p.2.loot_on_death) then
      ["[sprites][" ++ p.1 ++ "] loot_on_death=" ++ pyRepr p.2.loot_on_death ++
       " MISSING"]
    else [])

/-- Check 9: sprite names nonblank. -/
def checkSpriteText (w : WorldConfig) : List String :=
  w.sprites.flatMap (fun p =>
    if pyStrip p.2.name = "" then ["[sprites][" ++ p.1 ++ "] missing name"]
    else [])

/-- Checks 10-13: transformation references resolve. -/
def checkTransformObject (w : WorldConfig) : List String :=
  w.transformations.flatMap (fun p =>
    if !(w.object_ids.contains p.2.object_id) then
      ["[transforms][" ++ p.1 ++ "] object_id=" ++ pyRepr p.2.object_id ++
       " MISSING"]
    else [])

def checkTransformNewObject (w : WorldConfig) : List String :=
  w.transformations.flatMap (fun p =>
    if p.2.new_object_id ≠ "" && !(w.object_ids.contains p.2.new_object_id) then
      ["[transforms][" ++ p.1 ++ "] new_object_id=" ++
       pyRepr p.2.new_object_id ++ " MISSING"]
    else [])

def checkTransformRequires (w : WorldConfig) : List String :=
  w.transformations.flatMap (fun p =>
    (if p.2.requires_object ≠ "" &&
        !(w.object_ids.contains p.2.requires_object) then
      ["[transforms][" ++ p.1 ++ "] requires_object=" ++
       pyRepr p.2.requires_object ++ " MISSING"]
     else []) ++
    (if p.2.requires_object_2 ≠ "" &&
        !(w.object_ids.contains p.2.requires_object_2) then
      ["[transforms][" ++ p.1 ++ "] requires_object_2=" ++
       pyRepr p.2.requires_object_2 ++ " MISSING"]
     else []))

def checkTransformLocation (w : WorldConfig) : List String :=
  w.transformations.flatMap (fun p =>
    if p.2.new_location ≠ "" && !(w.room_ids.contains p.2.new_location) then
      ["[transforms][" ++ p.1 ++ "] new_location=" ++
       pyRepr p.2.new_location ++ " MISSING"]
    else [])

/-- Check 14: combat respawn room resolves. -/
def checkCombat (w : WorldConfig) : List String :=
  if w.combat.respawn_location ≠ "" &&
     !(w.room_ids.contains w.combat.respawn_location) then
    ["[combat] respawn_location=" ++ pyRepr w.combat.respawn_location ++
     " MISSING"]
  else []

/-- Check 15: SD section naming convention. -/
def checkSdNaming (w : WorldConfig) : List String :=
  (w.sd_config.to_ini_sections).flatMap (fun sec =>
    if sec.1 ≠ "settings" && sec.1 ≠ "prompt_style" then
      if !(startsWith (pyUpper sec.1) "SD") then
        ["[sd] section [" ++ sec.1 ++ "] must start with 'SD'"]
      else []
    else [])

/-- Check 16: host/port are separate keys, never a combined `url`. -/
def checkSdHostPort (w : WorldConfig) : List String :=
  (w.sd_config.to_ini_sections).flatMap (fun sec =>
    if sec.1 ≠ "settings" && sec.1 ≠ "prompt_style" then
      (if (dkeys sec.2).contains "url" then
        ["[sd][" ++ sec.1 ++ "] must NOT use combined 'url=' key"] else []) ++
      (if !((dkeys sec.2).contains "host") then
        ["[sd][" ++ sec.1 ++ "] missing 'host' key"] else []) ++
      (if !((dkeys sec.2).contains "port") then
        ["[sd][" ++ sec.1 ++ "] missing 'port' key"] else [])
    else [])

def pctFindings (source sect : String) (kvs : List (String × String)) :
    List String :=
  kvs.flatMap (fun kv =>
    if hasLonePct kv.2 then
      ["[" ++ source ++ "][" ++ sect ++ "]." ++ kv.1 ++ " has bare '%'"]
    else [])

/-- Check 17: no bare `%` in any serialised field. -/
def checkPercents (w : WorldConfig) : List String :=
  (w.rooms.flatMap (fun p => pctFindings "rooms" p.1 p.2.to_ini_section)) ++
  (w.objects.flatMap (fun p => pctFindings "objects" p.1 p.2.to_ini_section)) ++
  (w.sprites.flatMap (fun p => pctFindings "sprites" p.1 p.2.to_ini_section)) ++
  (w.transformations.flatMap (fun p =>
    pctFindings "transforms" p.1 p.2.to_ini_section))

/-- Check 18: no duplicate section id across the four collections. -/
def checkDuplicates (w : WorldConfig) : List String :=
  let all_ids := w.room_ids ++ w.object_ids ++ w.sprite_ids ++
    dkeys w.transformations
  (all_ids.foldl (fun acc id_ =>
    (acc.1 ++ (if acc.2.contains id_ then
      ["Duplicate section ID '" ++ id_ ++ "' across files"] else []),
     acc.2 ++ [id_])) (([] : List String), ([] : List String))).1

/-- `ValidationEngine.validate`: the 18 checks in source order, errors
prefixed `FAIL: `, warnings prefixed `WARN: `. -/
def validate (w : WorldConfig) : ValidationResult :=
  { errors := (checkExits w ++ checkStart w ++ checkReachable w ++
      checkRoomText w ++ checkObjLocations w ++ checkObjText w ++
      checkSpawnErrors w ++ checkLoot w ++ checkSpriteText w ++
      checkTransformObject w ++ checkTransformNewObject w ++
      checkTransformRequires w ++ checkTransformLocation w ++
      checkCombat w ++ checkSdNaming w ++ checkSdHostPort w ++
      checkPercents w ++ checkDuplicates w).map (fun m => "FAIL: " ++ m)
    warnings := (checkSpawnWarnings w).map (fun m => "WARN: " ++ m) }

/-! ## Round-trip verifier (`validation_engine.py`, post-parse) -/

abbrev IniSection := List (String × String)

structure ParsedIni where
  sections : List (String × IniSection)
deriving DecidableEq, Repr

/-- The six artifacts re-parsed from disk, plus the raw lines of every
file for the reserved-character scan.  The file I/O itself (existence
checks and `configparser.read`) is outside the embedding: `verify` is
modelled from the point where all six artifacts have parsed. -/
structure ParsedArtifacts where
  rooms : ParsedIni
  objects : ParsedIni
  sprites : ParsedIni
  transformations : ParsedIni
  combat : ParsedIni
  sd : ParsedIni
  rawLines : List (String × List String)
deriving DecidableEq, Repr

def ENGINE_DIRECTIONS : List String :=
  ["north", "south", "east", "west", "up", "down"]

def INVALID_FOR_ENGINE : List String :=
  ["northeast", "northwest", "southeast", "southwest", "enter", "exit"]

def rtRoomFindings (roomIds : List String) (s : String) (d : IniSection) :
    List String :=
  (ENGINE_DIRECTIONS.flatMap (fun dr =>
    match dlookup d dr with
    | some target =>
      if !(roomIds.contains target) then
        ["[rooms][" ++ s ++ "] exit '" ++ dr ++ "'->" ++ pyRepr target ++
         " MISSING after write"]
      else []
    | none => [])) ++
  (INVALID_FOR_ENGINE.flatMap (fun dr =>
    if (dkeys d).contains dr then
      ["[rooms][" ++ s ++ "] exit '" ++ dr ++ "' NOT read by engine (use only: " ++
       joinComma ENGINE_DIRECTIONS ++ ")"]
    else []))

/-- `RoundTripVerifier.verify`, from the point where the six files have
been read and parsed. -/
def roundTripVerify (a : ParsedArtifacts) : ValidationResult :=
  let roomIds := dkeys a.rooms.sections
  let objIds := dkeys a.objects.sections
  let roomErrs := a.rooms.sections.flatMap (fun p =>
    rtRoomFindings roomIds p.1 p.2)
  let objErrs := a.objects.sections.flatMap (fun p =>
    let loc := (dlookup p.2 "location").getD ""
    if loc ≠ "" && loc ≠ "none" && !(roomIds.contains loc) &&
       !(objIds.contains loc) then
      ["[objects][" ++ p.1 ++ "] location=" ++ pyRepr loc ++
       " MISSING after write"]
    else [])
  let sprErrs := a.sprites.sections.flatMap (fun p =>
    (((splitComma ((dlookup p.2 "spawn_rooms").getD "")).map pyStrip).filter
      (fun r => r ≠ "")).flatMap (fun r =>
        if !(roomIds.contains r) then
          ["[sprites][" ++ p.1 ++ "] spawn_room " ++ pyRepr r ++
           " MISSING after write"]
        else []))
  let trErrs := a.transformations.sections.flatMap (fun p =>
    (["object_id", "new_object_id", "requires_object",
      "requires_object_2"].flatMap (fun key =>
        let val := (dlookup p.2 key).getD ""
        if val ≠ "" && !(objIds.contains val) then
          ["[transforms][" ++ p.1 ++ "] " ++ key ++ "=" ++ pyRepr val ++
           " MISSING after write"]
        else [])))
  let sdErrs := (a.sd.sections.filter (fun p =>
      p.1 ≠ "settings" && p.1 ≠ "prompt_style")).flatMap (fun p =>
    if !(startsWith (pyUpper p.1) "SD") then
      ["[sd][" ++ p.1 ++ "] not starting with 'SD' after write"]
    else [])
  let pctErrs := a.rawLines.flatMap (fun nl =>
    ((nl.2.enumFrom 1).flatMap (fun li =>
      if hasLonePct li.2 then
        ["[" ++ nl.1 ++ "] line " ++ toString li.1 ++ " bare '%' after write"]
      else [])))
  { errors := (roomErrs ++ objErrs ++ sprErrs ++ trErrs ++ sdErrs ++
      pctErrs).map (fun m => "FAIL: " ++ m)
    warnings := [] }

/-! ## Auto-repair pass (`create_world.py`, step 5) -/

/-- The twelve direction keys the repair pass inspects. -/
def DIRECTIONS12 : List String :=
  ["north", "south", "east", "west", "up", "down",
   "northeast", "northwest", "southeast", "southwest", "enter", "exit"]

/-- Remove every direction option whose target room does not exist. -/
def repairRooms (rooms : ParsedIni) : ParsedIni :=
  let valid := dkeys rooms.sections
  ⟨rooms.sections.map (fun p =>
    (p.1, p.2.filter (fun kv =>
      !(DIRECTIONS12.contains kv.1 && !(valid.contains kv.2)))))⟩

/-- `'entrance' if 'entrance' in valid_rooms else list(valid_rooms)[0]`
(`none` models the `IndexError` on an artifact with no rooms at all). -/
def fallbackRoom (valid : List String) : Option String :=
  if valid.contains "entrance" then some "entrance" else valid.head?

def repairObjSection (valid : List String) (fb : Option String)
    (opts : IniSection) : Option IniSection :=
  match dlookup opts "location" with
  | some loc =>
    if loc ≠ "" && loc ≠ "none" && !(valid.contains loc) then
      match fb with
      | some f => some (dinsert opts "location" f)
      | none => none
    else some opts
  | none => some opts

def repairObjects (objs : ParsedIni) (valid : List String)
    (fb : Option String) : Option ParsedIni :=
  (objs.sections.mapM (fun p =>
    (repairObjSection valid fb p.2).map (fun opts => (p.1, opts)))).map
      ParsedIni.mk

def repairSprSection (valid : List String) (fb : Option String)
    (opts : IniSection) : Option IniSection :=
  match dlookup opts "spawn_rooms" with
  | some raw =>
    let rooms_list := ((splitComma raw).map pyStrip).filter (fun r => r ≠ "")
    let valid_spawns := rooms_list.filter (fun r => valid.contains r)
    if valid_spawns.length < rooms_list.length then
      match fb with
      | some f =>
        some (dinsert opts "spawn_rooms"
          (joinComma (if valid_spawns ≠ [] then valid_spawns else [f])))
      | none => none
    else some opts
  | none => some opts

def repairSprites (sprs : ParsedIni) (valid : List String)
    (fb : Option String) : Option ParsedIni :=
  (sprs.sections.mapM (fun p =>
    (repairSprSection valid fb p.2).map (fun opts => (p.1, opts)))).map
      ParsedIni.mk

/-- The full auto-repair pass of `create_world.main` step 5: broken
exits removed, dangling object locations and spawn rooms redirected to
the fallback room.  `none` models the crash Python would hit when a
fallback is needed but the rooms artifact has no sections. -/
def autoRepair (rooms objs sprs : ParsedIni) :
    Option (ParsedIni × ParsedIni × ParsedIni) :=
  let rooms' := repairRooms rooms
  let valid := dkeys rooms'.sections
  let fb := fallbackRoom valid
  match repairObjects objs valid fb, repairSprites sprs valid fb with
  | some objs', some sprs' => some (rooms', objs', sprs')
  | _, _ => none

/-- Every room, object and spawn-room identifier mentioned by the three
repairable artifacts: section names, direction-option targets, object
locations and spawn-room entries. -/
def artifactIds (rooms objs sprs : ParsedIni) : List String :=
  dkeys rooms.sections ++
  rooms.sections.flatMap (fun p =>
    ((p.2.filter (fun kv => DIRECTIONS12.contains kv.1)).map (fun kv => kv.2))) ++
  dkeys objs.sections ++
  objs.sections.filterMap (fun p => dlookup p.2 "location") ++
  dkeys sprs.sections ++
  sprs.sections.flatMap (fun p =>
    ((splitComma ((dlookup p.2 "spawn_rooms").getD "")).map pyStrip).filter
      (fun r => r ≠ ""))

/-! ## Orchestrator (`generator.py`) -/

structure GeneratorRequest where
  world_name : String
  character_names : List String := []
  room_count : Nat := 20
  physics_types : List PhysicsType := []
  output_dir : String := "./generated_world"
  custom_theme : Option WorldTheme := none
  sd_host : String := "127.0.0.1"
  sd_port : Int := 7860
  sd_scene_suffix : String := ""
  sd_negative_prompt : String := ""
  custom_room_names : List String := []
  base_damage_override : Option Int := none
deriving DecidableEq, Repr

structure GeneratorResult where
  success : Bool
  world : Option WorldConfig
  written_files : List (String × String) := []
  validation_errors : List String := []
  validation_warnings : List String := []
  roundtrip_errors : List String := []
  summary : String := ""
  theme_used : Option WorldTheme := none
deriving DecidableEq, Repr

def physicsValue : PhysicsType → String
  | .TEMPERATURE => "temperature"
  | .ENERGY => "energy"
  | .LOCK_KEY => "lock_key"
  | .CRAFTING => "crafting"
  | .TELEPORTATION => "teleportation"
  | .DISGUISE => "disguise"
  | .EXPLOSIVES => "explosives"
  | .BRIBERY => "bribery"
  | .MAGIC => "magic"
  | .MEDICAL => "medical"
  | .GROWTH => "growth"
  | .ALIEN_TECH => "alien_tech"

/-- `WorldGenerator._build_starter_objects`. -/
def buildStarterObjects (theme : ThemeDefaults) (world : WorldConfig) :
    List (String × GameObject) :=
  let room_ids := dkeys world.rooms
  if room_ids.isEmpty then []
  else
    let starters : List (String × String × Bool × Bool × Bool × Int × Int ×
        List String) :=
      [("starter_weapon",
        ((theme.suggested_object_types.getD 0 "weapon"), true, false, false,
         theme.base_damage, 0, [])),
       ("starter_health", ("health item", false, true, false, 0, 35,
         ["take", "drop", "examine", "use"])),
       ("starter_key", ("access key", false, false, false, 0, 0,
         ["take", "drop", "examine", "use"])),
       ("starter_document", ("important document", false, false, false, 0, 0,
         ["take", "drop", "examine", "read"]))]
    ((starters.enumFrom 0).foldl (fun acc it =>
      let i := it.1
      let oid := it.2.1
      let nm := it.2.2.1
      let is_weapon := it.2.2.2.1
      let is_consumable := it.2.2.2.2.1
      let is_container := it.2.2.2.2.2.1
      let damage := it.2.2.2.2.2.2.1
      let health_restore := it.2.2.2.2.2.2.2.1
      let verbs := it.2.2.2.2.2.2.2.2
      let location := room_ids.getD (i % room_ids.length) ""
      let obj_verbs0 :=
        if verbs.isEmpty then ["take", "drop", "examine", "use"] else verbs
      let obj_verbs :=
        if is_weapon then ["take", "drop", "examine", "use", "attack"]
        else obj_verbs0
      dinsert acc oid
        { object_id := oid, name := nm
          description := "A " ++ nm ++ " found in this " ++
            theme.flavor_adjective ++
            " world. It has a purpose here. Examine it carefully."
          location := location
          takeable := true
          is_weapon := is_weapon
          damage := damage
          is_consumable := is_consumable
          health_restore := health_restore
          is_container := is_container
          valid_verbs := obj_verbs }) [])

/-- Stage 5: build and inject each selected physics package in order
(builders may also tag a room of the world in place). -/
def applyPhysics (O : Oracle) (theme : ThemeDefaults) :
    List PhysicsType → Nat → WorldConfig → WorldConfig
  | [], _, w => w
  | pt :: rest, tag, w =>
    let pw := getPackage O tag pt w theme
    applyPhysics O theme rest (tag+1) (pw.1.inject pw.2)

/-- Stages 1-8 of `WorldGenerator._run_pipeline`: everything up to (and
excluding) validation.  Returns the assembled world and the resolved
theme defaults. -/
def buildWorld (O : Oracle) (req : GeneratorRequest) :
    WorldConfig × ThemeDefaults :=
  let theme_defaults :=
    match req.custom_theme with
    | some t => themeDefaultsFor t
    | none => getDefaults req.world_name
  let world0 : WorldConfig :=
    { world_name := req.world_name, theme := theme_defaults.theme }
  let world1 := { world0 with
    rooms := generate O req.room_count theme_defaults req.world_name
      (if req.custom_room_names.isEmpty then none
       else some req.custom_room_names) }
  let world2 := { world1 with
    objects := buildStarterObjects theme_defaults world1 }
  let physics_to_apply :=
    if req.physics_types.isEmpty then theme_defaults.default_physics
    else req.physics_types
  let world3 := applyPhysics O theme_defaults physics_to_apply 0 world2
  let world4 :=
    if req.character_names.isEmpty then world3
    else { world3 with
      sprites := generateSprites O req.character_names theme_defaults world3 }
  let base_dmg :=
    match req.base_damage_override with
    | some v => if v ≠ 0 then v else theme_defaults.base_damage
    | none => theme_defaults.base_damage
  let world5 := { world4 with
    combat := { base_damage := base_dmg
                respawn_location := (world4.start_room).getD "" } }
  let ss :=
    if req.sd_scene_suffix ≠ "" then req.sd_scene_suffix
    else theme_defaults.sd_scene_suffix
  let np :=
    if req.sd_negative_prompt ≠ "" then req.sd_negative_prompt
    else theme_defaults.sd_negative_prompt
  let world6 := { world5 with
    sd_config := { host := req.sd_host
                   port := req.sd_port
                   scene_suffix := ss
                   negative_prompt := np } }
  (world6, theme_defaults)

/-- `WorldGenerator._run_pipeline`, stages 9-11.  The serializer
(`INIWriter.write_all`, not part of the core sources) and the on-disk
round-trip verification are abstract parameters: `writer` maps the world
and output directory to the written-files map, `rtv` re-reads the output
directory.  The failure branch consults neither. -/
def runPipeline (writer : WorldConfig → String → List (String × String))
    (rtv : String → ValidationResult) (O : Oracle) (req : GeneratorRequest) :
    GeneratorResult :=
  let bw := buildWorld O req
  let world := bw.1
  let theme_defaults := bw.2
  let validation := validate world
  if !validation.is_valid then
    { success := false
      world := some world
      written_files := []
      validation_errors := validation.errors
      validation_warnings := validation.warnings
      roundtrip_errors := []
      summary := world.summary
      theme_used := some theme_defaults.theme }
  else
    let written := writer world req.output_dir
    let rt := rtv req.output_dir
    { success := rt.is_valid
      world := some world
      written_files := written
      validation_errors := validation.errors ++ rt.errors
      validation_warnings := validation.warnings ++ rt.warnings
      roundtrip_errors := rt.errors
      summary := world.summary ++ "  |  Physics: " ++
        pyReprList (world.physics_applied.map physicsValue)
      theme_used := some theme_defaults.theme }

/-! ## Reachability of the generated adjacency structure -/

/-- Node reachability from node 0 in an adjacency structure. -/
inductive ReachI (adj : Adj) : Nat → Prop
  | start : ReachI adj 0
  | step : ∀ {j k : Nat} {d r : String},
      ReachI adj j → (k, d, r) ∈ adjGet adj j → ReachI adj k

def dirsOf (l : List AdjEntry) : List String :=
  l.map (fun e => e.2.1)

def negDirsL : List String := ["south", "west", "down"]

def negCount (l : List AdjEntry) : Nat :=
  (l.filter (fun e => negDirsL.contains e.2.1)).length

def negUses (adj : Adj) : Nat :=
  (adj.map negCount).sum

/-- The invariant of the spanning-tree loop after nodes `1..k-1` have
been processed. -/
structure TreeInv (n k : Nat) (adj : Adj) : Prop where
  len : adj.length = n
  bound : ∀ x e, e ∈ adjGet adj x → x < k ∧ e.1 < k
  sym : ∀ x j d r, (j, d, r) ∈ adjGet adj x → (x, r, d) ∈ adjGet adj j
  pair : ∀ x j d r, (j, d, r) ∈ adjGet adj x →
    (d, r) ∈ DIRECTION_PAIRS ∨ (r, d) ∈ DIRECTION_PAIRS
  nodup : ∀ x, (dirsOf (adjGet adj x)).Nodup
  neg : negUses adj = k - 1
  conn : ∀ x, x < k → ReachI adj x

/-- The invariant carried through the bonus-connection, BFS and
force-connect phases. -/
structure GraphInv (n : Nat) (adj : Adj) : Prop where
  len : adj.length = n
  bound : ∀ x e, e ∈ adjGet adj x → x < n ∧ e.1 < n
  sym : ∀ x j d r, (j, d, r) ∈ adjGet adj x → (x, r, d) ∈ adjGet adj j
  pair : ∀ x j d r, (j, d, r) ∈ adjGet adj x →
    (d, r) ∈ DIRECTION_PAIRS ∨ (r, d) ∈ DIRECTION_PAIRS
  nodup : ∀ x, (dirsOf (adjGet adj x)).Nodup
  conn : ∀ x, x < n → ReachI adj x

/-! ## Concrete instances and decidable reachability checks -/

/-- The exits dict of the room stored under id `a` (empty when absent). -/
def exitsAt (rooms : List (String × Room)) (a : String) :
    List (String × String) :=
  match dlookup rooms a with
  | some rm => rm.exits
  | none => []

/-- `S` is closed under exit-following in `rooms` (decidable check used
to refute reachability on concrete maps). -/
def closedB (rooms : List (String × Room)) (S : List String) : Bool :=
  S.all (fun a => (exitsAt rooms a).all (fun p => S.contains p.2))

/-- The constant-zero oracle: every `random` draw takes its first
possible value. -/
def idO : Oracle := ⟨fun _ => 0⟩

/-- An adversarial oracle: one single draw deviates from zero. -/
def cexO : Oracle := ⟨fun p => if p = [1, 4, 0] then 2 else 0⟩

def thO : ThemeDefaults := themeDefaultsFor .ORIGINAL

/-- Adversarial caller-supplied room names: `safe_id` sends both `"y 1"`
and the suffixed duplicate of `"y"`/`"Y"` to the slug `y_1`. -/
def cexNames : List String := ["A", "Y", "y", "y 1", "Z"]

/-- A serializer stub that writes nothing. -/
def noWriter : WorldConfig → String → List (String × String) := fun _ _ => []

/-- A serializer stub that records one file. -/
def oneWriter : WorldConfig → String → List (String × String) :=
  fun _ d => [("rooms.ini", d)]

/-- A round-trip verifier stub that reports a clean disk state. -/
def noRtv : String → ValidationResult := fun _ => { errors := [], warnings := [] }

/-- A request whose custom room name `"a%b"` plants a bare `%` in a room
name, so pre-write validation fails. -/
def cexReq : GeneratorRequest :=
  { world_name := "w", room_count := 3,
    custom_room_names := ["x", "a%b", "c"] }

def rA : Room := { room_id := "ra", name := "Room A", description := "desc a" }

def rB : Room := { room_id := "rb", name := "Room B", description := "desc b" }

/-- A two-room world for the sprite-factory scenario. -/
def wC7 : WorldConfig :=
  { world_name := "w", theme := .ORIGINAL, rooms := [("ra", rA), ("rb", rB)] }

/-- A default transformation entry (used only as a `getD` fallback). -/
def t0 : String × Transformation :=
  ("", { transform_id := "", object_id := "", state := "",
         turns_required := 0, new_state := "", message := "" })

/-- A sprite with no spawn rooms. -/
def sEmptySpawn : Sprite :=
  { sprite_id := "s", name := "Bob", description := "d", health := 100,
    damage := 5, aggression := 0.5, ai_behavior := "idle" }

/-- A rooms artifact with one dangling exit (`south -> gone`). -/
def c3Rooms : ParsedIni :=
  ⟨[("entrance", [("north", "hall"), ("south", "gone")]),
    ("hall", [("south", "entrance")])]⟩

/-- An objects artifact with one dangling location. -/
def c3Objs : ParsedIni := ⟨[("obj1", [("location", "nowhere")])]⟩

/-- A sprites artifact with one dangling spawn room. -/
def c3Sprs : ParsedIni := ⟨[("spr1", [("spawn_rooms", "hall, missing")])]⟩

/-- A parsed rooms artifact carrying a non-engine `enter` direction. -/
def badArts : ParsedArtifacts :=
  { rooms := ⟨[("entrance", [("enter", "entrance")])]⟩
    objects := ⟨[]⟩
    sprites := ⟨[]⟩
    transformations := ⟨[]⟩
    combat := ⟨[]⟩
    sd := ⟨[]⟩
    rawLines := [] }

/-! # Lemmas and theorems -/

/-! ## Basic list and association-list lemmas -/

theorem get_cons_eraseIdx_perm {α : Type} :
    ∀ (l : List α) (i : Nat) (h : i < l.length),
      (l.get ⟨i, h⟩ :: l.eraseIdx i).Perm l
  | _ :: _, 0, _ => List.Perm.refl _
  | a :: l, i+1, h => by
    have h' : i < l.length := by simpa using h
    have ih := get_cons_eraseIdx_perm l i h'
    show (l.get ⟨i, h'⟩ :: a :: l.eraseIdx i).Perm (a :: l)
    exact (List.Perm.swap a _ _).trans (ih.cons a)

theorem fyAux_perm {α : Type} (ω : Nat → Nat) :
    ∀ (fuel k : Nat) (l : List α), (fyAux ω fuel k l).Perm l
  | 0, _, l => by simp [fyAux]
  | _+1, _, [] => by simp [fyAux]
  | fuel+1, k, a :: as => by
    have hlen : (ω k % (a :: as).length) <
        (a :: as).length := Nat.mod_lt _ (Nat.succ_pos as.length)
    have ih := fyAux_perm ω fuel (k+1) ((a :: as).eraseIdx (ω k % (a :: as).length))
    have := (ih.cons ((a :: as).get ⟨_, hlen⟩)).trans
      (get_cons_eraseIdx_perm (a :: as) _ hlen)
    simpa [fyAux] using this

/-- `fyShuffle` always permutes its input. -/
theorem fyShuffle_perm {α : Type} (ω : Nat → Nat) (l : List α) :
    (fyShuffle ω l).Perm l :=
  fyAux_perm ω l.length 0 l

theorem mem_fyShuffle {α : Type} {ω : Nat → Nat} {l : List α} {x : α} :
    x ∈ fyShuffle ω l ↔ x ∈ l :=
  (fyShuffle_perm ω l).mem_iff

theorem fyShuffle_length {α : Type} (ω : Nat → Nat) (l : List α) :
    (fyShuffle ω l).length = l.length :=
  (fyShuffle_perm ω l).length_eq

theorem dkeys_dinsert_of_mem {α : Type} :
    ∀ {m : List (String × α)} {k : String} (v : α),
      k ∈ dkeys m → dkeys (dinsert m k v) = dkeys m
  | [], k, v, h => by simp [dkeys] at h
  | p :: rest, k, v, h => by
    by_cases hpk : p.1 = k
    · simp [dinsert, hpk, dkeys]
    · have hmem : k ∈ dkeys rest := by
        simp only [dkeys, List.map_cons, List.mem_cons] at h
        rcases h with h | h
        · exact absurd h.symm hpk
        · simpa [dkeys] using h
      have ih := dkeys_dinsert_of_mem v hmem
      simp only [dinsert, if_neg hpk, dkeys, List.map_cons]
      simp only [dkeys] at ih
      rw [ih]

theorem dkeys_dinsert_of_not_mem {α : Type} :
    ∀ {m : List (String × α)} {k : String} (v : α),
      k ∉ dkeys m → dkeys (dinsert m k v) = dkeys m ++ [k]
  | [], k, v, _ => by simp [dinsert, dkeys]
  | p :: rest, k, v, h => by
    have hpk : ¬ p.1 = k := fun hc => h (by simp [dkeys, hc])
    have hmem : k ∉ dkeys rest := fun hc => h (by
      simp only [dkeys, List.map_cons, List.mem_cons]
      exact Or.inr (by simpa [dkeys] using hc))
    have ih := dkeys_dinsert_of_not_mem v hmem
    simp only [dinsert, if_neg hpk, dkeys, List.map_cons]
    simp only [dkeys] at ih
    rw [ih]
    simp

theorem mem_dinsert_self {α : Type} :
    ∀ (m : List (String × α)) (k : String) (v : α), (k, v) ∈ dinsert m k v
  | [], k, v => by simp [dinsert]
  | p :: rest, k, v => by
    by_cases hpk : p.1 = k
    · simp [dinsert, hpk]
    · simpa [dinsert, hpk] using Or.inr (mem_dinsert_self rest k v)

theorem mem_dinsert_of_ne {α : Type} :
    ∀ {m : List (String × α)} {k x : String} {v y : α},
      (x, y) ∈ m → x ≠ k → (x, y) ∈ dinsert m k v
  | [], _, _, _, _, hx, _ => by simp at hx
  | p :: rest, k, x, v, y, hx, hne => by
    by_cases hpk : p.1 = k
    · rcases List.mem_cons.mp hx with hx | hx
      · exact absurd (by rw [← hx] at hpk; simpa using hpk) hne
      · simp [dinsert, hpk, hx]
    · rcases List.mem_cons.mp hx with hx | hx
      · simp only [dinsert, if_neg hpk]
        exact List.mem_cons.mpr (Or.inl hx)
      · simpa [dinsert, hpk] using Or.inr (mem_dinsert_of_ne hx hne)

theorem mem_dinsert_elim {α : Type} :
    ∀ {m : List (String × α)} {k x : String} {v y : α},
      (x, y) ∈ dinsert m k v → (x = k ∧ y = v) ∨ (x, y) ∈ m
  | [], k, x, v, y, h => by
    simp only [dinsert, List.mem_singleton, Prod.mk.injEq] at h
    exact Or.inl h
  | p :: rest, k, x, v, y, h => by
    by_cases hpk : p.1 = k
    · simp only [dinsert, if_pos hpk, List.mem_cons, Prod.mk.injEq] at h
      rcases h with h | h
      · exact Or.inl h
      · exact Or.inr (List.mem_cons_of_mem _ h)
    · simp only [dinsert, if_neg hpk, List.mem_cons] at h
      rcases h with h | h
      · exact Or.inr (h ▸ List.mem_cons_self _ _)
      · rcases mem_dinsert_elim h with h' | h'
        · exact Or.inl h'
        · exact Or.inr (List.mem_cons_of_mem _ h')

theorem dlookup_dinsert_self {α : Type} :
    ∀ (m : List (String × α)) (k : String) (v : α),
      dlookup (dinsert m k v) k = some v
  | [], k, v => by simp [dinsert, dlookup]
  | p :: rest, k, v => by
    by_cases hpk : p.1 = k
    · simp [dinsert, hpk, dlookup]
    · simpa [dinsert, hpk, dlookup] using dlookup_dinsert_self rest k v

theorem dlookup_dinsert_ne {α : Type} :
    ∀ (m : List (String × α)) {k x : String} (v : α), x ≠ k →
      dlookup (dinsert m k v) x = dlookup m x
  | [], k, x, v, hne => by
    simp [dinsert, dlookup, show ¬ (k = x) from fun h => hne h.symm]
  | p :: rest, k, x, v, hne => by
    by_cases hpk : p.1 = k
    · have hkx : ¬ (k = x) := fun h => hne h.symm
      simp [dinsert, hpk, dlookup, hkx]
    · by_cases hpx : p.1 = x
      · simp [dinsert, hpk, dlookup, hpx, hne]
      · simpa [dinsert, hpk, dlookup, hpx] using
          dlookup_dinsert_ne rest v hne

theorem dlookup_mem {α : Type} :
    ∀ {m : List (String × α)} {k : String} {v : α},
      dlookup m k = some v → (k, v) ∈ m
  | [], _, _, h => by simp [dlookup] at h
  | p :: rest, k, v, h => by
    by_cases hpk : p.1 = k
    · simp only [dlookup, if_pos hpk] at h
      have : p = (k, v) := by
        rcases p with ⟨pk, pv⟩
        have h2 : pv = v := Option.some.inj h
        simp only at hpk
        simp [hpk, h2]
      simp [this]
    · simp only [dlookup, if_neg hpk] at h
      exact List.mem_cons_of_mem _ (dlookup_mem h)

theorem dlookup_eq_none {α : Type} :
    ∀ {m : List (String × α)} {k : String},
      dlookup m k = none ↔ k ∉ dkeys m
  | [], _ => by simp [dlookup, dkeys]
  | p :: rest, k => by
    by_cases hpk : p.1 = k
    · simp [dlookup, hpk, dkeys]
    · simp only [dlookup, if_neg hpk, dkeys, List.map_cons, List.mem_cons]
      rw [@dlookup_eq_none _ rest k]
      constructor
      · intro h hc
        rcases hc with hc | hc
        · exact hpk hc.symm
        · exact h (by simpa [dkeys] using hc)
      · intro h hc
        exact h (Or.inr (by simpa [dkeys] using hc))

theorem mem_keys_of_mem {α : Type} {m : List (String × α)} {k : String}
    {v : α} (h : (k, v) ∈ m) : k ∈ dkeys m :=
  List.mem_map.mpr ⟨(k, v), h, rfl⟩

/-! ## Adjacency-structure lemmas -/

theorem adjGet_adjSet : ∀ (adj : Adj) (i x : Nat) (v : List AdjEntry),
    adjGet (adjSet adj i v) x =
      if i = x ∧ i < adj.length then v else adjGet adj x
  | [], i, x, v => by simp [adjGet, adjSet]
  | e :: adj, 0, 0, v => by simp [adjGet, adjSet]
  | e :: adj, 0, x+1, v => by simp [adjGet, adjSet]
  | e :: adj, i+1, 0, v => by simp [adjGet, adjSet]
  | e :: adj, i+1, x+1, v => by
    have ih := adjGet_adjSet adj i x v
    simp only [adjGet, adjSet, List.set_cons_succ, List.getD_cons_succ,
      List.length_cons] at ih ⊢
    rw [ih]
    by_cases h1 : i = x
    · by_cases h2 : i < adj.length <;>
        simp [h1, h2, Nat.succ_lt_succ_iff]
    · simp [h1, fun hc => h1 (Nat.succ_injective hc)]

theorem length_adjSet (adj : Adj) (i : Nat) (v : List AdjEntry) :
    (adjSet adj i v).length = adj.length :=
  List.length_set adj i v

theorem length_addEdge (adj : Adj) (a b : Nat) (da db : String) :
    (addEdge adj a b da db).length = adj.length := by
  simp [addEdge, adjAppend, length_adjSet]

/-- Master equation: what an edge insertion appends to each node's
entry list. -/
theorem adjGet_addEdge (adj : Adj) (a b x : Nat) (da db : String) :
    adjGet (addEdge adj a b da db) x =
      adjGet adj x ++
      (if a = x ∧ a < adj.length then [(b, da, db)] else []) ++
      (if b = x ∧ b < adj.length then [(a, db, da)] else []) := by
  unfold addEdge adjAppend
  simp only [adjGet_adjSet, length_adjSet]
  by_cases hb : b = x ∧ b < adj.length <;> by_cases ha : a = x ∧ a < adj.length
  · have hab : a = b ∧ a < adj.length := ⟨ha.1.trans hb.1.symm, ha.2⟩
    rw [if_pos hb, if_pos hab, if_pos ha, if_pos hb, ha.1]
    try simp
  · have hab : ¬ (a = b ∧ a < adj.length) := by
      intro hc
      exact ha ⟨hc.1.trans hb.1, hc.2⟩
    rw [if_pos hb, if_neg hab, if_neg ha, if_pos hb, hb.1]
    try simp
  · rw [if_neg hb, if_pos ha, if_pos ha, if_neg hb, ha.1]
    try simp
  · rw [if_neg hb, if_neg ha, if_neg ha, if_neg hb]
    try simp

/-- Entries only accumulate: edge insertion never removes an entry. -/
theorem mem_addEdge_of_mem {adj : Adj} {a b x : Nat} {da db : String}
    {e : AdjEntry} (h : e ∈ adjGet adj x) :
    e ∈ adjGet (addEdge adj a b da db) x := by
  rw [adjGet_addEdge]
  exact List.mem_append_left _ (List.mem_append_left _ h)

/-- Complete description of membership after an edge insertion. -/
theorem mem_addEdge_elim {adj : Adj} {a b x : Nat} {da db : String}
    {e : AdjEntry} (h : e ∈ adjGet (addEdge adj a b da db) x) :
    e ∈ adjGet adj x ∨ (a = x ∧ e = (b, da, db)) ∨ (b = x ∧ e = (a, db, da)) := by
  rw [adjGet_addEdge] at h
  rcases List.mem_append.mp h with h | h
  · rcases List.mem_append.mp h with h | h
    · exact Or.inl h
    · split at h
      · rename_i hc
        exact Or.inr (Or.inl ⟨hc.1, List.mem_singleton.mp h⟩)
      · simp at h
  · split at h
    · rename_i hc
      exact Or.inr (Or.inr ⟨hc.1, List.mem_singleton.mp h⟩)
    · simp at h

/-- Everything the case split on the three direction pairs yields. -/
theorem pair_facts {d r : String} (h : (d, r) ∈ DIRECTION_PAIRS) :
    negDirsL.contains d = false ∧ negDirsL.contains r = true ∧ d ≠ r ∧
    ALL_DIRECTIONS.contains d = true ∧ ALL_DIRECTIONS.contains r = true ∧
    oppositeDir d = r ∧ oppositeDir r = d := by
  simp only [DIRECTION_PAIRS, List.mem_cons, List.mem_singleton,
    Prod.mk.injEq, List.not_mem_nil, or_false] at h
  rcases h with ⟨rfl, rfl⟩ | ⟨rfl, rfl⟩ | ⟨rfl, rfl⟩ <;> decide

theorem gad_some {O : Oracle} {path : List Nat} {adj : Adj} {a b : Nat}
    {d r : String} (h : getAvailableDirection O path adj a b = some (d, r)) :
    (d, r) ∈ DIRECTION_PAIRS ∧ d ∉ usedDirs adj a ∧ r ∉ usedDirs adj b := by
  unfold getAvailableDirection at h
  have hmem := List.mem_of_find?_eq_some h
  have hpred := List.find?_some h
  simp only [Bool.and_eq_true, Bool.not_eq_true'] at hpred
  exact ⟨mem_fyShuffle.mp hmem, by simpa using hpred.1, by simpa using hpred.2⟩

theorem gad_none {O : Oracle} {path : List Nat} {adj : Adj} {a b : Nat}
    (h : getAvailableDirection O path adj a b = none) :
    ∀ p ∈ DIRECTION_PAIRS, p.1 ∈ usedDirs adj a ∨ p.2 ∈ usedDirs adj b := by
  unfold getAvailableDirection at h
  intro p hp
  have := List.find?_eq_none.mp h p (mem_fyShuffle.mpr hp)
  by_contra hc
  push_neg at hc
  exact this (by simp [hc.1, hc.2])

theorem findSlot_some {O : Oracle} {site a : Nat} {adj : Adj} :
    ∀ {cands : List Nat} {c t : Nat} {d r : String},
      findSlot O site a adj cands c = some (t, d, r) →
      t ∈ cands ∧ (d, r) ∈ DIRECTION_PAIRS ∧ d ∉ usedDirs adj a ∧
        r ∉ usedDirs adj t
  | [], _, _, _, _, h => by simp [findSlot] at h
  | t0 :: rest, c, t, d, r, h => by
    rw [findSlot] at h
    cases hg : getAvailableDirection O [site, a, c] adj a t0 with
    | some p =>
      rw [hg] at h
      rcases p with ⟨d0, r0⟩
      have : t = t0 ∧ d = d0 ∧ r = r0 := by
        simpa [Prod.mk.injEq, and_assoc, eq_comm] using h
      obtain ⟨rfl, rfl, rfl⟩ := this
      have := gad_some hg
      exact ⟨List.mem_cons_self _ _, this.1, this.2.1, this.2.2⟩
    | none =>
      rw [hg] at h
      have := findSlot_some h
      exact ⟨List.mem_cons_of_mem _ this.1, this.2.1, this.2.2.1, this.2.2.2⟩

theorem findSlot_none {O : Oracle} {site a : Nat} {adj : Adj} :
    ∀ {cands : List Nat} {c : Nat},
      findSlot O site a adj cands c = none →
      ∀ t ∈ cands, ∀ p ∈ DIRECTION_PAIRS,
        p.1 ∈ usedDirs adj a ∨ p.2 ∈ usedDirs adj t
  | [], _, _, t, ht => by simp at ht
  | t0 :: rest, c, h, t, ht => by
    rw [findSlot] at h
    cases hg : getAvailableDirection O [site, a, c] adj a t0 with
    | some p =>
      rw [hg] at h
      rcases p with ⟨d0, r0⟩
      simp at h
    | none =>
      rw [hg] at h
      rcases List.mem_cons.mp ht with rfl | ht'
      · exact gad_none hg
      · exact findSlot_none h t ht'

theorem negUses_cons (x : List AdjEntry) (xs : Adj) :
    negUses (x :: xs) = negCount x + negUses xs := by
  simp [negUses]

theorem negCount_append_one (l : List AdjEntry) (e : AdjEntry) :
    negCount (l ++ [e]) =
      negCount l + (if negDirsL.contains e.2.1 then 1 else 0) := by
  simp only [negCount, List.filter_append, List.length_append,
    List.filter_cons, List.filter_nil]
  by_cases hm : e.2.1 ∈ negDirsL <;> simp [hm]

theorem negUses_adjSet : ∀ (adj : Adj) (i : Nat) (v : List AdjEntry),
    i < adj.length →
    negUses (adjSet adj i v) + negCount (adjGet adj i) =
      negUses adj + negCount v
  | [], i, v, h => by simp at h
  | x :: xs, 0, v, _ => by
    simp [adjSet, adjGet, negUses_cons]
    omega
  | x :: xs, i+1, v, h => by
    have ih := negUses_adjSet xs i v (by simpa using h)
    simp only [adjSet, List.set_cons_succ, adjGet, List.getD_cons_succ] at ih ⊢
    rw [negUses_cons, negUses_cons]
    omega

theorem negUses_addEdge {adj : Adj} {a b : Nat} {da db : String}
    (ha : a < adj.length) (hb : b < adj.length) (hab : a ≠ b)
    (hpair : (da, db) ∈ DIRECTION_PAIRS) :
    negUses (addEdge adj a b da db) = negUses adj + 1 := by
  have hf := pair_facts hpair
  have hget : adjGet (adjSet adj a (adjGet adj a ++ [(b, da, db)])) b =
      adjGet adj b := by
    rw [adjGet_adjSet,
      if_neg (show ¬(a = b ∧ a < adj.length) from fun hc => hab hc.1)]
  unfold addEdge adjAppend
  rw [hget]
  have h1 := negUses_adjSet adj a (adjGet adj a ++ [(b, da, db)]) ha
  have h2 := negUses_adjSet (adjSet adj a (adjGet adj a ++ [(b, da, db)])) b
    (adjGet adj b ++ [(a, db, da)]) (by rw [length_adjSet]; exact hb)
  rw [hget] at h2
  have e1 : negCount (adjGet adj a ++ [(b, da, db)]) =
      negCount (adjGet adj a) := by
    rw [negCount_append_one]
    have hm : da ∉ negDirsL := by simpa using hf.1
    simp [hm]
  have e2 : negCount (adjGet adj b ++ [(a, db, da)]) =
      negCount (adjGet adj b) + 1 := by
    rw [negCount_append_one]
    have hm : db ∈ negDirsL := by simpa using hf.2.1
    simp [hm]
  rw [e1] at h1
  rw [e2] at h2
  omega

theorem le_sum_of_all_le : ∀ {l : List Nat} {c : Nat},
    (∀ x ∈ l, c ≤ x) → c * l.length ≤ l.sum
  | [], _, _ => by simp
  | x :: xs, c, h => by
    have ih := le_sum_of_all_le (fun y hy => h y (List.mem_cons_of_mem _ hy))
    have hx := h x (List.mem_cons_self _ _)
    simp only [List.length_cons, List.sum_cons, Nat.mul_succ]
    omega

theorem sum_lt_exists {l : List Nat} {c : Nat} (h : l.sum < c * l.length) :
    ∃ x ∈ l, x < c := by
  by_contra hc
  push_neg at hc
  exact absurd (le_sum_of_all_le hc) (by omega)

/-- Pigeonhole for the spanning-tree loop: when only `k - 1` edges exist
among the first `k` nodes, some connected node still has a free
negative-direction slot. -/
theorem exists_free_candidate {adj : Adj} {n k : Nat} (hlen : adj.length = n)
    (hk1 : 1 ≤ k) (hkn : k ≤ n) (hneg : negUses adj = k - 1) :
    ∃ p, p < k ∧ negCount (adjGet adj p) < 3 := by
  have hkadj : k ≤ (adj.map negCount).length := by simp [hlen, hkn]
  have hLlen : ((adj.map negCount).take k).length = k := by
    simp [hlen]
    omega
  have hLsum : ((adj.map negCount).take k).sum ≤ negUses adj := by
    unfold negUses
    conv_rhs => rw [← List.take_append_drop k (adj.map negCount)]
    rw [List.sum_append]
    exact Nat.le_add_right _ _
  have hlt : ((adj.map negCount).take k).sum <
      3 * ((adj.map negCount).take k).length := by
    rw [hLlen]
    omega
  obtain ⟨x, hxL, hx3⟩ := sum_lt_exists hlt
  obtain ⟨⟨i, hiL⟩, hget⟩ := List.mem_iff_get.mp hxL
  have hik : i < k := by omega
  have hin : i < adj.length := by omega
  refine ⟨i, hik, ?_⟩
  have : ((adj.map negCount).take k).get ⟨i, hiL⟩ = negCount (adjGet adj i) := by
    simp only [List.get_eq_getElem, List.getElem_take, List.getElem_map]
    congr 1
    exact (List.getD_eq_getElem adj [] hin).symm
  omega

theorem reachI_mono {adj adj' : Adj}
    (hsub : ∀ x e, e ∈ adjGet adj x → e ∈ adjGet adj' x) {i : Nat}
    (h : ReachI adj i) : ReachI adj' i := by
  induction h with
  | start => exact ReachI.start
  | step _ hmem ih => exact ReachI.step ih (hsub _ _ hmem)

theorem reachI_addEdge {adj : Adj} {a b i : Nat} {da db : String}
    (h : ReachI adj i) : ReachI (addEdge adj a b da db) i :=
  reachI_mono (fun _ _ => mem_addEdge_of_mem) h

theorem mem_addEdge_new_fst {adj : Adj} {a b : Nat} {da db : String}
    (ha : a < adj.length) : (b, da, db) ∈ adjGet (addEdge adj a b da db) a := by
  rw [adjGet_addEdge]
  simp [ha]

theorem mem_addEdge_new_snd {adj : Adj} {a b : Nat} {da db : String}
    (hb : b < adj.length) : (a, db, da) ∈ adjGet (addEdge adj a b da db) b := by
  rw [adjGet_addEdge]
  simp [hb]

theorem adjGet_replicate (n x : Nat) :
    adjGet (List.replicate n ([] : List AdjEntry)) x = [] := by
  unfold adjGet
  rcases Nat.lt_or_ge x n with h | h
  · rw [List.getD_eq_getElem _ _ (by simpa using h)]
    simp
  · rw [List.getD_eq_default _ _ (by simpa using h)]

theorem negCount_eq_dirs (l : List AdjEntry) :
    negCount l = ((dirsOf l).filter (fun s => negDirsL.contains s)).length := by
  induction l with
  | nil => rfl
  | cons e rest ih =>
    simp only [negCount, dirsOf] at ih ⊢
    rw [List.map_cons, List.filter_cons, List.filter_cons]
    by_cases hm : negDirsL.contains e.2.1 = true
    · rw [if_pos hm, if_pos hm]
      simp only [List.length_cons, ih]
    · rw [if_neg hm, if_neg hm]
      exact ih

/-- The invariant holds before the first tree step. -/
theorem treeInv_init {n : Nat} : TreeInv n 1 (List.replicate n []) := by
  refine ⟨by simp, ?_, ?_, ?_, ?_, ?_, ?_⟩
  · intro x e he
    rw [adjGet_replicate] at he
    simp at he
  · intro x j d r h
    rw [adjGet_replicate] at h
    simp at h
  · intro x j d r h
    rw [adjGet_replicate] at h
    simp at h
  · intro x
    rw [adjGet_replicate]
    simp [dirsOf]
  · simp [negUses, List.map_replicate, negCount]
  · intro x hx
    have : x = 0 := by omega
    rw [this]
    exact ReachI.start

/-- Each spanning-tree step preserves the invariant: the pigeonhole
argument shows the candidate search always succeeds, so the `not
connected` fallback is never executed. -/
theorem treeInv_step {O : Oracle} {n k : Nat} {adj : Adj}
    (inv : TreeInv n k adj) (hk1 : 1 ≤ k) (hkn : k < n) :
    TreeInv n (k+1) (treeStep O adj k) := by
  have hlen := inv.len
  set cands := fyShuffle (fun j => O.f [1, k, j]) (List.range k) with hc
  have hcperm : cands.Perm (List.range k) := fyShuffle_perm _ _
  have hempty : adjGet adj k = [] := by
    rw [List.eq_nil_iff_forall_not_mem]
    intro e he
    exact absurd (inv.bound k e he).1 (lt_irrefl k)
  cases hfs : findSlot O 0 k adj cands 0 with
  | none =>
    exfalso
    obtain ⟨p, hpk, hpneg⟩ :=
      exists_free_candidate hlen hk1 (Nat.le_of_lt hkn) inv.neg
    have hfree : ∃ pr ∈ DIRECTION_PAIRS, pr.2 ∉ usedDirs adj p := by
      by_contra hcon
      push_neg at hcon
      have hS : negDirsL ⊆ ((dirsOf (adjGet adj p)).filter
          (fun s => negDirsL.contains s)) := by
        intro s hs
        have hs' : s = "south" ∨ s = "west" ∨ s = "down" := by
          simpa [negDirsL] using hs
        have hmem : s ∈ usedDirs adj p := by
          rcases hs' with rfl | rfl | rfl
          · simpa using hcon ("north", "south") (by simp [DIRECTION_PAIRS])
          · simpa using hcon ("east", "west") (by simp [DIRECTION_PAIRS])
          · simpa using hcon ("up", "down") (by simp [DIRECTION_PAIRS])
        exact List.mem_filter.mpr ⟨hmem, by simpa using hs⟩
      have hnd : ((dirsOf (adjGet adj p)).filter
          (fun s => negDirsL.contains s)).Nodup :=
        (inv.nodup p).filter _
      have hsp : negDirsL.Nodup := by decide
      have hle := (hsp.subperm hS).length_le
      rw [negCount_eq_dirs] at hpneg
      rw [show negDirsL.length = 3 from rfl] at hle
      omega
    obtain ⟨pr, hprP, hprfree⟩ := hfree
    have hpc : p ∈ cands := hcperm.mem_iff.mpr (List.mem_range.mpr hpk)
    rcases findSlot_none hfs p hpc pr hprP with h | h
    · simp [usedDirs, hempty] at h
    · exact hprfree h
  | some tdr =>
    obtain ⟨t, d, r⟩ := tdr
    obtain ⟨htc, hpr, hda, hrt⟩ := findSlot_some hfs
    have htk : t < k := List.mem_range.mp (hcperm.mem_iff.mp htc)
    have htn : t < adj.length := by omega
    have hkn' : k < adj.length := by omega
    have hkt : k ≠ t := fun hc => absurd (hc ▸ htk) (lt_irrefl k)
    have hstep : treeStep O adj k = addEdge adj k t d r := by
      simp only [treeStep]
      rw [← hc, hfs]
    rw [hstep]
    have hfacts := pair_facts hpr
    refine ⟨by rw [length_addEdge]; exact hlen, ?_, ?_, ?_, ?_, ?_, ?_⟩
    · intro x e he
      rcases mem_addEdge_elim he with h | ⟨hxa, rfl⟩ | ⟨hxb, rfl⟩
      · have := inv.bound x e h
        omega
      · simp only
        omega
      · simp only
        omega
    · intro x j d' r' hmem
      rcases mem_addEdge_elim hmem with h | ⟨hxa, heq⟩ | ⟨hxb, heq⟩
      · exact mem_addEdge_of_mem (inv.sym x j d' r' h)
      · obtain ⟨rfl, rfl, rfl⟩ :
            j = t ∧ d' = d ∧ r' = r := by
          simpa [Prod.mk.injEq] using heq
        rw [← hxa]
        exact mem_addEdge_new_snd htn
      · obtain ⟨rfl, rfl, rfl⟩ :
            j = k ∧ d' = r ∧ r' = d := by
          simpa [Prod.mk.injEq] using heq
        rw [← hxb]
        exact mem_addEdge_new_fst hkn'
    · intro x j d' r' hmem
      rcases mem_addEdge_elim hmem with h | ⟨hxa, heq⟩ | ⟨hxb, heq⟩
      · exact inv.pair x j d' r' h
      · obtain ⟨rfl, rfl, rfl⟩ :
            j = t ∧ d' = d ∧ r' = r := by
          simpa [Prod.mk.injEq] using heq
        exact Or.inl hpr
      · obtain ⟨rfl, rfl, rfl⟩ :
            j = k ∧ d' = r ∧ r' = d := by
          simpa [Prod.mk.injEq] using heq
        exact Or.inr hpr
    · intro x
      rw [adjGet_addEdge]
      by_cases hxk : k = x
      · subst hxk
        rw [if_pos ⟨rfl, hkn'⟩, if_neg (fun hcond => hkt hcond.1.symm), hempty]
        simp [dirsOf]
      · by_cases hxt : t = x
        · subst hxt
          rw [if_neg (fun hcond => hxk hcond.1), if_pos ⟨rfl, htn⟩]
          simp only [List.append_nil, dirsOf, List.map_append, List.map_cons,
            List.map_nil]
          rw [List.nodup_append]
          refine ⟨inv.nodup t, by simp, ?_⟩
          intro s hs
          simp only [List.mem_singleton]
          intro hcon
          exact hrt (hcon ▸ hs)
        · rw [if_neg (fun hcond => hxk hcond.1),
            if_neg (fun hcond => hxt hcond.1)]
          simpa using inv.nodup x
    · rw [negUses_addEdge hkn' htn hkt hpr, inv.neg]
      omega
    · intro x hx
      rcases Nat.lt_or_ge x k with hxk | hxk
      · exact reachI_addEdge (inv.conn x hxk)
      · have hxeq : x = k := by omega
        subst hxeq
        exact ReachI.step (reachI_addEdge (inv.conn t htk)) (mem_addEdge_new_snd htn)

theorem treeInv_buildTreeAux {O : Oracle} {n : Nat} :
    ∀ (steps start : Nat) (adj : Adj), TreeInv n start adj → 1 ≤ start →
      start + steps = n → TreeInv n n (buildTreeAux O adj start steps)
  | 0, start, adj, inv, _, hsum => by
    have hs : start = n := by omega
    subst hs
    rw [buildTreeAux]
    exact inv
  | steps+1, start, adj, inv, h1, hsum => by
    rw [buildTreeAux]
    exact treeInv_buildTreeAux steps (start+1) _
      (treeInv_step inv h1 (by omega)) (by omega) (by omega)

/-- After the spanning-tree phase the invariant holds at frontier `n`:
in particular the adjacency structure is connected. -/
theorem treeInv_buildTree (O : Oracle) {n : Nat} (hn : 1 ≤ n) :
    TreeInv n n (buildTree O n) := by
  unfold buildTree
  exact treeInv_buildTreeAux (n - 1) 1 _ treeInv_init (le_refl 1) (by omega)

theorem graphInv_of_treeInv {n : Nat} {adj : Adj} (inv : TreeInv n n adj) :
    GraphInv n adj :=
  ⟨inv.len, inv.bound, inv.sym, inv.pair, inv.nodup, inv.conn⟩

theorem graphInv_addEdge {n : Nat} {adj : Adj} {a b : Nat} {d r : String}
    (inv : GraphInv n adj) (ha : a < n) (hb : b < n)
    (hpr : (d, r) ∈ DIRECTION_PAIRS) (hda : d ∉ usedDirs adj a)
    (hrb : r ∉ usedDirs adj b) : GraphInv n (addEdge adj a b d r) := by
  have hlen := inv.len
  have ha' : a < adj.length := by omega
  have hb' : b < adj.length := by omega
  have hfacts := pair_facts hpr
  refine ⟨by rw [length_addEdge]; exact hlen, ?_, ?_, ?_, ?_, ?_⟩
  · intro x e he
    rcases mem_addEdge_elim he with h | ⟨hxa, rfl⟩ | ⟨hxb, rfl⟩
    · exact inv.bound x e h
    · simp only
      omega
    · simp only
      omega
  · intro x j d' r' hmem
    rcases mem_addEdge_elim hmem with h | ⟨hxa, heq⟩ | ⟨hxb, heq⟩
    · exact mem_addEdge_of_mem (inv.sym x j d' r' h)
    · obtain ⟨rfl, rfl, rfl⟩ : j = b ∧ d' = d ∧ r' = r := by
        simpa [Prod.mk.injEq] using heq
      rw [← hxa]
      exact mem_addEdge_new_snd hb'
    · obtain ⟨rfl, rfl, rfl⟩ : j = a ∧ d' = r ∧ r' = d := by
        simpa [Prod.mk.injEq] using heq
      rw [← hxb]
      exact mem_addEdge_new_fst ha'
  · intro x j d' r' hmem
    rcases mem_addEdge_elim hmem with h | ⟨hxa, heq⟩ | ⟨hxb, heq⟩
    · exact inv.pair x j d' r' h
    · obtain ⟨rfl, rfl, rfl⟩ : j = b ∧ d' = d ∧ r' = r := by
        simpa [Prod.mk.injEq] using heq
      exact Or.inl hpr
    · obtain ⟨rfl, rfl, rfl⟩ : j = a ∧ d' = r ∧ r' = d := by
        simpa [Prod.mk.injEq] using heq
      exact Or.inr hpr
  · intro x
    rw [adjGet_addEdge]
    by_cases hxa : a = x <;> by_cases hxb : b = x
    · rw [if_pos ⟨hxa, ha'⟩, if_pos ⟨hxb, hb'⟩]
      have hdx : d ∉ usedDirs adj x := hxa ▸ hda
      have hrx : r ∉ usedDirs adj x := hxb ▸ hrb
      simp only [dirsOf, List.map_append, List.map_cons, List.map_nil]
      rw [List.nodup_append, List.nodup_append]
      refine ⟨⟨inv.nodup x, by simp, ?_⟩, by simp, ?_⟩
      · intro s hs
        simp only [List.mem_singleton]
        intro hcon
        exact hdx (hcon ▸ hs)
      · intro s hs
        simp only [List.mem_singleton]
        intro hcon
        subst hcon
        rcases List.mem_append.mp hs with hs | hs
        · exact hrx hs
        · exact hfacts.2.2.1 (List.mem_singleton.mp hs).symm
    · rw [if_pos ⟨hxa, ha'⟩, if_neg (fun hcond => hxb hcond.1)]
      have hdx : d ∉ usedDirs adj x := hxa ▸ hda
      simp only [List.append_nil, dirsOf, List.map_append, List.map_cons,
        List.map_nil]
      rw [List.nodup_append]
      refine ⟨inv.nodup x, by simp, ?_⟩
      intro s hs
      simp only [List.mem_singleton]
      intro hcon
      exact hdx (hcon ▸ hs)
    · rw [if_neg (fun hcond => hxa hcond.1), if_pos ⟨hxb, hb'⟩]
      have hrx : r ∉ usedDirs adj x := hxb ▸ hrb
      simp only [List.append_nil, dirsOf, List.map_append, List.map_cons,
        List.map_nil]
      rw [List.nodup_append]
      refine ⟨inv.nodup x, by simp, ?_⟩
      intro s hs
      simp only [List.mem_singleton]
      intro hcon
      exact hrx (hcon ▸ hs)
    · rw [if_neg (fun hcond => hxa hcond.1), if_neg (fun hcond => hxb hcond.1)]
      simpa using inv.nodup x
  · intro x hx
    exact reachI_addEdge (inv.conn x hx)

theorem graphInv_bonusLoop {O : Oracle} {n bc : Nat} (hn : 0 < n) :
    ∀ (fuel added attempts : Nat) (adj : Adj), GraphInv n adj →
      GraphInv n (bonusLoop O n bc adj added attempts fuel)
  | 0, _, _, adj, inv => by
    rw [bonusLoop]
    exact inv
  | fuel+1, added, attempts, adj, inv => by
    simp only [bonusLoop]
    split
    · set i := pyRandint (O.f [3, attempts + 1]) 0 (n - 1) with hi
      set j := pyRandint (O.f [4, attempts + 1]) 0 (n - 1) with hj
      have hilt : i < n := by
        rw [hi]
        unfold pyRandint
        have : n - 1 + 1 - 0 = n := by omega
        rw [this]
        simpa using Nat.mod_lt _ hn
      have hjlt : j < n := by
        rw [hj]
        unfold pyRandint
        have : n - 1 + 1 - 0 = n := by omega
        rw [this]
        simpa using Nat.mod_lt _ hn
      split
      · exact graphInv_bonusLoop hn fuel added (attempts+1) adj inv
      · split
        · exact graphInv_bonusLoop hn fuel added (attempts+1) adj inv
        · split
          · rename_i d r hgad
            have hg := gad_some hgad
            exact graphInv_bonusLoop hn fuel (added+1) (attempts+1) _
              (graphInv_addEdge inv hilt hjlt hg.1 hg.2.1 hg.2.2)
          · exact graphInv_bonusLoop hn fuel added (attempts+1) adj inv
    · exact inv

theorem bfsLoop_bound {n : Nat} {adj : Adj} (inv : GraphInv n adj) :
    ∀ (fuel : Nat) (queue visited : List Nat),
      (∀ x ∈ queue, x < n) → (∀ x ∈ visited, x < n) →
      ∀ x ∈ bfsLoop adj queue visited fuel, x < n
  | 0, queue, visited, _, hv => by
    rw [bfsLoop]
    exact hv
  | fuel+1, [], visited, _, hv => by
    rw [bfsLoop]
    exact hv
  | fuel+1, cur :: queue, visited, hq, hv => by
    rw [bfsLoop]
    split
    · exact bfsLoop_bound inv fuel queue visited
        (fun x hx => hq x (List.mem_cons_of_mem _ hx)) hv
    · refine bfsLoop_bound inv fuel _ _ ?_ ?_
      · intro x hx
        rcases List.mem_append.mp hx with hx | hx
        · exact hq x (List.mem_cons_of_mem _ hx)
        · rcases List.mem_map.mp hx with ⟨e, he, rfl⟩
          exact (inv.bound cur e (List.mem_filter.mp he).1).2
      · intro x hx
        rcases List.mem_append.mp hx with hx | hx
        · exact hv x hx
        · rw [List.mem_singleton.mp hx]
          exact hq cur (List.mem_cons_self _ _)

theorem bfs_bound {n : Nat} {adj : Adj} (inv : GraphInv n adj) (hn : 0 < n) :
    ∀ x ∈ bfs adj, x < n := by
  unfold bfs
  exact bfsLoop_bound inv _ [0] []
    (fun x hx => by rw [List.mem_singleton.mp hx]; exact hn)
    (fun x hx => by simp at hx)

theorem graphInv_forceConnect {O : Oracle} {n : Nat} :
    ∀ (unreach : List Nat) (adj : Adj) (reach : List Nat), GraphInv n adj →
      (∀ x ∈ reach, x < n) → (∀ x ∈ unreach, x < n) →
      GraphInv n (forceConnect O adj reach unreach).1
  | [], adj, reach, inv, _, _ => by
    rw [forceConnect]
    exact inv
  | idx :: rest, adj, reach, inv, hreach, hunreach => by
    rw [forceConnect]
    have hidx : idx < n := hunreach idx (List.mem_cons_self _ _)
    split
    · rename_i t d r hfs
      have hs := findSlot_some hfs
      have ht : t < n := hreach t (mem_fyShuffle.mp hs.1)
      refine graphInv_forceConnect rest _ _
        (graphInv_addEdge inv hidx ht hs.2.1 hs.2.2.1 hs.2.2.2) ?_
        (fun x hx => hunreach x (List.mem_cons_of_mem _ hx))
      intro x hx
      rcases List.mem_append.mp hx with hx | hx
      · exact hreach x hx
      · rw [List.mem_singleton.mp hx]
        exact hidx
    · exact graphInv_forceConnect rest adj reach inv hreach
        (fun x hx => hunreach x (List.mem_cons_of_mem _ hx))

/-- The full adjacency structure produced by `generate` satisfies the
graph invariant — in particular every node is reachable from node 0,
for every oracle. -/
theorem graphInv_genAdj (O : Oracle) {n : Nat} (hn : 1 ≤ n) :
    GraphInv n (genAdj O n) := by
  unfold genAdj
  have invT := graphInv_of_treeInv (treeInv_buildTree O hn)
  have invB := @graphInv_bonusLoop O n (max 2 (Int.toNat ((n : Int) * 3 / 10)))
    (by omega) (max 2 (Int.toNat ((n : Int) * 3 / 10)) * 20 + 1) 0 0 _ invT
  refine graphInv_forceConnect _ _ _ invB ?_ ?_
  · exact bfs_bound invB (by omega)
  · intro x hx
    have := List.mem_filter.mp hx
    simpa using List.mem_range.mp this.1

/-! ## Name and id generation lemmas -/

theorem dedupNames_length : ∀ (l : List String) (seen : List (String × Nat)),
    (dedupNames l seen).length = l.length
  | [], _ => rfl
  | nm :: rest, seen => by
    unfold dedupNames
    cases dlookup seen nm <;>
      simp [dedupNames_length rest]

theorem dedupIds_length : ∀ (l : List String) (seen : List (String × Nat)),
    (dedupIds l seen).length = l.length
  | [], _ => rfl
  | nm :: rest, seen => by
    unfold dedupIds
    cases dlookup seen nm <;>
      simp [dedupIds_length rest]

theorem overlayCustom_length : ∀ (cs : List String) (names : List String)
    (i : Nat), (overlayCustom names cs i).length = names.length
  | [], _, _ => rfl
  | c :: rest, names, i => by
    unfold overlayCustom
    split <;> simp [overlayCustom_length rest]

theorem padPrefixes_ge : ∀ (fuel : Nat) (l : List String) (count : Nat),
    count ≤ l.length + fuel →
    count ≤ (padPrefixes l genericNames count fuel).length
  | 0, l, count, h => by
    rw [padPrefixes]
    omega
  | fuel+1, l, count, h => by
    rw [padPrefixes]
    split
    · exact padPrefixes_ge fuel (l ++ genericNames) count
        (by simp [genericNames]; omega)
    · omega

theorem genNamesBase_length (O : Oracle) (count : Nat) (theme : ThemeDefaults)
    (cn : Option (List String)) : (genNamesBase O count theme cn).length = count := by
  unfold genNamesBase
  have hpad := padPrefixes_ge (count + 1) theme.suggested_room_prefixes count
    (by omega)
  have hsh := fyShuffle_length (fun k => O.f [8, k])
    (padPrefixes theme.suggested_room_prefixes genericNames count (count + 1))
  cases cn with
  | none =>
    simp only [List.length_take, hsh]
    omega
  | some cs =>
    rw [overlayCustom_length]
    simp only [List.length_take, hsh]
    omega

theorem genNames_length (O : Oracle) (count : Nat) (theme : ThemeDefaults)
    (cn : Option (List String)) : (genNames O count theme cn).length = count := by
  unfold genNames
  rw [dedupNames_length, List.length_set, genNamesBase_length]

theorem dedupNames_cons_fresh (nm : String) (rest : List String) :
    dedupNames (nm :: rest) [] = nm :: dedupNames rest [(nm, 0)] := rfl

theorem genNames_head (O : Oracle) {count : Nat} (theme : ThemeDefaults)
    (cn : Option (List String)) (hcount : 1 ≤ count) :
    ∃ tl, genNames O count theme cn = "Entrance" :: tl := by
  have hlen : 1 ≤ (genNamesBase O count theme cn).length := by
    rw [genNamesBase_length]
    exact hcount
  obtain ⟨x, xs, hxs⟩ : ∃ x xs, genNamesBase O count theme cn = x :: xs := by
    cases hb : genNamesBase O count theme cn with
    | nil => rw [hb] at hlen; simp at hlen
    | cons x xs => exact ⟨x, xs, rfl⟩
  refine ⟨dedupNames xs [("Entrance", 0)], ?_⟩
  unfold genNames
  rw [hxs]
  simp only [List.set_cons_zero]
  exact dedupNames_cons_fresh _ _

theorem dedupIds_cons_fresh (nm : String) (rest : List String) :
    dedupIds (nm :: rest) [] = nm :: dedupIds rest [(nm, 0)] := rfl

theorem genIds_length (O : Oracle) (count : Nat) (theme : ThemeDefaults)
    (cn : Option (List String)) : (genIds O count theme cn).length = count := by
  unfold genIds
  rw [dedupIds_length, List.length_map, genNames_length]

theorem genIds_head (O : Oracle) {count : Nat} (theme : ThemeDefaults)
    (cn : Option (List String)) (hcount : 1 ≤ count) :
    ∃ tl, genIds O count theme cn = "entrance" :: tl := by
  obtain ⟨tl, htl⟩ := genNames_head O theme cn hcount
  unfold genIds
  rw [htl]
  simp only [List.map_cons]
  rw [show safeId "Entrance" = "entrance" from rfl]
  exact ⟨dedupIds (tl.map safeId) [("entrance", 0)], rfl⟩

/-- On a duplicate-free list of fresh ids the id-disambiguation pass is
the identity. -/
theorem dedupIds_of_nodup : ∀ (l : List String) (seen : List (String × Nat)),
    l.Nodup → (∀ x ∈ l, dlookup seen x = none) → dedupIds l seen = l
  | [], _, _, _ => rfl
  | nm :: rest, seen, hnd, hfresh => by
    unfold dedupIds
    rw [hfresh nm (List.mem_cons_self _ _)]
    have htl : dedupIds rest (dinsert seen nm 0) = rest := by
      refine dedupIds_of_nodup rest _ (List.nodup_cons.mp hnd).2 ?_
      intro x hx
      rw [dlookup_dinsert_ne _ _ (by
        intro hc
        subst hc
        exact (List.nodup_cons.mp hnd).1 hx)]
      exact hfresh x (List.mem_cons_of_mem _ hx)
    rw [htl]

theorem nodup_getD_ne {l : List String} (h : l.Nodup) {i j : Nat}
    (hi : i < l.length) (hj : j < l.length) (hij : i ≠ j) :
    l.getD i "" ≠ l.getD j "" := by
  rw [List.getD_eq_getElem _ _ hi, List.getD_eq_getElem _ _ hj]
  intro hc
  exact hij (List.Nodup.getElem_inj_iff h |>.mp hc)

/-! ## Room-map construction lemmas -/

theorem buildRooms_succ (O : Oracle) (m : Nat) (names ids : List String)
    (adj : Adj) (theme : ThemeDefaults) (wn : String) :
    buildRooms O (m+1) names ids adj theme wn =
      dinsert (buildRooms O m names ids adj theme wn) (ids.getD m "")
        (roomAt O names ids adj theme wn m) := by
  unfold buildRooms
  rw [List.range_succ, List.foldl_append]
  rfl

theorem dkeys_dinsert_sub {α : Type} {m : List (String × α)} {k y : String}
    {v : α} (h : y ∈ dkeys (dinsert m k v)) : y ∈ dkeys m ∨ y = k := by
  by_cases hk : k ∈ dkeys m
  · rw [dkeys_dinsert_of_mem _ hk] at h
    exact Or.inl h
  · rw [dkeys_dinsert_of_not_mem _ hk] at h
    rcases List.mem_append.mp h with h | h
    · exact Or.inl h
    · exact Or.inr (List.mem_singleton.mp h)

theorem mem_keys_buildRooms {O : Oracle} {names ids : List String}
    {adj : Adj} {theme : ThemeDefaults} {wn : String} :
    ∀ {n : Nat} {x : String},
      x ∈ dkeys (buildRooms O n names ids adj theme wn) →
      ∃ i, i < n ∧ x = ids.getD i ""
  | 0, x, h => by simp [buildRooms, dkeys] at h
  | n+1, x, h => by
    rw [buildRooms_succ] at h
    rcases dkeys_dinsert_sub h with h | h
    · obtain ⟨i, hi, hx⟩ := mem_keys_buildRooms h
      exact ⟨i, by omega, hx⟩
    · exact ⟨n, by omega, h⟩

theorem dlookup_buildRooms {O : Oracle} {names ids : List String}
    {adj : Adj} {theme : ThemeDefaults} {wn : String} (hnodup : ids.Nodup) :
    ∀ {m : Nat}, m ≤ ids.length → ∀ {i : Nat}, i < m →
      dlookup (buildRooms O m names ids adj theme wn) (ids.getD i "") =
        some (roomAt O names ids adj theme wn i)
  | 0, _, i, hi => by omega
  | m+1, hm, i, hi => by
    rw [buildRooms_succ]
    rcases Nat.lt_or_ge i m with him | him
    · rw [dlookup_dinsert_ne _ _
        (nodup_getD_ne hnodup (by omega) (by omega) (by omega))]
      exact dlookup_buildRooms hnodup (by omega) him
    · have : i = m := by omega
      subst this
      exact dlookup_dinsert_self _ _ _

/-! ## Exit-dict lemmas -/

theorem buildExits_dir_aux (ids : List String) :
    ∀ (entries : List AdjEntry) (acc : List (String × String)),
      (∀ kv ∈ acc, ALL_DIRECTIONS.contains kv.1 = true) →
      ∀ kv ∈ entries.foldl (fun ex e =>
        if ALL_DIRECTIONS.contains e.2.1 then dinsert ex e.2.1 (ids.getD e.1 "")
        else ex) acc, ALL_DIRECTIONS.contains kv.1 = true
  | [], acc, hacc, kv, h => hacc kv h
  | e :: rest, acc, hacc, kv, h => by
    rw [List.foldl_cons] at h
    by_cases hv : ALL_DIRECTIONS.contains e.2.1 = true
    · rw [if_pos hv] at h
      refine buildExits_dir_aux ids rest _ ?_ kv h
      intro kv' hkv'
      rcases kv' with ⟨k', v'⟩
      rcases mem_dinsert_elim hkv' with ⟨rfl, _⟩ | hold
      · exact hv
      · exact hacc _ hold
    · rw [if_neg hv] at h
      exact buildExits_dir_aux ids rest acc hacc kv h

/-- Every key of a generated exits dict is a sanctioned direction. -/
theorem mem_buildExits_dir {entries : List AdjEntry} {ids : List String}
    {kv : String × String} (h : kv ∈ buildExits entries ids) :
    ALL_DIRECTIONS.contains kv.1 = true :=
  buildExits_dir_aux ids entries [] (by simp) kv h

theorem buildExits_preserve (ids : List String) {d v : String} :
    ∀ (entries : List AdjEntry) (acc : List (String × String)),
      (d, v) ∈ acc → d ∉ dirsOf entries →
      (d, v) ∈ entries.foldl (fun ex e =>
        if ALL_DIRECTIONS.contains e.2.1 then dinsert ex e.2.1 (ids.getD e.1 "")
        else ex) acc
  | [], acc, hacc, _ => hacc
  | e :: rest, acc, hacc, hnd => by
    rw [List.foldl_cons]
    have hne : e.2.1 ≠ d := by
      intro hc
      exact hnd (by simp [dirsOf, hc])
    have hnd' : d ∉ dirsOf rest := fun hc => hnd (by simp [dirsOf] at hc ⊢; exact Or.inr hc)
    by_cases hv : ALL_DIRECTIONS.contains e.2.1 = true
    · rw [if_pos hv]
      exact buildExits_preserve ids rest _
        (mem_dinsert_of_ne hacc (fun hc => hne hc.symm)) hnd'
    · rw [if_neg hv]
      exact buildExits_preserve ids rest acc hacc hnd'

theorem mem_buildExits_of_entry_aux (ids : List String) {j : Nat}
    {d r : String} :
    ∀ (entries : List AdjEntry) (acc : List (String × String)),
      (j, d, r) ∈ entries → (dirsOf entries).Nodup →
      ALL_DIRECTIONS.contains d = true →
      (d, ids.getD j "") ∈ entries.foldl (fun ex e =>
        if ALL_DIRECTIONS.contains e.2.1 then dinsert ex e.2.1 (ids.getD e.1 "")
        else ex) acc
  | [], _, hmem, _, _ => by simp at hmem
  | e :: rest, acc, hmem, hnd, hvalid => by
    rw [List.foldl_cons]
    have hnd2 : e.2.1 ∉ dirsOf rest ∧ (dirsOf rest).Nodup := by
      rw [show dirsOf (e :: rest) = e.2.1 :: dirsOf rest from rfl] at hnd
      exact List.nodup_cons.mp hnd
    rcases List.mem_cons.mp hmem with heq | hmem'
    · have he21 : e.2.1 = d := by rw [← heq]
      have he1 : e.1 = j := by rw [← heq]
      rw [he21, he1, if_pos hvalid]
      exact buildExits_preserve ids rest _ (mem_dinsert_self _ _ _)
        (he21 ▸ hnd2.1)
    · by_cases hv : ALL_DIRECTIONS.contains e.2.1 = true
      · rw [if_pos hv]
        exact mem_buildExits_of_entry_aux ids rest _ hmem' hnd2.2 hvalid
      · rw [if_neg hv]
        exact mem_buildExits_of_entry_aux ids rest acc hmem' hnd2.2 hvalid

/-- An adjacency entry with a sanctioned direction always makes it into
the exits dict (the per-node directions are distinct, so nothing
overwrites it). -/
theorem mem_buildExits_of_entry {entries : List AdjEntry} {ids : List String}
    {j : Nat} {d r : String} (hmem : (j, d, r) ∈ entries)
    (hnd : (dirsOf entries).Nodup) (hvalid : ALL_DIRECTIONS.contains d = true) :
    (d, ids.getD j "") ∈ buildExits entries ids :=
  mem_buildExits_of_entry_aux ids entries [] hmem hnd hvalid

theorem mem_buildExits_elim_aux (ids : List String) {d v : String} :
    ∀ (entries : List AdjEntry) (acc : List (String × String)),
      (d, v) ∈ entries.foldl (fun ex e =>
        if ALL_DIRECTIONS.contains e.2.1 then dinsert ex e.2.1 (ids.getD e.1 "")
        else ex) acc →
      (d, v) ∈ acc ∨ ∃ j r, (j, d, r) ∈ entries ∧ v = ids.getD j ""
  | [], acc, h => Or.inl h
  | e :: rest, acc, h => by
    rw [List.foldl_cons] at h
    by_cases hv : ALL_DIRECTIONS.contains e.2.1 = true
    · rw [if_pos hv] at h
      rcases mem_buildExits_elim_aux ids rest _ h with h' | ⟨j, r, hjr, hveq⟩
      · rcases mem_dinsert_elim h' with ⟨rfl, rfl⟩ | hold
        · exact Or.inr ⟨e.1, e.2.2, by simp, rfl⟩
        · exact Or.inl hold
      · exact Or.inr ⟨j, r, List.mem_cons_of_mem _ hjr, hveq⟩
    · rw [if_neg hv] at h
      rcases mem_buildExits_elim_aux ids rest acc h with h' | ⟨j, r, hjr, hveq⟩
      · exact Or.inl h'
      · exact Or.inr ⟨j, r, List.mem_cons_of_mem _ hjr, hveq⟩

/-- Every exits-dict binding comes from an adjacency entry. -/
theorem mem_buildExits_elim {entries : List AdjEntry} {ids : List String}
    {d v : String} (h : (d, v) ∈ buildExits entries ids) :
    ∃ j r, (j, d, r) ∈ entries ∧ v = ids.getD j "" := by
  rcases mem_buildExits_elim_aux ids entries [] h with h' | h'
  · simp at h'
  · exact h'

/-! ## Transfer from index reachability to room-id reachability -/

theorem roomAt_exits (O : Oracle) (names ids : List String) (adj : Adj)
    (theme : ThemeDefaults) (wn : String) (i : Nat) :
    (roomAt O names ids adj theme wn i).exits =
      buildExits (adjGet adj i) ids := rfl

/-- A set of ids closed under exit-following absorbs reachability. -/
theorem closed_absorb {rooms : List (String × Room)} {S : List String}
    (hS : closedB rooms S = true) {a b : String} (ha : a ∈ S)
    (hr : roomReach rooms a b) : b ∈ S := by
  induction hr with
  | refl => exact ha
  | @tail c b hsteps hstep ih =>
    obtain ⟨rm, hlk, d, hd⟩ := hstep
    have hc := List.all_eq_true.mp hS _ ih
    have hex : (d, b) ∈ exitsAt rooms c := by
      simp only [exitsAt, hlk]
      exact hd
    have := List.all_eq_true.mp hc _ hex
    simpa using this

/-- Index-level reachability in the adjacency structure transfers to
id-level reachability in the built room map, provided the ids are
pairwise distinct. -/
theorem roomReach_of_reachI {O : Oracle} {n : Nat} {names ids : List String}
    {adj : Adj} {theme : ThemeDefaults} {wn : String}
    (ginv : GraphInv n adj) (hnodup : ids.Nodup) (hlen : n ≤ ids.length)
    {i : Nat} (hre : ReachI adj i) :
    roomReach (buildRooms O n names ids adj theme wn) (ids.getD 0 "")
      (ids.getD i "") := by
  induction hre with
  | start => exact Relation.ReflTransGen.refl
  | @step j k d r hj hmem ih =>
    have hb := ginv.bound j (k, d, r) hmem
    refine Relation.ReflTransGen.tail ih ?_
    refine ⟨roomAt O names ids adj theme wn j,
      dlookup_buildRooms hnodup hlen hb.1, d, ?_⟩
    rw [roomAt_exits]
    have hvalid : ALL_DIRECTIONS.contains d = true := by
      rcases ginv.pair j k d r hmem with hp | hp
      · exact (pair_facts hp).2.2.2.1
      · exact (pair_facts hp).2.2.2.2.1
    exact mem_buildExits_of_entry hmem (ginv.nodup j) hvalid

theorem dkeys_buildRooms_eq {O : Oracle} {names ids : List String} {adj : Adj}
    {theme : ThemeDefaults} {wn : String} (hnodup : ids.Nodup) :
    ∀ {n : Nat}, n ≤ ids.length →
      dkeys (buildRooms O n names ids adj theme wn) =
        (List.range n).map (fun i => ids.getD i "")
  | 0, _ => rfl
  | n+1, hn => by
    rw [buildRooms_succ, List.range_succ, List.map_append]
    have hfresh : ids.getD n "" ∉
        dkeys (buildRooms O n names ids adj theme wn) := by
      intro hc
      obtain ⟨i, hi, hx⟩ := mem_keys_buildRooms hc
      exact nodup_getD_ne hnodup (by omega) (by omega) (by omega) hx.symm
    rw [dkeys_dinsert_of_not_mem _ hfresh,
      dkeys_buildRooms_eq hnodup (by omega)]
    simp

theorem map_getD_range (ids : List String) :
    (List.range ids.length).map (fun i => ids.getD i "") = ids := by
  apply List.ext_getElem
  · simp
  · intro i h1 h2
    simp only [List.getElem_map, List.getElem_range]
    rw [List.getD_eq_getElem _ _ h2]

theorem dlookup_buildRooms_elim {O : Oracle} {n : Nat}
    {names ids : List String} {adj : Adj} {theme : ThemeDefaults}
    {wn : String} (hnodup : ids.Nodup) (hlen : n ≤ ids.length)
    {a : String} {rm : Room}
    (h : dlookup (buildRooms O n names ids adj theme wn) a = some rm) :
    ∃ i, i < n ∧ a = ids.getD i "" ∧
      rm = roomAt O names ids adj theme wn i := by
  have hk := mem_keys_of_mem (dlookup_mem h)
  obtain ⟨i, hi, rfl⟩ := mem_keys_buildRooms hk
  have h2 := @dlookup_buildRooms O names ids adj theme wn hnodup n hlen i hi
  exact ⟨i, hi, rfl, Option.some.inj (h.symm.trans h2)⟩

/-! ## First-maximum characterisation of `argmaxFirst` -/

theorem head_le_of_decomp {α : Type} (f : α → Nat) {x A : α}
    {ys pre post : List α} (hdec : x :: ys = pre ++ A :: post)
    (hpre : ∀ y ∈ pre, f y < f A) : f x ≤ f A := by
  cases pre with
  | nil =>
    simp only [List.nil_append, List.cons.injEq] at hdec
    rw [hdec.1]
  | cons p pre₂ =>
    simp only [List.cons_append, List.cons.injEq] at hdec
    obtain ⟨h1, -⟩ := hdec
    subst h1
    exact le_of_lt (hpre x (List.mem_cons_self _ _))

/-- `max(..., key=...)` over `x :: xs` splits the list around its result:
everything earlier scores strictly less, everything later at most as
much.  (This is exactly "first element attaining the maximum".) -/
theorem argmaxFirst_spec {α : Type} (f : α → Nat) :
    ∀ (xs : List α) (x : α), ∃ pre post,
      x :: xs = pre ++ argmaxFirst f x xs :: post ∧
      (∀ y ∈ pre, f y < f (argmaxFirst f x xs)) ∧
      (∀ y ∈ post, f y ≤ f (argmaxFirst f x xs))
  | [], x => ⟨[], [], rfl, by simp, by simp⟩
  | y :: ys, x => by
    have hstep : argmaxFirst f x (y :: ys) =
        argmaxFirst f (if f y > f x then y else x) ys := rfl
    by_cases hy : f y > f x
    · obtain ⟨pre, post, hdec, hpre, hpost⟩ := argmaxFirst_spec f ys y
      rw [hstep, if_pos hy]
      refine ⟨x :: pre, post, ?_, ?_, hpost⟩
      · rw [List.cons_append, ← hdec]
      · intro z hz
        rcases List.mem_cons.mp hz with rfl | hz
        · exact lt_of_lt_of_le hy (head_le_of_decomp f hdec hpre)
        · exact hpre z hz
    · obtain ⟨pre, post, hdec, hpre, hpost⟩ := argmaxFirst_spec f ys x
      rw [hstep, if_neg hy]
      cases pre with
      | nil =>
        simp only [List.nil_append, List.cons.injEq] at hdec
        obtain ⟨hxA, hys⟩ := hdec
        refine ⟨[], y :: ys, by rw [List.nil_append, ← hxA], by simp, ?_⟩
        intro z hz
        rcases List.mem_cons.mp hz with rfl | hz
        · rw [← hxA]
          omega
        · exact hpost z (hys ▸ hz)
      | cons p pre₂ =>
        simp only [List.cons_append, List.cons.injEq] at hdec
        obtain ⟨hxp, hys⟩ := hdec
        subst hxp
        refine ⟨x :: y :: pre₂, post, ?_, ?_, hpost⟩
        · rw [List.cons_append, List.cons_append, ← hys]
        · intro z hz
          have hxA : f x < f (argmaxFirst f x ys) :=
            hpre x (List.mem_cons_self _ _)
          rcases List.mem_cons.mp hz with rfl | hz
          · exact hxA
          · rcases List.mem_cons.mp hz with rfl | hz
            · omega
            · exact hpre z (List.mem_cons_of_mem _ hz)

theorem themeScore_ORIGINAL (name : String) :
    themeScore name .ORIGINAL = 0 := rfl

theorem mem_themeEnumOrder (t : WorldTheme) : t ∈ themeEnumOrder := by
  cases t <;> decide

/-- The `max`-then-zero-fallback shape shared by the classifier:
membership, maximality, zero fallback and first-declared tie-breaking. -/
theorem classifyCore_spec (f : WorldTheme → Nat) (t0 : WorldTheme)
    (ts : List WorldTheme) (res : WorldTheme)
    (hres : res = if f (argmaxFirst f t0 ts) = 0 then .ORIGINAL
      else argmaxFirst f t0 ts)
    (hall : ∀ t, t ∈ t0 :: ts) (horig : f .ORIGINAL = 0) :
    res ∈ t0 :: ts ∧
    (∀ t, f t ≤ f res) ∧
    (f res = 0 → res = .ORIGINAL) ∧
    (f res ≠ 0 → ∃ pre post, t0 :: ts = pre ++ res :: post ∧
      ∀ t ∈ pre, f t < f res) := by
  obtain ⟨pre, post, hdec, hpre, hpost⟩ := argmaxFirst_spec f ts t0
  have hmax : ∀ t, f t ≤ f (argmaxFirst f t0 ts) := by
    intro t
    have ht := hall t
    rw [hdec] at ht
    rcases List.mem_append.mp ht with h | h
    · exact le_of_lt (hpre t h)
    · rcases List.mem_cons.mp h with rfl | h
      · exact le_refl _
      · exact hpost t h
  by_cases h0 : f (argmaxFirst f t0 ts) = 0
  · rw [if_pos h0] at hres
    subst hres
    refine ⟨hall _, ?_, fun _ => rfl, ?_⟩
    · intro t
      have := hmax t
      omega
    · intro hne
      exact absurd horig hne
  · rw [if_neg h0] at hres
    subst hres
    exact ⟨hall _, hmax, fun hz => absurd hz h0,
      fun _ => ⟨pre, post, hdec, hpre⟩⟩

theorem mem_exitsAt_elim {rooms : List (String × Room)} {a d b : String}
    (h : (d, b) ∈ exitsAt rooms a) :
    ∃ rm, dlookup rooms a = some rm ∧ (d, b) ∈ rm.exits := by
  unfold exitsAt at h
  cases hlk : dlookup rooms a with
  | none =>
    rw [hlk] at h
    simp at h
  | some rm =>
    rw [hlk] at h
    exact ⟨rm, rfl, h⟩

theorem exitsAt_eq_of_lookup {rooms : List (String × Room)} {a : String}
    {rm : Room} (h : dlookup rooms a = some rm) :
    exitsAt rooms a = rm.exits := by
  unfold exitsAt
  rw [h]

/-! ## Sprite spawn-room lemmas -/

theorem dedupKeepFirst_subset : ∀ (l : List String), ∀ x ∈ dedupKeepFirst l, x ∈ l
  | [] => by simp [dedupKeepFirst]
  | a :: rest => by
    intro x hx
    rw [dedupKeepFirst] at hx
    rcases List.mem_cons.mp hx with rfl | hx
    · exact List.mem_cons_self _ _
    · have := dedupKeepFirst_subset _ x hx
      exact List.mem_cons_of_mem _ (List.mem_of_mem_filter this)
  termination_by l => l.length
  decreasing_by
    simp_wf
    exact Nat.lt_succ_of_le (List.length_filter_le _ _)

theorem dedupKeepFirst_length_le : ∀ (l : List String),
    (dedupKeepFirst l).length ≤ l.length
  | [] => by simp [dedupKeepFirst]
  | a :: rest => by
    rw [dedupKeepFirst]
    simp only [List.length_cons]
    have h1 := dedupKeepFirst_length_le (rest.filter (fun y => y ≠ a))
    have h2 := List.length_filter_le (fun y => y ≠ a) rest
    omega
  termination_by l => l.length
  decreasing_by
    simp_wf
    exact Nat.lt_succ_of_le (List.length_filter_le _ _)

theorem dedupKeepFirst_cons_ne_nil (a : String) (rest : List String) :
    dedupKeepFirst (a :: rest) ≠ [] := by
  rw [dedupKeepFirst]
  simp

theorem dedupSpawn_spec (f : Nat → String) (n : Nat) (hn : 1 ≤ n)
    (room_ids : List String) (hf : ∀ j, f j ∈ room_ids) :
    dedupKeepFirst ((List.range n).map f) ≠ [] ∧
    (dedupKeepFirst ((List.range n).map f)).length ≤ n ∧
    ∀ r ∈ dedupKeepFirst ((List.range n).map f), r ∈ room_ids := by
  refine ⟨?_, ?_, ?_⟩
  · have hlen : ((List.range n).map f).length = n := by simp
    cases hc : (List.range n).map f with
    | nil =>
      rw [hc] at hlen
      simp at hlen
      omega
    | cons a l => exact dedupKeepFirst_cons_ne_nil a l
  · exact le_trans (dedupKeepFirst_length_le _) (by simp)
  · intro r hr
    have := dedupKeepFirst_subset _ r hr
    obtain ⟨j, hj, rfl⟩ := List.mem_map.mp this
    exact hf j

theorem assignSpawnRooms_spec (idx total : Nat) {room_ids : List String}
    (h : room_ids ≠ []) :
    assignSpawnRooms idx total room_ids ≠ [] ∧
    (assignSpawnRooms idx total room_ids).length ≤ 2 ∧
    ∀ r ∈ assignSpawnRooms idx total room_ids, r ∈ room_ids := by
  have hne : room_ids.isEmpty = false := by
    cases room_ids with
    | nil => exact absurd rfl h
    | cons a l => rfl
  have hlen : 0 < room_ids.length := List.length_pos.mpr h
  have hassign : assignSpawnRooms idx total room_ids =
      dedupKeepFirst ((List.range
        (min 2 (max 1 (room_ids.length / max 1 total)))).map (fun j =>
          room_ids.getD (((idx * max 1 (room_ids.length / max 1 total)) %
            room_ids.length + j) % room_ids.length) "")) := by
    unfold assignSpawnRooms
    rw [hne]
    rfl
  rw [hassign]
  have hspec := dedupSpawn_spec
    (fun j => room_ids.getD (((idx * max 1 (room_ids.length / max 1 total)) %
      room_ids.length + j) % room_ids.length) "")
    (min 2 (max 1 (room_ids.length / max 1 total)))
    (le_min (by norm_num) (le_max_left _ _))
    room_ids (fun j => by
      show room_ids.getD (((idx * max 1 (room_ids.length / max 1 total)) %
        room_ids.length + j) % room_ids.length) "" ∈ room_ids
      rw [List.getD_eq_getElem _ _ (Nat.mod_lt _ hlen)]
      exact List.getElem_mem _)
  exact ⟨hspec.1, le_trans hspec.2.1 (min_le_left _ _), hspec.2.2⟩

theorem spritesLoop_spawn {O : Oracle} {theme : ThemeDefaults}
    {world : WorldConfig} {room_ids : List String} {total : Nat}
    (hne : room_ids ≠ []) :
    ∀ (names : List String) (i : Nat) (acc : List (String × Sprite)),
      (∀ p ∈ acc, p.2.spawn_rooms ≠ [] ∧ p.2.spawn_rooms.length ≤ 2 ∧
        ∀ r ∈ p.2.spawn_rooms, r ∈ room_ids) →
      ∀ p ∈ spritesLoop O theme world room_ids total names i acc,
        p.2.spawn_rooms ≠ [] ∧ p.2.spawn_rooms.length ≤ 2 ∧
        ∀ r ∈ p.2.spawn_rooms, r ∈ room_ids
  | [], i, acc, hacc => by
    intro p hp
    simp only [spritesLoop] at hp
    exact hacc p hp
  | nm :: rest, i, acc, hacc => by
    intro p hp
    simp only [spritesLoop] at hp
    by_cases hstrip : pyStrip nm = ""
    · rw [if_pos hstrip] at hp
      exact spritesLoop_spawn hne rest (i+1) acc hacc p hp
    · rw [if_neg hstrip] at hp
      refine spritesLoop_spawn hne rest (i+1) _ ?_ p hp
      intro q hq
      obtain ⟨x, y⟩ := q
      rcases mem_dinsert_elim hq with ⟨-, hy⟩ | hq'
      · rw [hy]
        exact assignSpawnRooms_spec i total hne
      · exact hacc _ hq'

/-! ## Physics package lemmas -/

theorem pyChoice_mem {α : Type} {l : List α} (ω : Nat) (d : α) (h : l ≠ []) :
    pyChoice ω l d ∈ l := by
  unfold pyChoice
  have hlen : 0 < l.length := List.length_pos.mpr h
  rw [List.getD_eq_getElem _ _ (Nat.mod_lt _ hlen)]
  exact List.getElem_mem _

theorem randomRoom_mem {O : Oracle} {path : List Nat} {world : WorldConfig}
    (h : world.rooms ≠ []) : randomRoom O path world ∈ dkeys world.rooms := by
  have hne : dkeys world.rooms ≠ [] := fun hc => h (by simpa [dkeys] using hc)
  exact pyChoice_mem _ _ hne

theorem dkeys_setRoomProperty (world : WorldConfig) (room k v : String) :
    dkeys (setRoomProperty world room k v).rooms = dkeys world.rooms := by
  unfold setRoomProperty dkeys
  rw [List.map_map]
  congr 1
  funext p
  by_cases hp : p.1 = room <;> simp [hp]

theorem mem_dkeys_dinsert {α : Type} {m : List (String × α)} {k k2 : String}
    {v : α} (h : k ∈ dkeys m) : k ∈ dkeys (dinsert m k2 v) := by
  by_cases h2 : k2 ∈ dkeys m
  · rw [dkeys_dinsert_of_mem _ h2]
    exact h
  · rw [dkeys_dinsert_of_not_mem _ h2]
    exact List.mem_append_left _ h

theorem mem_dkeys_dinsertAll_left {α : Type} :
    ∀ (l : List (String × α)) {m : List (String × α)} {k : String},
      k ∈ dkeys m → k ∈ dkeys (dinsertAll m l)
  | [], _, _, h => h
  | p :: rest, m, k, h =>
    mem_dkeys_dinsertAll_left rest (mem_dkeys_dinsert h)

theorem mem_dkeys_dinsertAll_right {α : Type} :
    ∀ (l : List (String × α)) {m : List (String × α)} {k : String},
      k ∈ dkeys l → k ∈ dkeys (dinsertAll m l)
  | [], _, _, h => by simp [dkeys] at h
  | p :: rest, m, k, h => by
    have hh : k = p.1 ∨ k ∈ dkeys rest := by
      simpa [dkeys] using h
    rcases hh with rfl | h1
    · exact mem_dkeys_dinsertAll_left rest
        (mem_keys_of_mem (mem_dinsert_self m p.1 p.2))
    · exact mem_dkeys_dinsertAll_right rest h1

theorem getLastD_mem : ∀ {l : List String}, l ≠ [] → l.getLastD "" ∈ l
  | [], h => absurd rfl h
  | [a], _ => by simp
  | a :: b :: rest, _ => by
    have h1 : (a :: b :: rest).getLastD "" = (b :: rest).getLastD "" := by
      simp [List.getLastD]
    rw [h1]
    exact List.mem_cons_of_mem _ (getLastD_mem (by simp))

/-- Glue: package-internal resolution plus room-key preservation gives
resolution inside the injected world. -/
theorem packageGlue {pkg : PhysicsPackage} {world w' : WorldConfig}
    (h1 : ∀ t ∈ pkg.transformations,
      transformResolved (dkeys pkg.objects) (dkeys world.rooms) t.2)
    (h2 : ∀ o ∈ pkg.objects,
      o.2.location = "none" ∨ o.2.location ∈ dkeys world.rooms)
    (h3 : dkeys w'.rooms = dkeys world.rooms) :
    (∀ t ∈ pkg.transformations, transformResolved (dkeys pkg.objects)
      (dkeys world.rooms) t.2) ∧
    (∀ o ∈ pkg.objects, o.2.location = "none" ∨
      o.2.location ∈ dkeys world.rooms) ∧
    (∀ t ∈ pkg.transformations, transformResolved
      (dkeys (pkg.inject w').objects) (dkeys (pkg.inject w').rooms) t.2) ∧
    (∀ o ∈ pkg.objects, o.2.location = "none" ∨
      o.2.location ∈ dkeys (pkg.inject w').rooms) := by
  have hrooms : dkeys (pkg.inject w').rooms = dkeys world.rooms := by
    rw [show (pkg.inject w').rooms = w'.rooms from rfl, h3]
  have hobjsub : ∀ k, k ∈ dkeys pkg.objects →
      k ∈ dkeys (pkg.inject w').objects := by
    intro k hk
    exact mem_dkeys_dinsertAll_right _ hk
  refine ⟨h1, h2, ?_, ?_⟩
  · intro t ht
    obtain ⟨a1, a2, a3, a4, a5⟩ := h1 t ht
    refine ⟨hobjsub _ a1, fun h => hobjsub _ (a2 h), fun h => hobjsub _ (a3 h),
      fun h => hobjsub _ (a4 h), fun h => ?_⟩
    rw [hrooms]
    exact a5 h
  · intro o ho
    rcases h2 o ho with h | h
    · exact Or.inl h
    · refine Or.inr ?_
      rw [hrooms]
      exact h

/-! ## String lemmas for the auto-repair pass -/

theorem head?_dropWhile_false {α : Type} (q : α → Bool) :
    ∀ (l : List α) {a : α}, (l.dropWhile q).head? = some a → q a = false
  | [], a, h => by simp at h
  | x :: t, a, h => by
    by_cases hx : q x = true
    · rw [List.dropWhile_cons, if_pos hx] at h
      exact head?_dropWhile_false q t h
    · rw [List.dropWhile_cons, if_neg hx] at h
      simp only [List.head?_cons, Option.some.injEq] at h
      subst h
      simpa using hx

theorem dropWhile_eq_self_of_head {α : Type} (q : α → Bool) :
    ∀ (l : List α), (∀ a, l.head? = some a → q a = false) → l.dropWhile q = l
  | [], _ => rfl
  | x :: t, h => by
    have hx := h x rfl
    rw [List.dropWhile_cons, if_neg (by simp [hx])]

theorem getLast?_suffix_eq {α : Type} {l₁ l₂ : List α} (h : l₁ <:+ l₂)
    (hne : l₁ ≠ []) : l₁.getLast? = l₂.getLast? := by
  obtain ⟨t, rfl⟩ := h
  induction t with
  | nil => rfl
  | cons a t ih =>
    rw [List.cons_append]
    rw [ih]
    cases hc : t ++ l₁ with
    | nil =>
      rcases List.append_eq_nil.mp hc with ⟨-, h2⟩
      exact absurd h2 hne
    | cons b s =>
      rw [List.getLast?_cons_cons]

theorem stripList_idem {α : Type} (q : α → Bool) (d : List α) :
    ((((((d.dropWhile q).reverse.dropWhile q).reverse).dropWhile
      q).reverse.dropWhile q).reverse) =
      ((d.dropWhile q).reverse.dropWhile q).reverse := by
  by_cases hw : (d.dropWhile q).reverse.dropWhile q = []
  · simp [hw]
  · have hv_head : ∀ a,
        ((d.dropWhile q).reverse.dropWhile q).reverse.head? = some a →
        q a = false := by
      intro a ha
      rw [List.head?_reverse] at ha
      have hsuf : (d.dropWhile q).reverse.dropWhile q <:+
          (d.dropWhile q).reverse := List.dropWhile_suffix _
      rw [getLast?_suffix_eq hsuf hw] at ha
      rw [List.getLast?_reverse] at ha
      exact head?_dropWhile_false q _ ha
    rw [dropWhile_eq_self_of_head q _ hv_head, List.reverse_reverse,
      dropWhile_eq_self_of_head q _ (fun a ha => head?_dropWhile_false q _ ha)]

theorem pyStrip_idem (s : String) : pyStrip (pyStrip s) = pyStrip s :=
  congrArg String.mk (stripList_idem isPySpace s.data)

theorem pyStrip_space (y : String) : pyStrip (" " ++ y) = pyStrip y := by
  unfold pyStrip
  rw [show (" " ++ y).data = ' ' :: y.data from rfl]
  rw [List.dropWhile_cons, if_pos (by decide)]

theorem pyStrip_data_subset (s : String) : ∀ c ∈ (pyStrip s).data, c ∈ s.data := by
  intro c hc
  rw [show (pyStrip s).data =
    ((s.data.dropWhile isPySpace).reverse.dropWhile isPySpace).reverse
    from rfl] at hc
  rw [List.mem_reverse] at hc
  have h1 := (List.dropWhile_sublist (l := (s.data.dropWhile
    isPySpace).reverse) isPySpace).subset hc
  rw [List.mem_reverse] at h1
  exact (List.dropWhile_sublist isPySpace).subset h1

theorem splitCommaAux_no_comma :
    ∀ (acc cs : List Char), (∀ c ∈ acc, c ≠ ',') →
      ∀ x ∈ splitCommaAux acc cs, ',' ∉ x.data
  | acc, [], hacc => by
    intro x hx
    simp only [splitCommaAux, List.mem_singleton] at hx
    subst hx
    intro hc
    rw [show (String.mk acc.reverse).data = acc.reverse from rfl,
      List.mem_reverse] at hc
    exact hacc ',' hc rfl
  | acc, c :: rest, hacc => by
    intro x hx
    simp only [splitCommaAux] at hx
    by_cases hc : c = ','
    · rw [if_pos hc] at hx
      rcases List.mem_cons.mp hx with rfl | hx
      · intro hmem
        rw [show (String.mk acc.reverse).data = acc.reverse from rfl,
          List.mem_reverse] at hmem
        exact hacc ',' hmem rfl
      · exact splitCommaAux_no_comma [] rest (by simp) x hx
    · rw [if_neg hc] at hx
      refine splitCommaAux_no_comma (c :: acc) rest ?_ x hx
      intro d hd
      rcases List.mem_cons.mp hd with rfl | hd
      · exact hc
      · exact hacc d hd

theorem splitComma_no_comma {s x : String} (hx : x ∈ splitComma s) :
    ',' ∉ x.data :=
  splitCommaAux_no_comma [] s.data (by simp) x hx

/-- Shifting the accumulator only prefixes the first piece. -/
theorem splitCommaAux_acc :
    ∀ (cs acc : List Char), ∃ p ps, splitCommaAux [] cs = p :: ps ∧
      splitCommaAux acc cs = String.mk (acc.reverse ++ p.data) :: ps
  | [], acc => ⟨String.mk [], [], rfl, by simp [splitCommaAux]⟩
  | c :: cs', acc => by
    by_cases hc : c = ','
    · refine ⟨String.mk [], splitCommaAux [] cs', ?_, ?_⟩
      · simp only [splitCommaAux, if_pos hc]
        rfl
      · simp only [splitCommaAux, if_pos hc]
        simp
    · obtain ⟨p0, ps0, h1, h2c⟩ := splitCommaAux_acc cs' [c]
      obtain ⟨p1, ps1, h1', h2acc⟩ := splitCommaAux_acc cs' (c :: acc)
      rw [h1] at h1'
      injection h1' with hpp hpps
      subst hpp
      subst hpps
      refine ⟨String.mk (c :: p0.data), ps0, ?_, ?_⟩
      · simp only [splitCommaAux, if_neg hc]
        rw [h2c]
        simp
      · simp only [splitCommaAux, if_neg hc]
        rw [h2acc]
        simp

theorem splitCommaAux_append :
    ∀ (xd : List Char), (∀ c ∈ xd, c ≠ ',') → ∀ (acc cs : List Char),
      splitCommaAux acc (xd ++ ',' :: cs) =
        String.mk (acc.reverse ++ xd) :: splitCommaAux [] cs
  | [], _, acc, cs => by simp [splitCommaAux]
  | c :: xd', hxd, acc, cs => by
    have hc : c ≠ ',' := hxd c (List.mem_cons_self _ _)
    calc splitCommaAux acc ((c :: xd') ++ ',' :: cs)
        = splitCommaAux (c :: acc) (xd' ++ ',' :: cs) := by
          rw [List.cons_append]
          simp [splitCommaAux, if_neg hc]
      _ = String.mk ((c :: acc).reverse ++ xd') :: splitCommaAux [] cs :=
          splitCommaAux_append xd'
            (fun d hd => hxd d (List.mem_cons_of_mem _ hd)) (c :: acc) cs
      _ = String.mk (acc.reverse ++ c :: xd') :: splitCommaAux [] cs := by
          simp

theorem splitCommaAux_all :
    ∀ (xd : List Char), (∀ c ∈ xd, c ≠ ',') → ∀ (acc : List Char),
      splitCommaAux acc xd = [String.mk (acc.reverse ++ xd)]
  | [], _, acc => by simp [splitCommaAux]
  | c :: xd', hxd, acc => by
    have hc : c ≠ ',' := hxd c (List.mem_cons_self _ _)
    simp only [splitCommaAux, if_neg hc]
    rw [splitCommaAux_all xd'
      (fun d hd => hxd d (List.mem_cons_of_mem _ hd)) (c :: acc)]
    simp

theorem split_join : ∀ (rest : List String) (x : String), ',' ∉ x.data →
    (∀ y ∈ rest, ',' ∉ y.data) →
    splitComma (joinComma (x :: rest)) = x :: rest.map (fun y => " " ++ y)
  | [], x, hx, _ => by
    show splitCommaAux [] x.data = [x]
    rw [splitCommaAux_all x.data (fun c hc hceq => hx (hceq ▸ hc)) []]
    simp
  | y :: rest', x, hx, hrest => by
    have hdata : (joinComma (x :: y :: rest')).data =
        x.data ++ ',' :: (' ' :: (joinComma (y :: rest')).data) := by
      rw [show (joinComma (x :: y :: rest')).data =
        (x.data ++ [',', ' ']) ++ (joinComma (y :: rest')).data from rfl,
        List.append_assoc]
      rfl
    show splitCommaAux [] (joinComma (x :: y :: rest')).data = _
    rw [hdata]
    rw [splitCommaAux_append x.data (fun c hc hceq => hx (hceq ▸ hc)) []
      (' ' :: (joinComma (y :: rest')).data)]
    have h2 : splitCommaAux [] (' ' :: (joinComma (y :: rest')).data) =
        splitCommaAux [' '] (joinComma (y :: rest')).data := by
      simp [splitCommaAux]
    rw [h2]
    obtain ⟨p, ps, hp1, hp2⟩ :=
      splitCommaAux_acc (joinComma (y :: rest')).data [' ']
    have hihs : splitCommaAux [] (joinComma (y :: rest')).data =
        y :: rest'.map (fun z => " " ++ z) :=
      split_join rest' y (hrest y (List.mem_cons_self _ _))
        (fun z hz => hrest z (List.mem_cons_of_mem _ hz))
    rw [hihs] at hp1
    injection hp1 with hpy hpps
    subst hpy
    subst hpps
    rw [hp2]
    rfl

/-- Splitting, stripping and filtering recovers a comma-joined list of
stripped, non-empty, comma-free identifiers exactly. -/
theorem split_join_strip (L : List String)
    (hL : ∀ x ∈ L, pyStrip x = x ∧ x ≠ "" ∧ ',' ∉ x.data) (hne : L ≠ []) :
    ((splitComma (joinComma L)).map pyStrip).filter (fun r => r ≠ "") = L := by
  obtain ⟨x, rest, rfl⟩ := List.exists_cons_of_ne_nil hne
  rw [split_join rest x (hL x (List.mem_cons_self _ _)).2.2
    (fun y hy => (hL y (List.mem_cons_of_mem _ hy)).2.2)]
  rw [List.map_cons, List.map_map]
  have hmapeq : rest.map (pyStrip ∘ fun y => " " ++ y) = rest := by
    have hcong : ∀ y ∈ rest, (pyStrip ∘ fun y => " " ++ y) y = y := by
      intro y hy
      simp only [Function.comp_apply]
      rw [pyStrip_space, (hL y (List.mem_cons_of_mem _ hy)).1]
    rw [List.map_congr_left hcong]
    exact List.map_id rest
  rw [(hL x (List.mem_cons_self _ _)).1, hmapeq]
  rw [List.filter_eq_self.mpr ?_]
  intro a ha
  simp [(hL a ha).2.1]

/-! ## Auto-repair lemmas -/

theorem dkeys_repairRooms (rooms : ParsedIni) :
    dkeys (repairRooms rooms).sections = dkeys rooms.sections := by
  unfold repairRooms dkeys
  rw [List.map_map]
  rfl

theorem mapM_some_mem {α β : Type} {f : α → Option β} :
    ∀ {l : List α} {l' : List β}, l.mapM f = some l' →
      ∀ y ∈ l', ∃ x ∈ l, f x = some y
  | [], l', h => by
    have h' : ([] : List β) = l' := Option.some.inj h
    subst h'
    intro y hy
    simp at hy
  | a :: rest, l', h => by
    rw [List.mapM_cons] at h
    cases hfa : f a with
    | none =>
      rw [hfa] at h
      simp at h
    | some b =>
      rw [hfa] at h
      cases hrest : rest.mapM f with
      | none =>
        rw [hrest] at h
        simp at h
      | some bs =>
        rw [hrest] at h
        simp only [Option.bind_some, Option.bind_eq_bind] at h
        have h' : b :: bs = l' := by simpa using h
        subst h'
        intro y hy
        rcases List.mem_cons.mp hy with rfl | hy
        · exact ⟨a, List.mem_cons_self _ _, hfa⟩
        · obtain ⟨x, hx, hfx⟩ := mapM_some_mem hrest y hy
          exact ⟨x, List.mem_cons_of_mem _ hx, hfx⟩

theorem repairPass_elim {secs : List (String × IniSection)}
    {g : IniSection → Option IniSection} {out : ParsedIni}
    (h : (secs.mapM (fun p => (g p.2).map (fun opts => (p.1, opts)))).map
      ParsedIni.mk = some out) :
    ∀ p' ∈ out.sections, ∃ p ∈ secs, p'.1 = p.1 ∧ g p.2 = some p'.2 := by
  cases hm : secs.mapM (fun p => (g p.2).map (fun opts => (p.1, opts))) with
  | none =>
    rw [hm] at h
    simp at h
  | some l' =>
    rw [hm] at h
    have hout : out.sections = l' := by
      have h2 : ParsedIni.mk l' = out := by simpa using h
      rw [← h2]
    intro p' hp'
    rw [hout] at hp'
    obtain ⟨x, hx, hfx⟩ := mapM_some_mem hm p' hp'
    cases hro : g x.2 with
    | none =>
      rw [hro] at hfx
      simp at hfx
    | some opts =>
      rw [hro] at hfx
      have hp : (x.1, opts) = p' := by simpa using hfx
      refine ⟨x, hx, ?_, ?_⟩
      · rw [← hp]
      · rw [← hp]
        exact hro

theorem repairObjSection_spec {valid : List String} {fb : Option String}
    {opts opts' : IniSection}
    (h : repairObjSection valid fb opts = some opts') :
    opts' = opts ∨ ∃ f, fb = some f ∧ opts' = dinsert opts "location" f := by
  unfold repairObjSection at h
  split at h
  · split at h
    · cases fb with
      | none => simp at h
      | some f =>
        injection h with h
        exact Or.inr ⟨f, rfl, h.symm⟩
    · injection h with h
      exact Or.inl h.symm
  · injection h with h
    exact Or.inl h.symm

theorem repairSprSection_some_raw (valid : List String) (fb : Option String)
    (opts : IniSection) (raw : String)
    (hl : dlookup opts "spawn_rooms" = some raw) :
    repairSprSection valid fb opts =
      (let rooms_list := ((splitComma raw).map pyStrip).filter
        (fun r => r ≠ "")
       let valid_spawns := rooms_list.filter (fun r => valid.contains r)
       if valid_spawns.length < rooms_list.length then
         match fb with
         | some f => some (dinsert opts "spawn_rooms"
             (joinComma (if valid_spawns ≠ [] then valid_spawns else [f])))
         | none => none
       else some opts) := by
  unfold repairSprSection
  rw [hl]

theorem repairSprSection_no_raw (valid : List String) (fb : Option String)
    (opts : IniSection) (hl : dlookup opts "spawn_rooms" = none) :
    repairSprSection valid fb opts = some opts := by
  unfold repairSprSection
  rw [hl]

theorem repairSprSection_spec {valid : List String} {fb : Option String}
    {opts opts' : IniSection}
    (h : repairSprSection valid fb opts = some opts') :
    opts' = opts ∨ ∃ f raw L, fb = some f ∧
      dlookup opts "spawn_rooms" = some raw ∧
      opts' = dinsert opts "spawn_rooms" (joinComma L) ∧ L ≠ [] ∧
      ∀ x ∈ L, (x ∈ ((splitComma raw).map pyStrip).filter (fun r => r ≠ "") ∧
        valid.contains x = true) ∨ x = f := by
  cases hl : dlookup opts "spawn_rooms" with
  | none =>
    rw [repairSprSection_no_raw valid fb opts hl] at h
    injection h with h
    exact Or.inl h.symm
  | some raw =>
    cases fb with
    | none =>
      rw [repairSprSection_some_raw valid none opts raw hl] at h
      simp only [] at h
      split at h
      · simp at h
      · injection h with h
        exact Or.inl h.symm
    | some f =>
      rw [repairSprSection_some_raw valid (some f) opts raw hl] at h
      simp only [] at h
      split at h
      · have h2 := Option.some.inj h
        refine Or.inr ⟨f, raw,
          (if (((splitComma raw).map pyStrip).filter
                (fun r => r ≠ "")).filter (fun r => valid.contains r) ≠ []
           then (((splitComma raw).map pyStrip).filter
                (fun r => r ≠ "")).filter (fun r => valid.contains r)
           else [f]), rfl, rfl, h2.symm, ?_, ?_⟩
        · split
          · assumption
          · simp
        · intro x hx
          split at hx
          · refine Or.inl ⟨?_, ?_⟩
            · exact List.mem_of_mem_filter hx
            · simpa using (List.mem_filter.mp hx).2
          · rw [List.mem_singleton.mp hx]
            exact Or.inr rfl
      · injection h with h
        exact Or.inl h.symm

theorem fallbackRoom_mem {valid : List String} {f : String}
    (h : fallbackRoom valid = some f) : f ∈ valid := by
  unfold fallbackRoom at h
  by_cases hc : valid.contains "entrance" = true
  · rw [if_pos hc] at h
    injection h with h
    subst h
    simpa using hc
  · rw [if_neg hc] at h
    cases valid with
    | nil => simp at h
    | cons a t =>
      have ha : a = f := by simpa using h
      subst ha
      exact List.mem_cons_self _ _

/-! # Claim theorems -/

/-- C1 counterexample: with five custom room names whose slugs collide
(`"y 1"` and the disambiguated duplicate of `"y"` both become `y_1`) and
one adversarial random draw, `RoomGraphGenerator.generate` returns a
room map containing the room `z` that is *not* reachable from the start
room `entrance` by following exits — refuting unconditional full
connectivity. -/
theorem C1_counterexample_unreachable_room :
    "z" ∈ dkeys (generate cexO 5 thO "W" (some cexNames)) ∧
    ¬ roomReach (generate cexO 5 thO "W" (some cexNames)) "entrance" "z" := by
  constructor
  · decide
  · intro h
    have hz := closed_absorb (S := ["entrance", "y", "y_1"]) (by decide)
      (by decide) h
    exact absurd hz (by decide)

/-- C1 (amended): for every requested room count, every oracle (random
outcome), theme, world name and custom-name list, *provided* the
generated id slugs are pairwise distinct (always true for generated
names; violable only by adversarial custom names), every room of the
returned map is reachable from the start room `entrance` by following
exits.  Termination is inherent: all embedded functions are total. -/
theorem C1_generate_all_reachable (O : Oracle) (rc : Nat)
    (theme : ThemeDefaults) (wn : String) (cn : Option (List String))
    (hnd : (genIds O (clampCount rc) theme cn).Nodup) :
    ∀ x ∈ dkeys (generate O rc theme wn cn),
      roomReach (generate O rc theme wn cn) "entrance" x := by
  intro x hx
  have hn3 : 3 ≤ clampCount rc := le_max_left _ _
  have hn1 : 1 ≤ clampCount rc := by omega
  have hgen : generate O rc theme wn cn =
      buildRooms O (clampCount rc) (genNames O (clampCount rc) theme cn)
        (genIds O (clampCount rc) theme cn) (genAdj O (clampCount rc))
        theme wn := rfl
  have hlen : clampCount rc ≤ (genIds O (clampCount rc) theme cn).length := by
    rw [genIds_length]
  rw [hgen] at hx
  obtain ⟨i, hi, rfl⟩ := mem_keys_buildRooms hx
  have ginv := graphInv_genAdj O hn1
  obtain ⟨tl, htl⟩ := genIds_head O theme cn hn1
  have h0 : (genIds O (clampCount rc) theme cn).getD 0 "" = "entrance" := by
    rw [htl]
    rfl
  rw [hgen, ← h0]
  exact roomReach_of_reachI ginv hnd hlen (ginv.conn i hi)

theorem C1_witness :
    roomReach (generate idO 3 thO "w" none) "entrance" "side_room" :=
  C1_generate_all_reachable idO 3 thO "w" none (by decide) "side_room"
    (by decide)

/-- C2: whenever pre-write validation fails, the pipeline returns a
failed result carrying the full error list, writes nothing, and the
result does not depend on the serializer or on the on-disk verifier at
all (neither ever runs). -/
theorem C2_failed_validation_closed
    (writer writer' : WorldConfig → String → List (String × String))
    (rtv rtv' : String → ValidationResult) (O : Oracle)
    (req : GeneratorRequest)
    (hinvalid : (validate (buildWorld O req).1).is_valid = false) :
    (runPipeline writer rtv O req).success = false ∧
    (runPipeline writer rtv O req).written_files = [] ∧
    (runPipeline writer rtv O req).validation_errors =
      (validate (buildWorld O req).1).errors ∧
    runPipeline writer rtv O req = runPipeline writer' rtv' O req := by
  have heq : ∀ (w : WorldConfig → String → List (String × String))
      (rv : String → ValidationResult), runPipeline w rv O req =
      { success := false
        world := some (buildWorld O req).1
        written_files := []
        validation_errors := (validate (buildWorld O req).1).errors
        validation_warnings := (validate (buildWorld O req).1).warnings
        roundtrip_errors := []
        summary := (buildWorld O req).1.summary
        theme_used := some (buildWorld O req).2.theme } := by
    intro w rv
    simp only [runPipeline]
    rw [hinvalid]
    rfl
  refine ⟨?_, ?_, ?_, (heq writer rtv).trans (heq writer' rtv').symm⟩
  · rw [heq writer rtv]
  · rw [heq writer rtv]
  · rw [heq writer rtv]

set_option maxRecDepth 16384 in
theorem C2_witness :
    (runPipeline noWriter noRtv idO cexReq).success = false ∧
    (runPipeline noWriter noRtv idO cexReq).written_files = [] ∧
    (runPipeline noWriter noRtv idO cexReq).validation_errors =
      (validate (buildWorld idO cexReq).1).errors ∧
    runPipeline noWriter noRtv idO cexReq =
      runPipeline oneWriter noRtv idO cexReq :=
  C2_failed_validation_closed noWriter oneWriter noRtv noRtv idO cexReq
    (by decide)

/-- C4 counterexample: `"disco spy"` scores one point for DISCO (`disco`)
and one for CRIME_SPY (`spy`); the keyword table declares DISCO's row
before CRIME_SPY's, so the spec's tie-break (first-declared row of the
keyword table) yields DISCO — but the code breaks ties in `WorldTheme`
enum declaration order (the scores dict's insertion order) and returns
CRIME_SPY. -/
theorem C4_counterexample_disco_spy :
    classify "disco spy" = .CRIME_SPY ∧
    classifySpecTableOrder "disco spy" = .DISCO ∧
    WorldTheme.CRIME_SPY ≠ WorldTheme.DISCO :=
  ⟨by decide, by decide, by decide⟩

/-- C4 (amended): classification is total, scores whole-word hits 2/1 by
keyword length (folded into `themeScore`), returns a maximal-scoring
tag, falls back to ORIGINAL exactly when the winning score is zero, and
resolves ties by *enum declaration order* (`WorldTheme` order, the
iteration order of the scores dict): every tag declared before the
winner scores strictly less. -/
theorem C4_classify_first_max_enum_order (name : String) :
    classify name ∈ themeEnumOrder ∧
    (∀ t, themeScore name t ≤ themeScore name (classify name)) ∧
    (themeScore name (classify name) = 0 → classify name = .ORIGINAL) ∧
    (themeScore name (classify name) ≠ 0 →
      ∃ pre post, themeEnumOrder = pre ++ classify name :: post ∧
        ∀ t ∈ pre, themeScore name t < themeScore name (classify name)) :=
  classifyCore_spec (themeScore name) .SCIFI
    [.MILITARY, .FANTASY, .DOMESTIC, .HORROR, .ADVENTURE, .SITCOM,
     .CRIME_SPY, .DISCO, .NIGHTCLUB, .ORIGINAL] (classify name) rfl
    (fun t => by cases t <;> decide) (themeScore_ORIGINAL name)

theorem C4_witness :
    classify "disco spy" ∈ themeEnumOrder ∧
    themeScore "disco spy" .DISCO ≤
      themeScore "disco spy" (classify "disco spy") :=
  ⟨(C4_classify_first_max_enum_order "disco spy").1,
   (C4_classify_first_max_enum_order "disco spy").2.1 .DISCO⟩

/-- C8: a sprite with an empty spawn-room list yields a warning and no
error in the spawn check, and a world is valid exactly when the error
list is empty — warnings never make `is_valid` false. -/
theorem C8_empty_spawn_is_warning (w : WorldConfig) (room_ids : List String)
    (sid : String) (s : Sprite) (hempty : s.spawn_rooms = []) :
    (spawnFindings room_ids sid s).1 = [] ∧
    (spawnFindings room_ids sid s).2 =
      ["[sprites][" ++ sid ++ "] has no spawn_rooms"] ∧
    ((validate w).is_valid = true ↔ (validate w).errors = []) := by
  refine ⟨?_, ?_, ?_⟩
  · simp [spawnFindings, hempty]
  · simp [spawnFindings, hempty]
  · simp [ValidationResult.is_valid, List.length_eq_zero]

theorem C8_witness :
    (spawnFindings ["ra"] "s" sEmptySpawn).1 = [] ∧
    (spawnFindings ["ra"] "s" sEmptySpawn).2 =
      ["[sprites][" ++ "s" ++ "] has no spawn_rooms"] ∧
    ((validate wC7).is_valid = true ↔ (validate wC7).errors = []) :=
  C8_empty_spawn_is_warning wC7 ["ra"] "s" sEmptySpawn rfl

/-- C9 counterexample: with the adversarial custom names, the clamped
room count is 5 but the slug list has a duplicate (`y_1` twice), and the
returned room map holds only 4 entries — refuting unconditional
pairwise-distinct ids/exact room_count size. -/
theorem C9_counterexample_duplicate_ids :
    clampCount 5 = 5 ∧
    ¬ (genIds cexO 5 thO (some cexNames)).Nodup ∧
    (generate cexO 5 thO "W" (some cexNames)).length = 4 :=
  ⟨by decide, by decide, by decide⟩

/-- C9 (amended): whenever the id slugs are pairwise distinct (violable
only by adversarial custom names), the generated map's keys are exactly
the generated id list in order — hence the map has exactly the clamped
room count of entries, each id naming one distinct room record. -/
theorem C9_generate_ids_distinct (O : Oracle) (rc : Nat)
    (theme : ThemeDefaults) (wn : String) (cn : Option (List String))
    (hnd : (genIds O (clampCount rc) theme cn).Nodup) :
    dkeys (generate O rc theme wn cn) = genIds O (clampCount rc) theme cn ∧
    (generate O rc theme wn cn).length = clampCount rc := by
  have hgen : generate O rc theme wn cn =
      buildRooms O (clampCount rc) (genNames O (clampCount rc) theme cn)
        (genIds O (clampCount rc) theme cn) (genAdj O (clampCount rc))
        theme wn := rfl
  have hlen : (genIds O (clampCount rc) theme cn).length = clampCount rc :=
    genIds_length O (clampCount rc) theme cn
  have hkeys : dkeys (generate O rc theme wn cn) =
      genIds O (clampCount rc) theme cn := by
    have hmap := map_getD_range (genIds O (clampCount rc) theme cn)
    rw [hlen] at hmap
    rw [hgen, dkeys_buildRooms_eq hnd (le_of_eq hlen.symm), hmap]
  refine ⟨hkeys, ?_⟩
  have h1 : (dkeys (generate O rc theme wn cn)).length =
      (generate O rc theme wn cn).length := by
    simp [dkeys]
  rw [← h1, hkeys, hlen]

theorem C9_witness :
    dkeys (generate idO 4 thO "w2" none) = genIds idO (clampCount 4) thO none ∧
    (generate idO 4 thO "w2" none).length = clampCount 4 :=
  C9_generate_ids_distinct idO 4 thO "w2" none (by decide)

/-- C10 counterexample: at the adversarial input, `entrance` has an exit
`west -> y_1`, but `y_1` has no exit `east -> entrance` — mutuality
fails once duplicate slugs collapse two rooms into one record. -/
theorem C10_counterexample_nonmutual_exit :
    ("west", "y_1") ∈ exitsAt (generate cexO 5 thO "W" (some cexNames))
      "entrance" ∧
    oppositeDir "west" = "east" ∧
    ("east", "entrance") ∉ exitsAt (generate cexO 5 thO "W" (some cexNames))
      "y_1" :=
  ⟨by decide, by decide, by decide⟩

/-- C10 (amended): whenever the id slugs are pairwise distinct, every
generated exit is mutual and direction-paired: if room `a` maps
direction `d` to room `b`, then room `b` maps the axis-opposite of `d`
back to `a`. -/
theorem C10_generate_exits_mutual (O : Oracle) (rc : Nat)
    (theme : ThemeDefaults) (wn : String) (cn : Option (List String))
    (hnd : (genIds O (clampCount rc) theme cn).Nodup) :
    ∀ a b d, (d, b) ∈ exitsAt (generate O rc theme wn cn) a →
      (oppositeDir d, a) ∈ exitsAt (generate O rc theme wn cn) b := by
  intro a b d hd
  have hn1 : 1 ≤ clampCount rc := le_trans (by omega) (le_max_left 3 _)
  have hgen : generate O rc theme wn cn =
      buildRooms O (clampCount rc) (genNames O (clampCount rc) theme cn)
        (genIds O (clampCount rc) theme cn) (genAdj O (clampCount rc))
        theme wn := rfl
  have hlen : clampCount rc ≤ (genIds O (clampCount rc) theme cn).length := by
    rw [genIds_length]
  rw [hgen] at hd ⊢
  obtain ⟨rm, hlk, hmem⟩ := mem_exitsAt_elim hd
  obtain ⟨i, hi, ha, hrm⟩ := dlookup_buildRooms_elim hnd hlen hlk
  subst ha
  subst hrm
  rw [roomAt_exits] at hmem
  obtain ⟨j, r, hjr, hb⟩ := mem_buildExits_elim hmem
  subst hb
  have ginv := graphInv_genAdj O hn1
  have hbound := ginv.bound i (j, d, r) hjr
  have hsym := ginv.sym i j d r hjr
  have hro : oppositeDir d = r := by
    rcases ginv.pair i j d r hjr with hp | hp
    · exact (pair_facts hp).2.2.2.2.2.1
    · exact (pair_facts hp).2.2.2.2.2.2
  have hallr : ALL_DIRECTIONS.contains r = true := by
    rcases ginv.pair i j d r hjr with hp | hp
    · exact (pair_facts hp).2.2.2.2.1
    · exact (pair_facts hp).2.2.2.1
  rw [exitsAt_eq_of_lookup (dlookup_buildRooms hnd hlen hbound.2),
    roomAt_exits, hro]
  exact mem_buildExits_of_entry hsym (ginv.nodup j) hallr

theorem mem_buildRooms_elim {O : Oracle} {names ids : List String}
    {adj : Adj} {theme : ThemeDefaults} {wn : String} :
    ∀ {n : Nat} {p : String × Room},
      p ∈ buildRooms O n names ids adj theme wn →
      ∃ i, i < n ∧ p.2 = roomAt O names ids adj theme wn i
  | 0, p, h => by simp [buildRooms] at h
  | n+1, p, h => by
    rw [buildRooms_succ] at h
    obtain ⟨x, y⟩ := p
    rcases mem_dinsert_elim h with ⟨-, hy⟩ | h'
    · exact ⟨n, by omega, hy⟩
    · obtain ⟨i, hi, hp⟩ := mem_buildRooms_elim h'
      exact ⟨i, by omega, hp⟩

/-- C5: every exits dict the generator emits uses only the six
sanctioned direction labels, and the round-trip verifier reports a
non-engine direction key found in a written rooms artifact as an
error. -/
theorem C5_exit_labels_sanctioned (O : Oracle) (rc : Nat)
    (theme : ThemeDefaults) (wn : String) (cn : Option (List String))
    (a : ParsedArtifacts) :
    (∀ p ∈ generate O rc theme wn cn, ∀ kv ∈ p.2.exits,
      ALL_DIRECTIONS.contains kv.1 = true) ∧
    (∀ s sec, (s, sec) ∈ a.rooms.sections → ∀ dr ∈ INVALID_FOR_ENGINE,
      dr ∈ dkeys sec → (roundTripVerify a).errors ≠ []) := by
  constructor
  · intro p hp kv hkv
    have hgen : generate O rc theme wn cn =
        buildRooms O (clampCount rc) (genNames O (clampCount rc) theme cn)
          (genIds O (clampCount rc) theme cn) (genAdj O (clampCount rc))
          theme wn := rfl
    rw [hgen] at hp
    obtain ⟨i, hi, hroom⟩ := mem_buildRooms_elim hp
    rw [hroom, roomAt_exits] at hkv
    exact mem_buildExits_dir hkv
  · intro s sec hmem dr hdr hkey
    have hfind : ("[rooms][" ++ s ++ "] exit '" ++ dr ++
        "' NOT read by engine (use only: " ++ joinComma ENGINE_DIRECTIONS ++
        ")") ∈ rtRoomFindings (dkeys a.rooms.sections) s sec := by
      unfold rtRoomFindings
      refine List.mem_append.mpr (Or.inr ?_)
      refine List.mem_flatMap.mpr ⟨dr, hdr, ?_⟩
      rw [if_pos (by simpa using hkey)]
      exact List.mem_singleton.mpr rfl
    refine List.ne_nil_of_mem (a := "FAIL: " ++ ("[rooms][" ++ s ++
      "] exit '" ++ dr ++ "' NOT read by engine (use only: " ++
      joinComma ENGINE_DIRECTIONS ++ ")")) ?_
    refine List.mem_map.mpr ⟨_, ?_, rfl⟩
    refine List.mem_append_left _ (List.mem_append_left _
      (List.mem_append_left _ (List.mem_append_left _
        (List.mem_append_left _ ?_))))
    exact List.mem_flatMap.mpr ⟨(s, sec), hmem, hfind⟩

theorem C5_witness : (roundTripVerify badArts).errors ≠ [] :=
  (C5_exit_labels_sanctioned idO 3 thO "w" none badArts).2 "entrance"
    [("enter", "entrance")] (by decide) "enter" (by decide) (by decide)

/-- C7: empty name list or room-less world yields an empty sprite map
(not an error); otherwise every generated sprite gets a non-empty
spawn-room list of at most two rooms, all drawn from the world's room
ids. -/
theorem C7_generate_sprites_spawn (O : Oracle) (names : List String)
    (theme : ThemeDefaults) (world : WorldConfig) :
    (names = [] ∨ world.rooms = [] →
      generateSprites O names theme world = []) ∧
    (world.rooms ≠ [] → ∀ p ∈ generateSprites O names theme world,
      p.2.spawn_rooms ≠ [] ∧ p.2.spawn_rooms.length ≤ 2 ∧
      ∀ r ∈ p.2.spawn_rooms, r ∈ dkeys world.rooms) := by
  constructor
  · intro h
    rcases h with rfl | hw
    · simp [generateSprites]
    · simp [generateSprites, hw]
  · intro hw p hp
    unfold generateSprites at hp
    by_cases hcond : (names.isEmpty || world.rooms.isEmpty) = true
    · rw [if_pos hcond] at hp
      simp at hp
    · rw [if_neg hcond] at hp
      have hne : dkeys world.rooms ≠ [] := by
        intro hc
        exact hw (by simpa [dkeys] using hc)
      exact spritesLoop_spawn hne names 0 [] (by simp) p hp

theorem C7_witness :
    ∀ p ∈ generateSprites idO ["Bob", "Alice", "Carol"] thO wC7,
      p.2.spawn_rooms ≠ [] ∧ p.2.spawn_rooms.length ≤ 2 ∧
      ∀ r ∈ p.2.spawn_rooms, r ∈ dkeys wC7.rooms :=
  (C7_generate_sprites_spawn idO ["Bob", "Alice", "Carol"] thO wC7).2
    (by decide)

theorem C10_witness :
    (oppositeDir "south", "entrance") ∈
      exitsAt (generate idO 3 thO "w" none) "main_hall" :=
  C10_generate_exits_mutual idO 3 thO "w" none (by decide) "entrance"
    "main_hall" "south" (by decide)

/-- C6: each of the twelve physics builders returns a self-contained
package: every transformation cross-reference (subject, result,
prerequisites, destination room) points only at objects the package
itself creates or rooms already in the world, every package object sits
in an existing room or nowhere (`none`), and both properties persist in
the world obtained by injecting the package exactly once. -/
theorem C6_physics_packages_resolved (O : Oracle) (tag : Nat)
    (pt : PhysicsType) (world : WorldConfig) (theme : ThemeDefaults)
    (hrooms : world.rooms ≠ []) :
    (∀ t ∈ (getPackage O tag pt world theme).1.transformations,
      transformResolved (dkeys (getPackage O tag pt world theme).1.objects)
        (dkeys world.rooms) t.2) ∧
    (∀ o ∈ (getPackage O tag pt world theme).1.objects,
      o.2.location = "none" ∨ o.2.location ∈ dkeys world.rooms) ∧
    (∀ t ∈ (getPackage O tag pt world theme).1.transformations,
      transformResolved
        (dkeys ((getPackage O tag pt world theme).1.inject
          (getPackage O tag pt world theme).2).objects)
        (dkeys ((getPackage O tag pt world theme).1.inject
          (getPackage O tag pt world theme).2).rooms) t.2) ∧
    (∀ o ∈ (getPackage O tag pt world theme).1.objects,
      o.2.location = "none" ∨ o.2.location ∈
        dkeys ((getPackage O tag pt world theme).1.inject
          (getPackage O tag pt world theme).2).rooms) := by
  have hne : dkeys world.rooms ≠ [] :=
    fun hc => hrooms (by simpa [dkeys] using hc)
  have hlen : 0 < (dkeys world.rooms).length := List.length_pos.mpr hne
  cases pt with
  | TEMPERATURE =>
    refine @packageGlue (getPackage O tag .TEMPERATURE world theme).1 world
      (getPackage O tag .TEMPERATURE world theme).2 ?_ ?_ rfl
    · intro t ht
      simp only [getPackage, buildTemperature, List.mem_cons,
        List.not_mem_nil, or_false] at ht
      rcases ht with rfl | rfl <;>
        simp [transformResolved, dkeys, getPackage, buildTemperature]
    · intro o ho
      simp only [getPackage, buildTemperature, List.mem_cons,
        List.not_mem_nil, or_false] at ho
      rcases ho with rfl | rfl
      · exact Or.inr (randomRoom_mem hrooms)
      · exact Or.inl rfl
  | ENERGY =>
    refine @packageGlue (getPackage O tag .ENERGY world theme).1 world
      (getPackage O tag .ENERGY world theme).2 ?_ ?_ ?_
    · intro t ht
      simp only [getPackage, buildEnergy, List.mem_cons,
        List.not_mem_nil, or_false] at ht
      subst ht
      simp [transformResolved, dkeys, getPackage, buildEnergy]
    · intro o ho
      simp only [getPackage, buildEnergy, List.mem_cons,
        List.not_mem_nil, or_false] at ho
      rcases ho with rfl | rfl
      · exact Or.inr (randomRoom_mem hrooms)
      · exact Or.inl rfl
    · simp only [getPackage, buildEnergy]
      split
      · exact dkeys_setRoomProperty _ _ _ _
      · rfl
  | LOCK_KEY =>
    refine @packageGlue (getPackage O tag .LOCK_KEY world theme).1 world
      (getPackage O tag .LOCK_KEY world theme).2 ?_ ?_ ?_
    · intro t ht
      simp only [getPackage, buildLockKey, List.mem_cons,
        List.not_mem_nil, or_false] at ht
      subst ht
      simp [transformResolved, dkeys, getPackage, buildLockKey]
    · intro o ho
      simp only [getPackage, buildLockKey, List.mem_cons,
        List.not_mem_nil, or_false] at ho
      subst ho
      exact Or.inr (randomRoom_mem hrooms)
    · simp only [getPackage, buildLockKey]
      split
      · exact dkeys_setRoomProperty _ _ _ _
      · rfl
  | CRAFTING =>
    refine @packageGlue (getPackage O tag .CRAFTING world theme).1 world
      (getPackage O tag .CRAFTING world theme).2 ?_ ?_ rfl
    · intro t ht
      simp only [getPackage, buildCrafting, List.mem_cons,
        List.not_mem_nil, or_false] at ht
      subst ht
      simp [transformResolved, dkeys, getPackage, buildCrafting]
    · intro o ho
      simp only [getPackage, buildCrafting, List.mem_cons,
        List.not_mem_nil, or_false] at ho
      rcases ho with rfl | rfl | rfl
      · exact Or.inr (randomRoom_mem hrooms)
      · exact Or.inr (randomRoom_mem hrooms)
      · exact Or.inl rfl
  | TELEPORTATION =>
    refine @packageGlue (getPackage O tag .TELEPORTATION world theme).1 world
      (getPackage O tag .TELEPORTATION world theme).2 ?_ ?_ rfl
    · intro t ht
      simp only [getPackage, buildTeleportation, List.mem_cons,
        List.not_mem_nil, or_false] at ht
      subst ht
      exact ⟨by simp [dkeys, getPackage, buildTeleportation], by simp,
        by simp, by simp, fun _ => by
          show (if (dkeys world.rooms).length > 1 then
              (dkeys world.rooms).getLastD ""
            else (dkeys world.rooms).getD 0 "") ∈ dkeys world.rooms
          split
          · exact getLastD_mem hne
          · rw [List.getD_eq_getElem _ _ hlen]
            exact List.getElem_mem _⟩
    · intro o ho
      simp only [getPackage, buildTeleportation, List.mem_cons,
        List.not_mem_nil, or_false] at ho
      subst ho
      exact Or.inr (randomRoom_mem hrooms)
  | DISGUISE =>
    refine @packageGlue (getPackage O tag .DISGUISE world theme).1 world
      (getPackage O tag .DISGUISE world theme).2 ?_ ?_ rfl
    · intro t ht
      simp only [getPackage, buildDisguise, List.mem_cons,
        List.not_mem_nil, or_false] at ht
      subst ht
      simp [transformResolved, dkeys, getPackage, buildDisguise]
    · intro o ho
      simp only [getPackage, buildDisguise, List.mem_cons,
        List.not_mem_nil, or_false] at ho
      subst ho
      exact Or.inr (randomRoom_mem hrooms)
  | EXPLOSIVES =>
    refine @packageGlue (getPackage O tag .EXPLOSIVES world theme).1 world
      (getPackage O tag .EXPLOSIVES world theme).2 ?_ ?_ rfl
    · intro t ht
      simp only [getPackage, buildExplosives, List.mem_cons,
        List.not_mem_nil, or_false] at ht
      rcases ht with rfl | rfl <;>
        simp [transformResolved, dkeys, getPackage, buildExplosives]
    · intro o ho
      simp only [getPackage, buildExplosives, List.mem_cons,
        List.not_mem_nil, or_false] at ho
      rcases ho with rfl | rfl <;> exact Or.inr (randomRoom_mem hrooms)
  | BRIBERY =>
    refine @packageGlue (getPackage O tag .BRIBERY world theme).1 world
      (getPackage O tag .BRIBERY world theme).2 ?_ ?_ rfl
    · intro t ht
      simp only [getPackage, buildBribery, List.mem_cons,
        List.not_mem_nil, or_false] at ht
      subst ht
      simp [transformResolved, dkeys, getPackage, buildBribery]
    · intro o ho
      simp only [getPackage, buildBribery, List.mem_cons,
        List.not_mem_nil, or_false] at ho
      subst ho
      exact Or.inr (randomRoom_mem hrooms)
  | MAGIC =>
    refine @packageGlue (getPackage O tag .MAGIC world theme).1 world
      (getPackage O tag .MAGIC world theme).2 ?_ ?_ rfl
    · intro t ht
      simp only [getPackage, buildMagic, List.mem_cons,
        List.not_mem_nil, or_false] at ht
      subst ht
      simp [transformResolved, dkeys, getPackage, buildMagic]
    · intro o ho
      simp only [getPackage, buildMagic, List.mem_cons,
        List.not_mem_nil, or_false] at ho
      rcases ho with rfl | rfl
      · exact Or.inr (randomRoom_mem hrooms)
      · exact Or.inl rfl
  | MEDICAL =>
    refine @packageGlue (getPackage O tag .MEDICAL world theme).1 world
      (getPackage O tag .MEDICAL world theme).2 ?_ ?_ rfl
    · intro t ht
      simp only [getPackage, buildMedical, List.mem_cons,
        List.not_mem_nil, or_false] at ht
      subst ht
      simp [transformResolved, dkeys, getPackage, buildMedical]
    · intro o ho
      simp only [getPackage, buildMedical, List.mem_cons,
        List.not_mem_nil, or_false] at ho
      rcases ho with rfl | rfl <;> exact Or.inr (randomRoom_mem hrooms)
  | GROWTH =>
    refine @packageGlue (getPackage O tag .GROWTH world theme).1 world
      (getPackage O tag .GROWTH world theme).2 ?_ ?_ rfl
    · intro t ht
      simp only [getPackage, buildGrowth, List.mem_cons,
        List.not_mem_nil, or_false] at ht
      subst ht
      simp [transformResolved, dkeys, getPackage, buildGrowth]
    · intro o ho
      simp only [getPackage, buildGrowth, List.mem_cons,
        List.not_mem_nil, or_false] at ho
      rcases ho with rfl | rfl
      · exact Or.inr (randomRoom_mem hrooms)
      · exact Or.inl rfl
  | ALIEN_TECH =>
    refine @packageGlue (getPackage O tag .ALIEN_TECH world theme).1 world
      (getPackage O tag .ALIEN_TECH world theme).2 ?_ ?_ rfl
    · intro t ht
      simp only [getPackage, buildAlienTech, List.mem_cons,
        List.not_mem_nil, or_false] at ht
      rcases ht with rfl | rfl <;>
        simp [transformResolved, dkeys, getPackage, buildAlienTech]
    · intro o ho
      simp only [getPackage, buildAlienTech, List.mem_cons,
        List.not_mem_nil, or_false] at ho
      rcases ho with rfl | rfl | rfl
      · exact Or.inr (randomRoom_mem hrooms)
      · exact Or.inr (randomRoom_mem hrooms)
      · exact Or.inl rfl

theorem C6_witness :
    transformResolved (dkeys (getPackage idO 0 .CRAFTING wC7 thO).1.objects)
      (dkeys wC7.rooms)
      ((getPackage idO 0 .CRAFTING wC7 thO).1.transformations.getD 0 t0).2 :=
  (C6_physics_packages_resolved idO 0 .CRAFTING wC7 thO (by decide)).1
    ((getPackage idO 0 .CRAFTING wC7 thO).1.transformations.getD 0 t0)
    (by decide)

theorem mem_dkeys_elim {α : Type} {m : List (String × α)} {k : String}
    (h : k ∈ dkeys m) : ∃ v, (k, v) ∈ m := by
  unfold dkeys at h
  obtain ⟨p, hp, he⟩ := List.mem_map.mp h
  refine ⟨p.2, ?_⟩
  rw [← he]
  simpa using hp

/-- C3: the auto-repair pass introduces no new identifiers — every room,
object and spawn-room identifier mentioned by the repaired artifacts
already occurred in the artifacts before repair.  The hypothesis asks
the room section names to be stripped, non-empty and comma-free (the
form every artifact this program writes has); a room name containing a
comma would be re-split into fresh identifiers by the spawn-room
round-trip. -/
theorem C3_auto_repair_no_new_ids
    (rooms objs sprs rooms' objs' sprs' : ParsedIni)
    (hwf : ∀ s ∈ dkeys rooms.sections, pyStrip s = s ∧ s ≠ "" ∧ ',' ∉ s.data)
    (hrep : autoRepair rooms objs sprs = some (rooms', objs', sprs')) :
    ∀ x ∈ artifactIds rooms' objs' sprs', x ∈ artifactIds rooms objs sprs := by
  have hout : ∀ y, (y ∈ dkeys rooms.sections ∨
      y ∈ rooms.sections.flatMap (fun p =>
        ((p.2.filter (fun kv => DIRECTIONS12.contains kv.1)).map
          (fun kv => kv.2))) ∨
      y ∈ dkeys objs.sections ∨
      y ∈ objs.sections.filterMap (fun p => dlookup p.2 "location") ∨
      y ∈ dkeys sprs.sections ∨
      y ∈ sprs.sections.flatMap (fun p =>
        ((splitComma ((dlookup p.2 "spawn_rooms").getD "")).map
          pyStrip).filter (fun r => r ≠ ""))) →
      y ∈ artifactIds rooms objs sprs := by
    intro y hy
    simp only [artifactIds, List.mem_append]
    tauto
  unfold autoRepair at hrep
  simp only [] at hrep
  split at hrep
  case h_2 => exact absurd hrep (by simp)
  case h_1 o' s' heqo heqs =>
    injection hrep with hrep
    injection hrep with ha hbc
    injection hbc with hb hc
    subst ha
    subst hb
    subst hc
    intro x hx
    simp only [artifactIds, List.mem_append] at hx
    rcases hx with ((((h1 | h2) | h3) | h4) | h5) | h6
    · rw [dkeys_repairRooms] at h1
      exact hout _ (Or.inl h1)
    · obtain ⟨p', hp', hx2⟩ := List.mem_flatMap.mp h2
      obtain ⟨p, hp, rfl⟩ := List.mem_map.mp hp'
      obtain ⟨kv, hkv, rfl⟩ := List.mem_map.mp hx2
      have hkv2 := List.mem_filter.mp hkv
      have hkv3 := List.mem_of_mem_filter hkv2.1
      exact hout _ (Or.inr (Or.inl (List.mem_flatMap.mpr ⟨p, hp,
        List.mem_map.mpr ⟨kv, List.mem_filter.mpr ⟨hkv3, hkv2.2⟩, rfl⟩⟩)))
    · obtain ⟨v, hv⟩ := mem_dkeys_elim h3
      obtain ⟨p, hp, hfst, -⟩ := repairPass_elim heqo (x, v) hv
      have hkp : p.1 ∈ dkeys objs.sections :=
        mem_keys_of_mem (show (p.1, p.2) ∈ objs.sections by simpa using hp)
      rw [← hfst] at hkp
      exact hout _ (Or.inr (Or.inr (Or.inl hkp)))
    · obtain ⟨p', hp', hlk⟩ := List.mem_filterMap.mp h4
      obtain ⟨p, hp, hfst, hsec⟩ := repairPass_elim heqo p' hp'
      rcases repairObjSection_spec hsec with heq | ⟨fv, hfb, heq⟩
      · rw [heq] at hlk
        exact hout _ (Or.inr (Or.inr (Or.inr (Or.inl
          (List.mem_filterMap.mpr ⟨p, hp, hlk⟩)))))
      · rw [heq, dlookup_dinsert_self] at hlk
        injection hlk with hlk
        subst hlk
        have hfv := fallbackRoom_mem hfb
        rw [dkeys_repairRooms] at hfv
        exact hout _ (Or.inl hfv)
    · obtain ⟨v, hv⟩ := mem_dkeys_elim h5
      obtain ⟨p, hp, hfst, -⟩ := repairPass_elim heqs (x, v) hv
      have hkp : p.1 ∈ dkeys sprs.sections :=
        mem_keys_of_mem (show (p.1, p.2) ∈ sprs.sections by simpa using hp)
      rw [← hfst] at hkp
      exact hout _ (Or.inr (Or.inr (Or.inr (Or.inr (Or.inl hkp)))))
    · obtain ⟨p', hp', hx6⟩ := List.mem_flatMap.mp h6
      obtain ⟨p, hp, hfst, hsec⟩ := repairPass_elim heqs p' hp'
      rcases repairSprSection_spec hsec with heq |
        ⟨fv, raw, L, hfb, hlraw, heq, hLne, hLmem⟩
      · rw [heq] at hx6
        exact hout _ (Or.inr (Or.inr (Or.inr (Or.inr (Or.inr
          (List.mem_flatMap.mpr ⟨p, hp, hx6⟩))))))
      · rw [heq, dlookup_dinsert_self] at hx6
        simp only [Option.getD_some] at hx6
        have hfv := fallbackRoom_mem hfb
        rw [dkeys_repairRooms] at hfv
        have hwfL : ∀ z ∈ L, pyStrip z = z ∧ z ≠ "" ∧ ',' ∉ z.data := by
          intro z hz
          rcases hLmem z hz with ⟨hz1, -⟩ | rfl
          · have hz2 := List.mem_of_mem_filter hz1
            obtain ⟨w, hw, rfl⟩ := List.mem_map.mp hz2
            refine ⟨pyStrip_idem w, ?_, ?_⟩
            · simpa using (List.mem_filter.mp hz1).2
            · intro hcm
              exact splitComma_no_comma hw (pyStrip_data_subset w ',' hcm)
          · exact hwf _ hfv
        rw [split_join_strip L hwfL hLne] at hx6
        rcases hLmem x hx6 with ⟨hx1, -⟩ | rfl
        · refine hout _ (Or.inr (Or.inr (Or.inr (Or.inr (Or.inr
            (List.mem_flatMap.mpr ⟨p, hp, ?_⟩))))))
          rw [hlraw]
          simpa using hx1
        · exact hout _ (Or.inl hfv)

theorem C3_witness : "entrance" ∈ artifactIds c3Rooms c3Objs c3Sprs :=
  C3_auto_repair_no_new_ids c3Rooms c3Objs c3Sprs
    (ParsedIni.mk [("entrance", [("north", "hall")]),
      ("hall", [("south", "entrance")])])
    (ParsedIni.mk [("obj1", [("location", "entrance")])])
    (ParsedIni.mk [("spr1", [("spawn_rooms", "hall")])])
    (by decide) (by decide) "entrance" (by decide)

end N2NHU
